import Mathlib

/-!
# A shallow embedding of the RISC-V emulator (`dram.c`, `bus.c`, `csr.c`, `cpu.c`, `main.c`)

Conventions of the embedding.

* A C value of type `uint64_t`, `uint32_t` or `uint8_t` is a natural number; every place where
  the C code truncates (a cast, an assignment to a narrower object, unsigned wrap-around) is an
  explicit `% 2 ^ w` (`u64`, `u32`, `u8`).
* A C value of a signed type is an integer; `i64`, `i32`, `i16`, `i8` are the conversions from the
  unsigned bit pattern (two's complement, as on every host the emulator builds on), `ofInt` is the
  conversion of a signed value back to `uint64_t`.  Signed addition and subtraction wrap and `>>`
  on a signed operand is the arithmetic shift (floor division by a power of two).
* Operations for which C defines no result are faults: an access to `dram->mem` outside the array,
  a division by zero, a shift whose count is not smaller than the width of the promoted operand.
  `exit(0)` after the misalignment message is a fault as well.
* `printf` / `print_op` output is not part of the state.  `dump_registers` only prints; the
  `exec_..._D` functions are never called by `cpu_execute`; of `read_file` only the copy of the
  image into DRAM matters (`loadImage`).
* The case labels that `includes/opcodes.h` does not define are the fields of `Opcodes`; `rv64`
  fills them with the encodings of the instruction set manual for concrete runs.
-/

namespace RiscvEmu

/-! ## Machine integers -/

/-- Truncation to `uint64_t`. -/
def u64 (n : Nat) : Nat := n % 2 ^ 64

/-- Truncation to `uint32_t`. -/
def u32 (n : Nat) : Nat := n % 2 ^ 32

/-- Truncation to `uint8_t`. -/
def u8 (n : Nat) : Nat := n % 2 ^ 8

/-- The cast `(int64_t) x`: the low 64 bits of `x` read in two's complement. -/
def i64 (x : Nat) : Int :=
  if x % 2 ^ 64 < 2 ^ 63 then ((x % 2 ^ 64 : Nat) : Int) else ((x % 2 ^ 64 : Nat) : Int) - 2 ^ 64

/-- The cast `(int32_t) x`: the low 32 bits of `x` read in two's complement. -/
def i32 (x : Nat) : Int :=
  if x % 2 ^ 32 < 2 ^ 31 then ((x % 2 ^ 32 : Nat) : Int) else ((x % 2 ^ 32 : Nat) : Int) - 2 ^ 32

/-- The cast `(int16_t) x`. -/
def i16 (x : Nat) : Int :=
  if x % 2 ^ 16 < 2 ^ 15 then ((x % 2 ^ 16 : Nat) : Int) else ((x % 2 ^ 16 : Nat) : Int) - 2 ^ 16

/-- The cast `(int8_t) x`. -/
def i8 (x : Nat) : Int :=
  if x % 2 ^ 8 < 2 ^ 7 then ((x % 2 ^ 8 : Nat) : Int) else ((x % 2 ^ 8 : Nat) : Int) - 2 ^ 8

/-- Conversion of a signed value to `uint64_t` (reduction modulo `2 ^ 64`). -/
def ofInt (i : Int) : Nat := (i % 2 ^ 64).toNat

/-- Arithmetic right shift of a signed value: `i >> k` rounds towards minus infinity. -/
def sar (i : Int) (k : Nat) : Int := i / 2 ^ k

/-- The ways an operation of the emulator can fail to produce a state. -/
inductive Fault where
  /-- `exit(0)` after "pc address misalligned" in `exec_JAL` / `exec_JALR` -/
  | addrMisaligned
  /-- an index into `dram->mem` that is not below `DRAM_SIZE` -/
  | outOfBounds
  /-- `/` or `%` with a zero divisor -/
  | divByZero
  /-- a shift count that is not below the width of the shifted operand -/
  | shiftCount
  deriving DecidableEq, Repr

/-! ## DRAM (`includes/dram.h`, `src/dram.c`) -/

/-- The macro `DRAM_SIZE`. -/
def DRAM_SIZE : Nat := 1024 * 1024 * 1

/-- The macro `DRAM_BASE`. -/
def DRAM_BASE : Nat := 0x80000000

/-- The record `struct DRAM`: `mem` is the byte array, indexed by offset. -/
structure DRAM where
  mem : Nat → Nat

/-- The index expression `addr - DRAM_BASE + k`, computed in `uint64_t`. -/
def dram_index (addr k : Nat) : Nat := (addr + (2 ^ 64 - DRAM_BASE) + k) % 2 ^ 64

/-- The read `dram->mem[addr - DRAM_BASE + k]`. -/
def DRAM.read (d : DRAM) (addr k : Nat) : Except Fault Nat :=
  if dram_index addr k < DRAM_SIZE then .ok (d.mem (dram_index addr k)) else .error .outOfBounds

/-- The assignment `dram->mem[addr - DRAM_BASE + k] = (uint8_t) v`. -/
def DRAM.write (d : DRAM) (addr k v : Nat) : Except Fault DRAM :=
  if dram_index addr k < DRAM_SIZE then
    .ok { mem := fun j => if j = dram_index addr k then u8 v else d.mem j }
  else .error .outOfBounds

def dram_load_8 (dram : DRAM) (addr : Nat) : Except Fault Nat := do
  let b0 ← dram.read addr 0
  pure b0

def dram_load_16 (dram : DRAM) (addr : Nat) : Except Fault Nat := do
  let b0 ← dram.read addr 0
  let b1 ← dram.read addr 1
  pure (b0 ||| (b1 <<< 8))

def dram_load_32 (dram : DRAM) (addr : Nat) : Except Fault Nat := do
  let b0 ← dram.read addr 0
  let b1 ← dram.read addr 1
  let b2 ← dram.read addr 2
  let b3 ← dram.read addr 3
  pure (b0 ||| (b1 <<< 8) ||| (b2 <<< 16) ||| (b3 <<< 24))

def dram_load_64 (dram : DRAM) (addr : Nat) : Except Fault Nat := do
  let b0 ← dram.read addr 0
  let b1 ← dram.read addr 1
  let b2 ← dram.read addr 2
  let b3 ← dram.read addr 3
  let b4 ← dram.read addr 4
  let b5 ← dram.read addr 5
  let b6 ← dram.read addr 6
  let b7 ← dram.read addr 7
  pure (b0 ||| (b1 <<< 8) ||| (b2 <<< 16) ||| (b3 <<< 24)
    ||| (b4 <<< 32) ||| (b5 <<< 40) ||| (b6 <<< 48) ||| (b7 <<< 56))

def dram_load (dram : DRAM) (addr size : Nat) : Except Fault Nat :=
  if size = 8 then dram_load_8 dram addr
  else if size = 16 then dram_load_16 dram addr
  else if size = 32 then dram_load_32 dram addr
  else if size = 64 then dram_load_64 dram addr
  else pure 1

def dram_store_8 (dram : DRAM) (addr value : Nat) : Except Fault DRAM := do
  dram.write addr 0 (value &&& 0xff)

def dram_store_16 (dram : DRAM) (addr value : Nat) : Except Fault DRAM := do
  let d ← dram.write addr 0 (value &&& 0xff)
  d.write addr 1 ((value >>> 8) &&& 0xff)

def dram_store_32 (dram : DRAM) (addr value : Nat) : Except Fault DRAM := do
  let d ← dram.write addr 0 (value &&& 0xff)
  let d ← d.write addr 1 ((value >>> 8) &&& 0xff)
  let d ← d.write addr 2 ((value >>> 16) &&& 0xff)
  d.write addr 3 ((value >>> 24) &&& 0xff)

def dram_store_64 (dram : DRAM) (addr value : Nat) : Except Fault DRAM := do
  let d ← dram.write addr 0 (value &&& 0xff)
  let d ← d.write addr 1 ((value >>> 8) &&& 0xff)
  let d ← d.write addr 2 ((value >>> 16) &&& 0xff)
  let d ← d.write addr 3 ((value >>> 24) &&& 0xff)
  let d ← d.write addr 4 ((value >>> 32) &&& 0xff)
  let d ← d.write addr 5 ((value >>> 40) &&& 0xff)
  let d ← d.write addr 6 ((value >>> 48) &&& 0xff)
  d.write addr 7 ((value >>> 56) &&& 0xff)

def dram_store (dram : DRAM) (addr size value : Nat) : Except Fault DRAM :=
  if size = 8 then dram_store_8 dram addr value
  else if size = 16 then dram_store_16 dram addr value
  else if size = 32 then dram_store_32 dram addr value
  else if size = 64 then dram_store_64 dram addr value
  else pure dram

/-- A DRAM whose cells hold bytes, as the element type `uint8_t` of `mem` guarantees. -/
def DRAM.Bytes (d : DRAM) : Prop := ∀ i, d.mem i < 256

/-- The DRAM with every cell zero. -/
def zeroDRAM : DRAM := { mem := fun _ => 0 }

/-! ## Bus (`includes/bus.h`, `src/bus.c`) -/

/-- The record `struct BUS`. -/
structure BUS where
  dram : DRAM

def bus_load (bus : BUS) (addr size : Nat) : Except Fault Nat :=
  dram_load bus.dram addr size

def bus_store (bus : BUS) (addr size value : Nat) : Except Fault BUS := do
  let d ← dram_store bus.dram addr size value
  pure { bus with dram := d }

/-! ## Opcode macros (`includes/opcodes.h`) -/

def LUI : Nat := 0x37
def AUIPC : Nat := 0x17
def JAL : Nat := 0x6f
def JALR : Nat := 0x67
def B_TYPE : Nat := 0x63
def BEQ : Nat := 0x0
def BNE : Nat := 0x1
def BLT : Nat := 0x4
def BGE : Nat := 0x5
def BLTU : Nat := 0x6
def BGEU : Nat := 0x7
def LOAD : Nat := 0x03
def LB : Nat := 0x0
def LH : Nat := 0x1
def LW : Nat := 0x2
def LD : Nat := 0x3
def LBU : Nat := 0x4
def LHU : Nat := 0x5
def LWU : Nat := 0x6
def S_TYPE : Nat := 0x23
def SB : Nat := 0x0
def SH : Nat := 0x1
def SW : Nat := 0x2
def SD : Nat := 0x3
def I_TYPE : Nat := 0x13
def ADDI : Nat := 0x0
def SLLI : Nat := 0x1
def SLTI : Nat := 0x2
def SLTIU : Nat := 0x3
def XORI : Nat := 0x4
def SRI : Nat := 0x5
def SRLI : Nat := 0x00
def SRAI : Nat := 0x20
def ORI : Nat := 0x6
def ANDI : Nat := 0x7
def R_TYPE : Nat := 0x33
def ADD : Nat := 0x0
def I_TYPE_64 : Nat := 0x1b
def ADDIW : Nat := 0x0
def SLLIW : Nat := 0x1
def SRIW : Nat := 0x5
def SRLIW : Nat := 0x00
def SRAIW : Nat := 0x20
def R_TYPE_64 : Nat := 0x3b
def ADDSUB : Nat := 0x0
def ADDW : Nat := 0x00
def MULW : Nat := 0x01
def SUBW : Nat := 0x20
def DIVW : Nat := 0x4
def SLLW : Nat := 0x1
def SRW : Nat := 0x5
def SRLW : Nat := 0x00
def DIVUW : Nat := 0x01
def SRAW : Nat := 0x20
def REMW : Nat := 0x6
def REMUW : Nat := 0x7

/-- The case labels that `cpu_execute` switches on and that `includes/opcodes.h` does not
define (their definitions are not among the sources).  They are parameters of the embedding:
every statement about `cpu_execute` is made for a table of these values. -/
structure Opcodes where
  SUB : Nat
  SLL : Nat
  SLT : Nat
  SLTU : Nat
  XOR : Nat
  SR : Nat
  SRL : Nat
  SRA : Nat
  OR : Nat
  AND : Nat
  FENCE : Nat
  CSR : Nat
  ECALLBREAK : Nat
  CSRRW : Nat
  CSRRS : Nat
  CSRRC : Nat
  CSRRWI : Nat
  CSRRSI : Nat
  CSRRCI : Nat
  AMO_W : Nat
  LR_W : Nat
  SC_W : Nat
  AMOSWAP_W : Nat
  AMOADD_W : Nat
  AMOXOR_W : Nat
  AMOAND_W : Nat
  AMOOR_W : Nat
  AMOMIN_W : Nat
  AMOMAX_W : Nat
  AMOMINU_W : Nat
  AMOMAXU_W : Nat

/-- The table with the encodings of the RISC-V instruction set manual, for concrete runs. -/
def rv64 : Opcodes where
  SUB := 0x20
  SLL := 0x1
  SLT := 0x2
  SLTU := 0x3
  XOR := 0x4
  SR := 0x5
  SRL := 0x00
  SRA := 0x20
  OR := 0x6
  AND := 0x7
  FENCE := 0x0f
  CSR := 0x73
  ECALLBREAK := 0x0
  CSRRW := 0x1
  CSRRS := 0x2
  CSRRC := 0x3
  CSRRWI := 0x5
  CSRRSI := 0x6
  CSRRCI := 0x7
  AMO_W := 0x2f
  LR_W := 0x02
  SC_W := 0x03
  AMOSWAP_W := 0x01
  AMOADD_W := 0x00
  AMOXOR_W := 0x04
  AMOAND_W := 0x0c
  AMOOR_W := 0x08
  AMOMIN_W := 0x10
  AMOMAX_W := 0x14
  AMOMINU_W := 0x18
  AMOMAXU_W := 0x1c

/-! ## CPU state -/

/-- Modelled from the spec: the record `CPU` of `includes/cpu.h`, which is not among the
sources.  Section 3 of the specification gives its parts: 32 unsigned 64-bit register slots,
a 64-bit program counter, a CSR file of 64-bit values indexed by 0..4095, and the bus that
`cpu.c` reaches as `cpu->bus`. -/
structure CPU where
  regs : Nat → Nat
  pc : Nat
  bus : BUS
  csr : Nat → Nat

/-- The assignment `cpu->regs[i] = v`. -/
def CPU.setReg (cpu : CPU) (i v : Nat) : CPU :=
  { cpu with regs := fun j => if j = i then v else cpu.regs j }

/-- The state invariant the C types give: registers, pc and CSRs are 64-bit, memory cells bytes. -/
structure CPU.WF (cpu : CPU) : Prop where
  regs_lt : ∀ i, cpu.regs i < 2 ^ 64
  pc_lt : cpu.pc < 2 ^ 64
  csr_lt : ∀ i, cpu.csr i < 2 ^ 64
  bytes : cpu.bus.dram.Bytes

/-! ## `src/csr.c` -/

def csr_read (cpu : CPU) (csr : Nat) : Nat := u64 (u32 (cpu.csr csr))

def csr_write (cpu : CPU) (csr value : Nat) : CPU :=
  { cpu with csr := fun j => if j = csr then value else cpu.csr j }

/-! ## `src/cpu.c`: initialisation, fetch, memory access -/

/-- The macro `ADDR_MISALIGNED`. -/
def ADDR_MISALIGNED (addr : Nat) : Nat := addr &&& 0x3

/-- The function `cpu_init`: it assigns `regs[0]`, `regs[2]` and `pc` of the record it is given
and nothing else. -/
def cpu_init (cpu : CPU) : CPU :=
  { (cpu.setReg 0 0x00).setReg 2 (u32 (DRAM_BASE + DRAM_SIZE)) with pc := DRAM_BASE }

def cpu_fetch (cpu : CPU) : Except Fault Nat := do
  let inst ← bus_load cpu.bus cpu.pc 32
  pure (u32 inst)

def cpu_load (cpu : CPU) (addr size : Nat) : Except Fault Nat :=
  bus_load cpu.bus addr size

def cpu_store (cpu : CPU) (addr size value : Nat) : Except Fault CPU := do
  let b ← bus_store cpu.bus addr size value
  pure { cpu with bus := b }

/-! ## Instruction decoder -/

def rd (inst : Nat) : Nat := (inst >>> 7) &&& 0x1f

def rs1 (inst : Nat) : Nat := (inst >>> 15) &&& 0x1f

def rs2 (inst : Nat) : Nat := (inst >>> 20) &&& 0x1f

def imm_I (inst : Nat) : Nat := ofInt (sar (i32 (inst &&& 0xfff00000)) 20)

def imm_S (inst : Nat) : Nat :=
  ofInt (sar (i32 (inst &&& 0xfe000000)) 20) ||| ((inst >>> 7) &&& 0x1f)

def imm_B (inst : Nat) : Nat :=
  ofInt (sar (i32 (inst &&& 0x80000000)) 19)
    ||| u32 ((inst &&& 0x80) <<< 4)
    ||| ((inst >>> 20) &&& 0x7e0)
    ||| ((inst >>> 7) &&& 0x1e)

def imm_U (inst : Nat) : Nat := ofInt (i32 (inst &&& 0xfffff999))

def imm_J (inst : Nat) : Nat :=
  ofInt (sar (i32 (inst &&& 0x80000000)) 11)
    ||| (inst &&& 0xff000)
    ||| ((inst >>> 9) &&& 0x800)
    ||| ((inst >>> 20) &&& 0x7fe)

def shamt (inst : Nat) : Nat := u32 (imm_I inst &&& 0x1f)

def csr (inst : Nat) : Nat := (inst &&& 0xfff00000) >>> 20

/-- The local `opcode` of `cpu_execute`. -/
def opcode (inst : Nat) : Nat := inst &&& 0x7f

/-- The local `funct3` of `cpu_execute`. -/
def funct3 (inst : Nat) : Nat := (inst >>> 12) &&& 0x7

/-- The local `funct7` of `cpu_execute`. -/
def funct7 (inst : Nat) : Nat := (inst >>> 25) &&& 0x7f

/-! ## Instruction execution -/

/-- The difference `a - b` computed in `uint64_t`. -/
def usub (a b : Nat) : Nat := (a + (2 ^ 64 - b % 2 ^ 64)) % 2 ^ 64

/-- The shift `v << c` of a `uint64_t` operand: undefined unless `c < 64`. -/
def shl64 (v c : Nat) : Except Fault Nat :=
  if c < 64 then pure (u64 (v <<< c)) else .error .shiftCount

/-- The shift `v >> c` of a `uint64_t` operand: undefined unless `c < 64`. -/
def shr64 (v c : Nat) : Except Fault Nat :=
  if c < 64 then pure (v >>> c) else .error .shiftCount

/-- The shift `v >> c` of an `int` operand: undefined unless `c < 32`. -/
def sar32 (v : Int) (c : Nat) : Except Fault Int :=
  if c < 32 then pure (sar v c) else .error .shiftCount

/-- The shift `v << c` of a `uint64_t` operand by a signed count: undefined unless
`0 <= c < 64`. -/
def shl64i (v : Nat) (c : Int) : Except Fault Nat :=
  if 0 ≤ c ∧ c < 64 then pure (u64 (v <<< c.toNat)) else .error .shiftCount

/-- The shift `v >> c` of an `int` operand by a signed count: undefined unless `0 <= c < 32`. -/
def sar32i (v : Int) (c : Int) : Except Fault Int :=
  if 0 ≤ c ∧ c < 32 then pure (sar v c.toNat) else .error .shiftCount

/-- The quotient `a / b` of `uint64_t` operands. -/
def udiv (a b : Nat) : Except Fault Nat :=
  if b = 0 then .error .divByZero else pure (a / b)

/-- The remainder `a % b` of `uint64_t` operands. -/
def urem (a b : Nat) : Except Fault Nat :=
  if b = 0 then .error .divByZero else pure (a % b)

def exec_LUI (cpu : CPU) (inst : Nat) : Except Fault CPU :=
  pure (cpu.setReg (rd inst) (ofInt (i32 (inst &&& 0xfffff000))))

def exec_AUIPC (cpu : CPU) (inst : Nat) : Except Fault CPU :=
  let imm := imm_U inst
  pure (cpu.setReg (rd inst) (ofInt ((i64 cpu.pc + i64 imm) - 4)))

def exec_JAL (cpu : CPU) (inst : Nat) : Except Fault CPU :=
  let imm := imm_J inst
  let cpu := cpu.setReg (rd inst) cpu.pc
  let cpu := { cpu with pc := usub (u64 (cpu.pc + ofInt (i64 imm))) 4 }
  if ADDR_MISALIGNED cpu.pc ≠ 0 then .error .addrMisaligned else pure cpu

def exec_JALR (cpu : CPU) (inst : Nat) : Except Fault CPU :=
  let imm := imm_I inst
  let tmp := cpu.pc
  let cpu := { cpu with pc := u64 (cpu.regs (rs1 inst) + ofInt (i64 imm)) &&& 0xfffffffe }
  let cpu := cpu.setReg (rd inst) tmp
  if ADDR_MISALIGNED cpu.pc ≠ 0 then .error .addrMisaligned else pure cpu

def exec_BEQ (cpu : CPU) (inst : Nat) : Except Fault CPU :=
  let imm := imm_B inst
  if i64 (cpu.regs (rs1 inst)) = i64 (cpu.regs (rs2 inst)) then
    pure { cpu with pc := usub (u64 (cpu.pc + ofInt (i64 imm))) 4 }
  else pure cpu

def exec_BNE (cpu : CPU) (inst : Nat) : Except Fault CPU :=
  let imm := imm_B inst
  if i64 (cpu.regs (rs1 inst)) ≠ i64 (cpu.regs (rs2 inst)) then
    pure { cpu with pc := usub (u64 (cpu.pc + ofInt (i64 imm))) 4 }
  else pure cpu

def exec_BLT (cpu : CPU) (inst : Nat) : Except Fault CPU :=
  let imm := imm_B inst
  if i64 (cpu.regs (rs1 inst)) < i64 (cpu.regs (rs2 inst)) then
    pure { cpu with pc := usub (u64 (cpu.pc + ofInt (i64 imm))) 4 }
  else pure cpu

def exec_BGE (cpu : CPU) (inst : Nat) : Except Fault CPU :=
  let imm := imm_B inst
  if i64 (cpu.regs (rs1 inst)) ≥ i64 (cpu.regs (rs2 inst)) then
    pure { cpu with pc := usub (u64 (cpu.pc + ofInt (i64 imm))) 4 }
  else pure cpu

def exec_BLTU (cpu : CPU) (inst : Nat) : Except Fault CPU :=
  let imm := imm_B inst
  if cpu.regs (rs1 inst) < cpu.regs (rs2 inst) then
    pure { cpu with pc := usub (u64 (cpu.pc + ofInt (i64 imm))) 4 }
  else pure cpu

def exec_BGEU (cpu : CPU) (inst : Nat) : Except Fault CPU :=
  let imm := imm_B inst
  if cpu.regs (rs1 inst) ≥ cpu.regs (rs2 inst) then
    pure { cpu with pc := ofInt (i64 cpu.pc + i64 imm - 4) }
  else pure cpu

def exec_LB (cpu : CPU) (inst : Nat) : Except Fault CPU := do
  let imm := imm_I inst
  let addr := u64 (cpu.regs (rs1 inst) + ofInt (i64 imm))
  let v ← cpu_load cpu addr 8
  pure (cpu.setReg (rd inst) (ofInt (i8 v)))

def exec_LH (cpu : CPU) (inst : Nat) : Except Fault CPU := do
  let imm := imm_I inst
  let addr := u64 (cpu.regs (rs1 inst) + ofInt (i64 imm))
  let v ← cpu_load cpu addr 16
  pure (cpu.setReg (rd inst) (ofInt (i16 v)))

def exec_LW (cpu : CPU) (inst : Nat) : Except Fault CPU := do
  let imm := imm_I inst
  let addr := u64 (cpu.regs (rs1 inst) + ofInt (i64 imm))
  let v ← cpu_load cpu addr 32
  pure (cpu.setReg (rd inst) (ofInt (i32 v)))

def exec_LD (cpu : CPU) (inst : Nat) : Except Fault CPU := do
  let imm := imm_I inst
  let addr := u64 (cpu.regs (rs1 inst) + ofInt (i64 imm))
  let v ← cpu_load cpu addr 64
  pure (cpu.setReg (rd inst) (ofInt (i64 v)))

def exec_LBU (cpu : CPU) (inst : Nat) : Except Fault CPU := do
  let imm := imm_I inst
  let addr := u64 (cpu.regs (rs1 inst) + ofInt (i64 imm))
  let v ← cpu_load cpu addr 8
  pure (cpu.setReg (rd inst) v)

def exec_LHU (cpu : CPU) (inst : Nat) : Except Fault CPU := do
  let imm := imm_I inst
  let addr := u64 (cpu.regs (rs1 inst) + ofInt (i64 imm))
  let v ← cpu_load cpu addr 16
  pure (cpu.setReg (rd inst) v)

def exec_LWU (cpu : CPU) (inst : Nat) : Except Fault CPU := do
  let imm := imm_I inst
  let addr := u64 (cpu.regs (rs1 inst) + ofInt (i64 imm))
  let v ← cpu_load cpu addr 32
  pure (cpu.setReg (rd inst) v)

def exec_SB (cpu : CPU) (inst : Nat) : Except Fault CPU :=
  let imm := imm_S inst
  let addr := u64 (cpu.regs (rs1 inst) + ofInt (i64 imm))
  cpu_store cpu addr 8 (cpu.regs (rs2 inst))

def exec_SH (cpu : CPU) (inst : Nat) : Except Fault CPU :=
  let imm := imm_S inst
  let addr := u64 (cpu.regs (rs1 inst) + ofInt (i64 imm))
  cpu_store cpu addr 16 (cpu.regs (rs2 inst))

def exec_SW (cpu : CPU) (inst : Nat) : Except Fault CPU :=
  let imm := imm_S inst
  let addr := u64 (cpu.regs (rs1 inst) + ofInt (i64 imm))
  cpu_store cpu addr 32 (cpu.regs (rs2 inst))

def exec_SD (cpu : CPU) (inst : Nat) : Except Fault CPU :=
  let imm := imm_S inst
  let addr := u64 (cpu.regs (rs1 inst) + ofInt (i64 imm))
  cpu_store cpu addr 64 (cpu.regs (rs2 inst))

def exec_ADDI (cpu : CPU) (inst : Nat) : Except Fault CPU :=
  let imm := imm_I inst
  pure (cpu.setReg (rd inst) (u64 (cpu.regs (rs1 inst) + ofInt (i64 imm))))

def exec_SLLI (cpu : CPU) (inst : Nat) : Except Fault CPU := do
  let v ← shl64 (cpu.regs (rs1 inst)) (shamt inst)
  pure (cpu.setReg (rd inst) v)

/-- The comparison `cpu->regs[rs1(inst)] < (int64_t) imm` has one operand of type `uint64_t`,
so the other is converted to `uint64_t` and the values are compared unsigned. -/
def exec_SLTI (cpu : CPU) (inst : Nat) : Except Fault CPU :=
  let imm := imm_I inst
  pure (cpu.setReg (rd inst) (if cpu.regs (rs1 inst) < ofInt (i64 imm) then 1 else 0))

def exec_SLTIU (cpu : CPU) (inst : Nat) : Except Fault CPU :=
  let imm := imm_I inst
  pure (cpu.setReg (rd inst) (if cpu.regs (rs1 inst) < imm then 1 else 0))

def exec_XORI (cpu : CPU) (inst : Nat) : Except Fault CPU :=
  let imm := imm_I inst
  pure (cpu.setReg (rd inst) (cpu.regs (rs1 inst) ^^^ imm))

def exec_SRLI (cpu : CPU) (inst : Nat) : Except Fault CPU := do
  let imm := imm_I inst
  let v ← shr64 (cpu.regs (rs1 inst)) imm
  pure (cpu.setReg (rd inst) v)

/-- The operand of `>>` is `(int32_t) cpu->regs[rs1(inst)]`, an `int`. -/
def exec_SRAI (cpu : CPU) (inst : Nat) : Except Fault CPU := do
  let imm := imm_I inst
  let v ← sar32 (i32 (cpu.regs (rs1 inst))) imm
  pure (cpu.setReg (rd inst) (ofInt v))

def exec_ORI (cpu : CPU) (inst : Nat) : Except Fault CPU :=
  let imm := imm_I inst
  pure (cpu.setReg (rd inst) (cpu.regs (rs1 inst) ||| imm))

def exec_ANDI (cpu : CPU) (inst : Nat) : Except Fault CPU :=
  let imm := imm_I inst
  pure (cpu.setReg (rd inst) (cpu.regs (rs1 inst) &&& imm))

def exec_ADD (cpu : CPU) (inst : Nat) : Except Fault CPU :=
  pure (cpu.setReg (rd inst) (ofInt (i64 (cpu.regs (rs1 inst)) + i64 (cpu.regs (rs2 inst)))))

def exec_SUB (cpu : CPU) (inst : Nat) : Except Fault CPU :=
  pure (cpu.setReg (rd inst) (ofInt (i64 (cpu.regs (rs1 inst)) - i64 (cpu.regs (rs2 inst)))))

/-- The shift count is `(int64_t) cpu->regs[rs2(inst)]`: it must be neither negative nor 64 or
more. -/
def exec_SLL (cpu : CPU) (inst : Nat) : Except Fault CPU := do
  let v ← shl64i (cpu.regs (rs1 inst)) (i64 (cpu.regs (rs2 inst)))
  pure (cpu.setReg (rd inst) v)

/-- The comparison is unsigned, as in `exec_SLTI`. -/
def exec_SLT (cpu : CPU) (inst : Nat) : Except Fault CPU :=
  pure (cpu.setReg (rd inst)
    (if cpu.regs (rs1 inst) < ofInt (i64 (cpu.regs (rs2 inst))) then 1 else 0))

def exec_SLTU (cpu : CPU) (inst : Nat) : Except Fault CPU :=
  pure (cpu.setReg (rd inst) (if cpu.regs (rs1 inst) < cpu.regs (rs2 inst) then 1 else 0))

def exec_XOR (cpu : CPU) (inst : Nat) : Except Fault CPU :=
  pure (cpu.setReg (rd inst) (cpu.regs (rs1 inst) ^^^ cpu.regs (rs2 inst)))

def exec_SRL (cpu : CPU) (inst : Nat) : Except Fault CPU := do
  let v ← shr64 (cpu.regs (rs1 inst)) (cpu.regs (rs2 inst))
  pure (cpu.setReg (rd inst) v)

def exec_SRA (cpu : CPU) (inst : Nat) : Except Fault CPU := do
  let v ← sar32i (i32 (cpu.regs (rs1 inst))) (i64 (cpu.regs (rs2 inst)))
  pure (cpu.setReg (rd inst) (ofInt v))

def exec_OR (cpu : CPU) (inst : Nat) : Except Fault CPU :=
  pure (cpu.setReg (rd inst) (cpu.regs (rs1 inst) ||| cpu.regs (rs2 inst)))

def exec_AND (cpu : CPU) (inst : Nat) : Except Fault CPU :=
  pure (cpu.setReg (rd inst) (cpu.regs (rs1 inst) &&& cpu.regs (rs2 inst)))

def exec_FENCE (cpu : CPU) (_inst : Nat) : Except Fault CPU := pure cpu

def exec_ECALL (cpu : CPU) (_inst : Nat) : Except Fault CPU := pure cpu

def exec_EBREAK (cpu : CPU) (_inst : Nat) : Except Fault CPU := pure cpu

def exec_ECALLBREAK (cpu : CPU) (inst : Nat) : Except Fault CPU := do
  let cpu ← if imm_I inst = 0x0 then exec_ECALL cpu inst else pure cpu
  let cpu ← if imm_I inst = 0x1 then exec_EBREAK cpu inst else pure cpu
  pure cpu

def exec_ADDIW (cpu : CPU) (inst : Nat) : Except Fault CPU :=
  let imm := imm_I inst
  pure (cpu.setReg (rd inst) (u64 (cpu.regs (rs1 inst) + ofInt (i64 imm))))

def exec_SLLIW (cpu : CPU) (inst : Nat) : Except Fault CPU := do
  let v ← shl64 (cpu.regs (rs1 inst)) (shamt inst)
  pure (cpu.setReg (rd inst) (ofInt (i32 v)))

def exec_SRLIW (cpu : CPU) (inst : Nat) : Except Fault CPU := do
  let v ← shr64 (cpu.regs (rs1 inst)) (shamt inst)
  pure (cpu.setReg (rd inst) (ofInt (i32 v)))

def exec_SRAIW (cpu : CPU) (inst : Nat) : Except Fault CPU := do
  let imm := imm_I inst
  let v ← shr64 (cpu.regs (rs1 inst)) (ofInt (i32 imm))
  pure (cpu.setReg (rd inst) (ofInt (i32 v)))

def exec_ADDW (cpu : CPU) (inst : Nat) : Except Fault CPU :=
  pure (cpu.setReg (rd inst)
    (ofInt (i32 (u64 (cpu.regs (rs1 inst) + ofInt (i64 (cpu.regs (rs2 inst))))))))

def exec_MULW (cpu : CPU) (inst : Nat) : Except Fault CPU :=
  pure (cpu.setReg (rd inst)
    (ofInt (i32 (u64 (cpu.regs (rs1 inst) * ofInt (i64 (cpu.regs (rs2 inst))))))))

def exec_SUBW (cpu : CPU) (inst : Nat) : Except Fault CPU :=
  pure (cpu.setReg (rd inst)
    (ofInt (i32 (usub (cpu.regs (rs1 inst)) (ofInt (i64 (cpu.regs (rs2 inst))))))))

def exec_DIVW (cpu : CPU) (inst : Nat) : Except Fault CPU := do
  let q ← udiv (cpu.regs (rs1 inst)) (ofInt (i64 (cpu.regs (rs2 inst))))
  pure (cpu.setReg (rd inst) (ofInt (i32 q)))

def exec_SLLW (cpu : CPU) (inst : Nat) : Except Fault CPU := do
  let v ← shl64 (cpu.regs (rs1 inst)) (cpu.regs (rs2 inst))
  pure (cpu.setReg (rd inst) (ofInt (i32 v)))

def exec_SRLW (cpu : CPU) (inst : Nat) : Except Fault CPU := do
  let v ← shr64 (cpu.regs (rs1 inst)) (cpu.regs (rs2 inst))
  pure (cpu.setReg (rd inst) (ofInt (i32 v)))

def exec_DIVUW (cpu : CPU) (inst : Nat) : Except Fault CPU := do
  let q ← udiv (cpu.regs (rs1 inst)) (ofInt (i64 (cpu.regs (rs2 inst))))
  pure (cpu.setReg (rd inst) q)

def exec_SRAW (cpu : CPU) (inst : Nat) : Except Fault CPU := do
  let v ← shr64 (cpu.regs (rs1 inst)) (ofInt (i32 (cpu.regs (rs2 inst))))
  pure (cpu.setReg (rd inst) (ofInt (i32 v)))

def exec_REMW (cpu : CPU) (inst : Nat) : Except Fault CPU := do
  let r ← urem (cpu.regs (rs1 inst)) (ofInt (i64 (cpu.regs (rs2 inst))))
  pure (cpu.setReg (rd inst) (ofInt (i32 r)))

def exec_REMUW (cpu : CPU) (inst : Nat) : Except Fault CPU := do
  let r ← urem (cpu.regs (rs1 inst)) (ofInt (i64 (cpu.regs (rs2 inst))))
  pure (cpu.setReg (rd inst) r)

def exec_CSRRW (cpu : CPU) (inst : Nat) : Except Fault CPU :=
  let cpu := cpu.setReg (rd inst) (csr_read cpu (csr inst))
  pure (csr_write cpu (csr inst) (cpu.regs (rs1 inst)))

def exec_CSRRS (cpu : CPU) (inst : Nat) : Except Fault CPU :=
  pure (csr_write cpu (csr inst) (cpu.csr (csr inst) ||| cpu.regs (rs1 inst)))

/-- The operator applied to `cpu->regs[rs1(inst)]` is the logical `!`, whose value is 0 or 1. -/
def exec_CSRRC (cpu : CPU) (inst : Nat) : Except Fault CPU :=
  pure (csr_write cpu (csr inst)
    (cpu.csr (csr inst) &&& (if cpu.regs (rs1 inst) = 0 then 1 else 0)))

def exec_CSRRWI (cpu : CPU) (inst : Nat) : Except Fault CPU :=
  pure (csr_write cpu (csr inst) (rs1 inst))

def exec_CSRRSI (cpu : CPU) (inst : Nat) : Except Fault CPU :=
  pure (csr_write cpu (csr inst) (cpu.csr (csr inst) ||| rs1 inst))

def exec_CSRRCI (cpu : CPU) (inst : Nat) : Except Fault CPU :=
  pure (csr_write cpu (csr inst) (cpu.csr (csr inst) &&& (if rs1 inst = 0 then 1 else 0)))

def exec_LR_W (cpu : CPU) (_inst : Nat) : Except Fault CPU := pure cpu

def exec_SC_W (cpu : CPU) (_inst : Nat) : Except Fault CPU := pure cpu

def exec_AMOSWAP_W (cpu : CPU) (_inst : Nat) : Except Fault CPU := pure cpu

def exec_AMOADD_W (cpu : CPU) (inst : Nat) : Except Fault CPU := do
  let tmp := u32 (← cpu_load cpu (cpu.regs (rs1 inst)) 32)
  let res := u32 (tmp + u32 (cpu.regs (rs2 inst)))
  let cpu := cpu.setReg (rd inst) tmp
  cpu_store cpu (cpu.regs (rs1 inst)) 32 res

def exec_AMOXOR_W (cpu : CPU) (inst : Nat) : Except Fault CPU := do
  let tmp := u32 (← cpu_load cpu (cpu.regs (rs1 inst)) 32)
  let res := tmp ^^^ u32 (cpu.regs (rs2 inst))
  let cpu := cpu.setReg (rd inst) tmp
  cpu_store cpu (cpu.regs (rs1 inst)) 32 res

def exec_AMOAND_W (cpu : CPU) (inst : Nat) : Except Fault CPU := do
  let tmp := u32 (← cpu_load cpu (cpu.regs (rs1 inst)) 32)
  let res := tmp &&& u32 (cpu.regs (rs2 inst))
  let cpu := cpu.setReg (rd inst) tmp
  cpu_store cpu (cpu.regs (rs1 inst)) 32 res

def exec_AMOOR_W (cpu : CPU) (inst : Nat) : Except Fault CPU := do
  let tmp := u32 (← cpu_load cpu (cpu.regs (rs1 inst)) 32)
  let res := tmp ||| u32 (cpu.regs (rs2 inst))
  let cpu := cpu.setReg (rd inst) tmp
  cpu_store cpu (cpu.regs (rs1 inst)) 32 res

def exec_AMOMIN_W (cpu : CPU) (_inst : Nat) : Except Fault CPU := pure cpu

def exec_AMOMAX_W (cpu : CPU) (_inst : Nat) : Except Fault CPU := pure cpu

def exec_AMOMINU_W (cpu : CPU) (_inst : Nat) : Except Fault CPU := pure cpu

def exec_AMOMAXU_W (cpu : CPU) (_inst : Nat) : Except Fault CPU := pure cpu

/-! ## Dispatch (`cpu_execute`) and the driver loop of `main` -/

/-- The path `break; ... return 1;` out of the outer `switch`. -/
def cont (r : Except Fault CPU) : Except Fault (Nat × CPU) := do
  let cpu ← r
  pure (1, cpu)

/-- The arm `case B_TYPE:` of `cpu_execute`. -/
def case_B_TYPE (cpu : CPU) (inst : Nat) : Except Fault (Nat × CPU) :=
  let funct3 := funct3 inst
  if funct3 = BEQ then cont (exec_BEQ cpu inst)
  else if funct3 = BNE then cont (exec_BNE cpu inst)
  else if funct3 = BLT then cont (exec_BLT cpu inst)
  else if funct3 = BGE then cont (exec_BGE cpu inst)
  else if funct3 = BLTU then cont (exec_BLTU cpu inst)
  else if funct3 = BGEU then cont (exec_BGEU cpu inst)
  else cont (pure cpu)

/-- The arm `case LOAD:` of `cpu_execute`. -/
def case_LOAD (cpu : CPU) (inst : Nat) : Except Fault (Nat × CPU) :=
  let funct3 := funct3 inst
  if funct3 = LB then cont (exec_LB cpu inst)
  else if funct3 = LH then cont (exec_LH cpu inst)
  else if funct3 = LW then cont (exec_LW cpu inst)
  else if funct3 = LD then cont (exec_LD cpu inst)
  else if funct3 = LBU then cont (exec_LBU cpu inst)
  else if funct3 = LHU then cont (exec_LHU cpu inst)
  else if funct3 = LWU then cont (exec_LWU cpu inst)
  else cont (pure cpu)

/-- The arm `case S_TYPE:` of `cpu_execute`. -/
def case_S_TYPE (cpu : CPU) (inst : Nat) : Except Fault (Nat × CPU) :=
  let funct3 := funct3 inst
  if funct3 = SB then cont (exec_SB cpu inst)
  else if funct3 = SH then cont (exec_SH cpu inst)
  else if funct3 = SW then cont (exec_SW cpu inst)
  else if funct3 = SD then cont (exec_SD cpu inst)
  else cont (pure cpu)

/-- The arm `case I_TYPE:` of `cpu_execute`; its `default:` returns 0. -/
def case_I_TYPE (cpu : CPU) (inst : Nat) : Except Fault (Nat × CPU) :=
  let funct3 := funct3 inst
  let funct7 := funct7 inst
  if funct3 = ADDI then cont (exec_ADDI cpu inst)
  else if funct3 = SLLI then cont (exec_SLLI cpu inst)
  else if funct3 = SLTI then cont (exec_SLTI cpu inst)
  else if funct3 = SLTIU then cont (exec_SLTIU cpu inst)
  else if funct3 = XORI then cont (exec_XORI cpu inst)
  else if funct3 = SRI then
    if funct7 = SRLI then cont (exec_SRLI cpu inst)
    else if funct7 = SRAI then cont (exec_SRAI cpu inst)
    else cont (pure cpu)
  else if funct3 = ORI then cont (exec_ORI cpu inst)
  else if funct3 = ANDI then cont (exec_ANDI cpu inst)
  else pure (0, cpu)

/-- The arm `case R_TYPE:` of `cpu_execute`.  In `case ADDSUB:` the inner arms are
`case ADD: exec_ADD(cpu, inst); case SUB: exec_ADD(cpu, inst); default: ;` without `break`; the
inner `switch` of `case SR:` is not followed by `break`, so control runs into `case OR:`. -/
def case_R_TYPE (K : Opcodes) (cpu : CPU) (inst : Nat) : Except Fault (Nat × CPU) :=
  let funct3 := funct3 inst
  let funct7 := funct7 inst
  if funct3 = ADDSUB then
    if funct7 = ADD then cont (exec_ADD cpu inst >>= fun c => exec_ADD c inst)
    else if funct7 = K.SUB then cont (exec_ADD cpu inst)
    else cont (pure cpu)
  else if funct3 = K.SLL then cont (exec_SLL cpu inst)
  else if funct3 = K.SLT then cont (exec_SLT cpu inst)
  else if funct3 = K.SLTU then cont (exec_SLTU cpu inst)
  else if funct3 = K.XOR then cont (exec_XOR cpu inst)
  else if funct3 = K.SR then
    cont ((if funct7 = K.SRL then exec_SRL cpu inst
           else if funct7 = K.SRA then exec_SRA cpu inst
           else pure cpu) >>= fun c => exec_OR c inst)
  else if funct3 = K.OR then cont (exec_OR cpu inst)
  else if funct3 = K.AND then cont (exec_AND cpu inst)
  else pure (0, cpu)

/-- The arm `case I_TYPE_64:` of `cpu_execute`; `case SRAIW:` calls `exec_SRLIW`. -/
def case_I_TYPE_64 (cpu : CPU) (inst : Nat) : Except Fault (Nat × CPU) :=
  let funct3 := funct3 inst
  let funct7 := funct7 inst
  if funct3 = ADDIW then cont (exec_ADDIW cpu inst)
  else if funct3 = SLLIW then cont (exec_SLLIW cpu inst)
  else if funct3 = SRIW then
    if funct7 = SRLIW then cont (exec_SRLIW cpu inst)
    else if funct7 = SRAIW then cont (exec_SRLIW cpu inst)
    else cont (pure cpu)
  else cont (pure cpu)

/-- The arm `case R_TYPE_64:` of `cpu_execute`. -/
def case_R_TYPE_64 (cpu : CPU) (inst : Nat) : Except Fault (Nat × CPU) :=
  let funct3 := funct3 inst
  let funct7 := funct7 inst
  if funct3 = ADDSUB then
    if funct7 = ADDW then cont (exec_ADDW cpu inst)
    else if funct7 = SUBW then cont (exec_SUBW cpu inst)
    else if funct7 = MULW then cont (exec_MULW cpu inst)
    else cont (pure cpu)
  else if funct3 = DIVW then cont (exec_DIVW cpu inst)
  else if funct3 = SLLW then cont (exec_SLLW cpu inst)
  else if funct3 = SRW then
    if funct7 = SRLW then cont (exec_SRLW cpu inst)
    else if funct7 = SRAW then cont (exec_SRAW cpu inst)
    else if funct7 = DIVUW then cont (exec_DIVUW cpu inst)
    else cont (pure cpu)
  else if funct3 = REMW then cont (exec_REMW cpu inst)
  else if funct3 = REMUW then cont (exec_REMUW cpu inst)
  else cont (pure cpu)

/-- The arm `case CSR:` of `cpu_execute`; its `default:` returns 0. -/
def case_CSR (K : Opcodes) (cpu : CPU) (inst : Nat) : Except Fault (Nat × CPU) :=
  let funct3 := funct3 inst
  if funct3 = K.ECALLBREAK then cont (exec_ECALLBREAK cpu inst)
  else if funct3 = K.CSRRW then cont (exec_CSRRW cpu inst)
  else if funct3 = K.CSRRS then cont (exec_CSRRS cpu inst)
  else if funct3 = K.CSRRC then cont (exec_CSRRC cpu inst)
  else if funct3 = K.CSRRWI then cont (exec_CSRRWI cpu inst)
  else if funct3 = K.CSRRSI then cont (exec_CSRRSI cpu inst)
  else if funct3 = K.CSRRCI then cont (exec_CSRRCI cpu inst)
  else pure (0, cpu)

/-- The arm `case AMO_W:` of `cpu_execute`, a `switch (funct7 >> 2)`; its `default:` returns
0. -/
def case_AMO_W (K : Opcodes) (cpu : CPU) (inst : Nat) : Except Fault (Nat × CPU) :=
  let funct7 := funct7 inst
  if funct7 >>> 2 = K.LR_W then cont (exec_LR_W cpu inst)
  else if funct7 >>> 2 = K.SC_W then cont (exec_SC_W cpu inst)
  else if funct7 >>> 2 = K.AMOSWAP_W then cont (exec_AMOSWAP_W cpu inst)
  else if funct7 >>> 2 = K.AMOADD_W then cont (exec_AMOADD_W cpu inst)
  else if funct7 >>> 2 = K.AMOXOR_W then cont (exec_AMOXOR_W cpu inst)
  else if funct7 >>> 2 = K.AMOAND_W then cont (exec_AMOAND_W cpu inst)
  else if funct7 >>> 2 = K.AMOOR_W then cont (exec_AMOOR_W cpu inst)
  else if funct7 >>> 2 = K.AMOMIN_W then cont (exec_AMOMIN_W cpu inst)
  else if funct7 >>> 2 = K.AMOMAX_W then cont (exec_AMOMAX_W cpu inst)
  else if funct7 >>> 2 = K.AMOMINU_W then cont (exec_AMOMINU_W cpu inst)
  else if funct7 >>> 2 = K.AMOMAXU_W then cont (exec_AMOMAXU_W cpu inst)
  else pure (0, cpu)

/-- The function `cpu_execute`.  The result is the returned `int` together with the state.
Each `switch` is the chain of its `case` labels in source order (the nested ones are the
`case_` functions above); `cpu->regs[0] = 0` comes before the dispatch. -/
def cpu_execute (K : Opcodes) (cpu : CPU) (inst : Nat) : Except Fault (Nat × CPU) :=
  let opcode := opcode inst
  let cpu := cpu.setReg 0 0
  if opcode = LUI then cont (exec_LUI cpu inst)
  else if opcode = AUIPC then cont (exec_AUIPC cpu inst)
  else if opcode = JAL then cont (exec_JAL cpu inst)
  else if opcode = JALR then cont (exec_JALR cpu inst)
  else if opcode = B_TYPE then case_B_TYPE cpu inst
  else if opcode = LOAD then case_LOAD cpu inst
  else if opcode = S_TYPE then case_S_TYPE cpu inst
  else if opcode = I_TYPE then case_I_TYPE cpu inst
  else if opcode = R_TYPE then case_R_TYPE K cpu inst
  else if opcode = K.FENCE then cont (exec_FENCE cpu inst)
  else if opcode = I_TYPE_64 then case_I_TYPE_64 cpu inst
  else if opcode = R_TYPE_64 then case_R_TYPE_64 cpu inst
  else if opcode = K.CSR then case_CSR K cpu inst
  else if opcode = K.AMO_W then case_AMO_W K cpu inst
  else if opcode = 0x00 then pure (0, cpu)
  else pure (0, cpu)

/-- One iteration of the `while (1)` loop of `main` up to the test of the value returned by
`cpu_execute`: fetch, `cpu.pc += 4`, execute. -/
def step (K : Opcodes) (cpu : CPU) : Except Fault (Nat × CPU) := do
  let inst ← cpu_fetch cpu
  let cpu := { cpu with pc := u64 (cpu.pc + 4) }
  cpu_execute K cpu inst

/-! ## Concrete states for the worked examples -/

/-- The CPU record before `cpu_init`, here with every register, CSR and memory cell zero. -/
def zeroCPU : CPU := { regs := fun _ => 0, pc := 0, bus := { dram := zeroDRAM }, csr := fun _ => 0 }

/-- The effect of `read_file` on memory: the bytes of the image are copied to offset 0. -/
def loadImage (cpu : CPU) (image : List Nat) : CPU :=
  { cpu with bus := { dram := { mem := fun i =>
      if i < image.length then image.getD i 0 else cpu.bus.dram.mem i } } }

/-- The four bytes of a 32-bit word in memory order. -/
def wordBytes (w : Nat) : List Nat :=
  [w % 256, w / 2 ^ 8 % 256, w / 2 ^ 16 % 256, w / 2 ^ 24 % 256]

/-- The state a step leads to; the state itself when the step faults. -/
def stepTo (K : Opcodes) (cpu : CPU) : CPU :=
  match step K cpu with
  | .ok (_, c) => c
  | .error _ => cpu

/-- What a step shows of the machine: the value returned by `cpu_execute`, register `i` and
the pc afterwards; `none` when the step faults. -/
def observe (K : Opcodes) (cpu : CPU) (i : Nat) : Option (Nat × Nat × Nat) :=
  match step K cpu with
  | .ok (r, c) => some (r, c.regs i, c.pc)
  | .error _ => none

/-- The state after `cpu_init` and the load of `addi x1, x0, 5; addi x2, x1, -3`. -/
def addiProg : CPU := loadImage (cpu_init zeroCPU) (wordBytes 0x00500093 ++ wordBytes 0xFFD08113)

/-- The state after `cpu_init` and the load of `addi x0, x0, 5`. -/
def addiX0Prog : CPU := loadImage (cpu_init zeroCPU) (wordBytes 0x00500013)

/-- The state after `cpu_init` and the load of `beq x0, x0, +2`. -/
def beqProg : CPU := loadImage (cpu_init zeroCPU) (wordBytes 0x00000163)

/-- The state after `cpu_init` and the load of `auipc x6, 0`. -/
def auipcProg : CPU := loadImage (cpu_init zeroCPU) (wordBytes 0x00000317)

/-- A state whose pc has been advanced to 0x80000004, past a `jal` fetched at 0x80000000. -/
def jalState : CPU := { zeroCPU with pc := 0x80000004 }

/-- The reading of the low `bits` bits of `x` as a two's-complement number: the sign extension
`sext` of the specification. -/
def sextSpec (bits x : Nat) : Int :=
  if 2 * (x % 2 ^ bits) < 2 ^ bits then ((x % 2 ^ bits : Nat) : Int)
  else ((x % 2 ^ bits : Nat) : Int) - 2 ^ bits

/-- The 21-bit field `{inst[31], inst[19:12], inst[20], inst[30:21], 0}` of the J format. -/
def immJField (inst : Nat) : Nat :=
  inst / 2 ^ 31 % 2 * 2 ^ 20 + inst / 2 ^ 12 % 2 ^ 8 * 2 ^ 12 + inst / 2 ^ 20 % 2 * 2 ^ 11
    + inst / 2 ^ 21 % 2 ^ 10 * 2

/-- What `cpu_execute` shows of its result: the returned value, register `i` and the pc of the
state it leaves; `none` when it faults. -/
def observeExec (K : Opcodes) (cpu : CPU) (inst i : Nat) : Option (Nat × Nat × Nat) :=
  match cpu_execute K cpu inst with
  | .ok (r, c) => some (r, c.regs i, c.pc)
  | .error _ => none

/-- The fault of `cpu_execute`, `none` when it returns. -/
def faultExec (K : Opcodes) (cpu : CPU) (inst : Nat) : Option Fault :=
  match cpu_execute K cpu inst with
  | .ok _ => none
  | .error e => some e

/-- The fault of a step, `none` when the step completes. -/
def faultStep (K : Opcodes) (cpu : CPU) : Option Fault :=
  match step K cpu with
  | .ok _ => none
  | .error e => some e

/-- The value `exec_JAL` assigns to `cpu->pc`. -/
def jalNewPc (cpu : CPU) (inst : Nat) : Nat := usub (u64 (cpu.pc + ofInt (i64 (imm_J inst)))) 4

/-- The value `exec_JALR` assigns to `cpu->pc`. -/
def jalrNewPc (cpu : CPU) (inst : Nat) : Nat :=
  u64 (cpu.regs (rs1 inst) + ofInt (i64 (imm_I inst))) &&& 0xfffffffe

/-- A state with x5 = 0x180000000 and the pc advanced to 0x80000004, for `jalr x1, 0(x5)`. -/
def jalrHighState : CPU :=
  { zeroCPU with regs := fun j => if j = 5 then 0x180000000 else 0, pc := 0x80000004 }

/-- The 13-bit field `{inst[31], inst[7], inst[30:25], inst[11:8], 0}` of the B format. -/
def immBField (inst : Nat) : Nat :=
  inst / 2 ^ 31 % 2 * 2 ^ 12 + inst / 2 ^ 7 % 2 * 2 ^ 11 + inst / 2 ^ 25 % 2 ^ 6 * 2 ^ 5
    + inst / 2 ^ 8 % 2 ^ 4 * 2

/-- The 12-bit field `{inst[31:25], inst[11:7]}` of the S format. -/
def immSField (inst : Nat) : Nat := inst / 2 ^ 25 % 2 ^ 7 * 2 ^ 5 + inst / 2 ^ 7 % 2 ^ 5

/-- The branch target `pc + imm_B - 4` modulo `2^64` of the specification. -/
def branchTarget (cpu : CPU) (inst : Nat) : Nat :=
  ofInt ((cpu.pc : Int) + sextSpec 13 (immBField inst) - 4)

/-- A state with x1 = 2^64 - 1 (minus one), x2 = 1 and the pc advanced to 0x80000004. -/
def branchState : CPU :=
  { zeroCPU with regs := fun j => if j = 1 then 2 ^ 64 - 1 else if j = 2 then 1 else 0,
                 pc := 0x80000004 }

/-- The value of the `n` bytes at `addr`, least-significant byte first. -/
def leValue (d : DRAM) (addr n : Nat) : Nat :=
  ((List.range n).map fun i => d.mem (addr - DRAM_BASE + i) * 2 ^ (8 * i)).sum

/-- The access width in bits of the load with the given funct3: LB 0, LH 1, LW 2, LD 3,
LBU 4, LHU 5, LWU 6. -/
def loadSize (f3 : Nat) : Nat :=
  if f3 = 0 ∨ f3 = 4 then 8 else if f3 = 1 ∨ f3 = 5 then 16 else if f3 = 2 ∨ f3 = 6 then 32
  else 64

/-- What the specification puts in `rd` for the value `v` read from memory: LB, LH, LW
(funct3 0, 1, 2) sign-extend from the access width, LD and the unsigned loads take `v` as
it is. -/
def loadValue (f3 v : Nat) : Nat :=
  if f3 ≤ 2 then ofInt (sextSpec (loadSize f3) v) else v

/-- The address `regs[rs1] + imm_I` modulo `2^64` of a load, `regs[rs1]` being read after
`cpu_execute` has zeroed register 0. -/
def loadAddr (cpu : CPU) (inst : Nat) : Nat :=
  u64 ((cpu.setReg 0 0).regs (rs1 inst) + imm_I inst)

/-- A state with x1 = 0x80000008 and the byte 0x80 at that address. -/
def lbState : CPU :=
  { zeroCPU with regs := fun j => if j = 1 then 0x80000008 else 0,
                 bus := { dram := { mem := fun i => if i = 8 then 0x80 else 0 } } }

/-- The address `regs[rs1] + sext({inst[31:25], inst[11:7]})` modulo `2^64` of a store. -/
def storeAddr (cpu : CPU) (inst : Nat) : Nat :=
  ofInt ((cpu.regs (rs1 inst) : Int) + sextSpec 12 (immSField inst))

/-- A state with x1 = 0x1122334455667788, x2 = 0x80000010 and the pc at 0x80000004. -/
def storeState : CPU :=
  { zeroCPU with
      regs := fun j => if j = 1 then 0x1122334455667788 else if j = 2 then 0x80000010 else 0,
      pc := 0x80000004 }

/-- The state after `cpu_init` and the load of `addi x1,x0,-1; sw x1,0(x2); lw x3,0(x2)`. -/
def spProg : CPU :=
  loadImage (cpu_init zeroCPU)
    (wordBytes 0xFFF00093 ++ wordBytes 0x00112023 ++ wordBytes 0x00012183)

/-- The state after `cpu_init` and the load of `addi x1,x0,-1; sw x1,-4(x2); lw x3,-4(x2)`. -/
def spProgBelow : CPU :=
  loadImage (cpu_init zeroCPU)
    (wordBytes 0xFFF00093 ++ wordBytes 0xFE112E23 ++ wordBytes 0xFFC12183)

/-- A state with x1 = 5, x2 = 3 and the pc advanced to 0x80000004. -/
def aluState : CPU :=
  { zeroCPU with regs := fun j => if j = 1 then 5 else if j = 2 then 3 else 0,
                 pc := 0x80000004 }

/-- A state with x1 = 2^63 and x2 = 1 and the pc advanced to 0x80000004. -/
def signState : CPU :=
  { zeroCPU with regs := fun j => if j = 1 then 2 ^ 63 else if j = 2 then 1 else 0,
                 pc := 0x80000004 }

/-- A state with x1 = 0x7FFFFFFF and the pc advanced to 0x80000004. -/
def addiwState : CPU :=
  { zeroCPU with regs := fun j => if j = 1 then 0x7FFFFFFF else 0, pc := 0x80000004 }

/-- A state with x1 = 7 and x2 = 0 and the pc advanced to 0x80000004. -/
def divZeroState : CPU :=
  { zeroCPU with regs := fun j => if j = 1 then 7 else 0, pc := 0x80000004 }

/-- A state with x1 = 2^33 and x2 = 2^32 and the pc advanced to 0x80000004. -/
def divHighState : CPU :=
  { zeroCPU with regs := fun j => if j = 1 then 2 ^ 33 else if j = 2 then 2 ^ 32 else 0,
                 pc := 0x80000004 }

/-- A state with x3 = 9, the CSR 0x300 holding 6 and the pc advanced to 0x80000004. -/
def csrState : CPU :=
  { zeroCPU with regs := fun j => if j = 3 then 9 else 0,
                 csr := fun j => if j = 0x300 then 6 else 0,
                 pc := 0x80000004 }

/-- What `cpu_execute` shows of the register `i` and the CSR `j` of the state it leaves;
`none` when it faults. -/
def observeCsr (K : Opcodes) (cpu : CPU) (inst i j : Nat) : Option (Nat × Nat) :=
  match cpu_execute K cpu inst with
  | .ok (_, c) => some (c.regs i, c.csr j)
  | .error _ => none

/-- The 32-bit word `cpu_load` reads at `addr`; `none` when the access faults. -/
def loadWord (cpu : CPU) (addr : Nat) : Option Nat :=
  match cpu_load cpu addr 32 with
  | .ok v => some v
  | .error _ => none

/-- The 32-bit word at `addr` in the state `cpu_execute` leaves; `none` when it faults. -/
def observeWord (K : Opcodes) (cpu : CPU) (inst addr : Nat) : Option Nat :=
  match cpu_execute K cpu inst with
  | .ok (_, c) => loadWord c addr
  | .error _ => none

/-- A state with x1 = 0x80000010, x2 = 1, the word 0x80000020 at address 0x80000010, zero in
the rest of memory, and the pc advanced to 0x80000004. -/
def amoState : CPU :=
  { zeroCPU with regs := fun j => if j = 1 then 0x80000010 else if j = 2 then 1 else 0,
                 bus := { dram := { mem := fun i => if i = 0x10 then 0x20
                                                     else if i = 0x13 then 0x80 else 0 } },
                 pc := 0x80000004 }

/-- A DRAM holding the bytes 0x88, 0x77, 0x66, 0x55 at offsets 0..3 and zero elsewhere. -/
def sampleDRAM : DRAM :=
  { mem := fun i => if i = 0 then 0x88 else if i = 1 then 0x77 else if i = 2 then 0x66
      else if i = 3 then 0x55 else 0 }

/-! ## Auxiliary lemmas: bit operations and the `Except` monad -/

theorem bind_ok {ε α β : Type} (x : α) (f : α → Except ε β) :
    (Except.ok x >>= f) = f x := rfl

theorem pure_ok {ε α : Type} (x : α) : (pure x : Except ε α) = Except.ok x := rfl

theorem and_255 (x : Nat) : x &&& 0xff = x % 256 :=
  Nat.and_pow_two_sub_one_eq_mod x 8

theorem or_shl (a b k : Nat) (h : a < 2 ^ k) : a ||| (b <<< k) = a + b * 2 ^ k := by
  rw [Nat.or_comm, Nat.shiftLeft_eq, Nat.mul_comm b, ← Nat.mul_add_lt_is_or h, Nat.add_comm]

theorem pack16 (b0 b1 : Nat) (h0 : b0 < 256) :
    b0 ||| (b1 <<< 8) = b0 + b1 * 2 ^ 8 :=
  or_shl b0 b1 8 h0

theorem pack32 (b0 b1 b2 b3 : Nat) (h0 : b0 < 256) (h1 : b1 < 256) (h2 : b2 < 256) :
    b0 ||| (b1 <<< 8) ||| (b2 <<< 16) ||| (b3 <<< 24)
      = b0 + b1 * 2 ^ 8 + b2 * 2 ^ 16 + b3 * 2 ^ 24 := by
  rw [or_shl b0 b1 8 h0, or_shl _ b2 16 (by omega), or_shl _ b3 24 (by omega)]

theorem pack64 (b0 b1 b2 b3 b4 b5 b6 b7 : Nat) (h0 : b0 < 256) (h1 : b1 < 256) (h2 : b2 < 256)
    (h3 : b3 < 256) (h4 : b4 < 256) (h5 : b5 < 256) (h6 : b6 < 256) :
    b0 ||| (b1 <<< 8) ||| (b2 <<< 16) ||| (b3 <<< 24)
        ||| (b4 <<< 32) ||| (b5 <<< 40) ||| (b6 <<< 48) ||| (b7 <<< 56)
      = b0 + b1 * 2 ^ 8 + b2 * 2 ^ 16 + b3 * 2 ^ 24
        + b4 * 2 ^ 32 + b5 * 2 ^ 40 + b6 * 2 ^ 48 + b7 * 2 ^ 56 := by
  rw [or_shl b0 b1 8 h0, or_shl _ b2 16 (by omega), or_shl _ b3 24 (by omega),
    or_shl _ b4 32 (by omega), or_shl _ b5 40 (by omega), or_shl _ b6 48 (by omega),
    or_shl _ b7 56 (by omega)]

theorem and_shl_mask (x m k : Nat) : x &&& (m <<< k) = ((x >>> k) &&& m) <<< k := by
  apply Nat.eq_of_testBit_eq
  intro i
  simp only [Nat.testBit_and, Nat.testBit_shiftLeft, Nat.testBit_shiftRight]
  by_cases h : k ≤ i
  · have e : k + (i - k) = i := by omega
    simp [h, e]
  · have h' : ¬ i ≥ k := h
    simp [h']

/-- The bits `k .. k+n-1` of `x`, left in place. -/
theorem and_field (x k n : Nat) : x &&& ((2 ^ n - 1) <<< k) = x / 2 ^ k % 2 ^ n * 2 ^ k := by
  rw [and_shl_mask, Nat.and_pow_two_sub_one_eq_mod, Nat.shiftRight_eq_div_pow, Nat.shiftLeft_eq]

theorem and_low (x n : Nat) : x &&& (2 ^ n - 1) = x % 2 ^ n :=
  Nat.and_pow_two_sub_one_eq_mod x n

theorem or_of_dvd (x y k : Nat) (hx : x % 2 ^ k = 0) (hy : y < 2 ^ k) : x ||| y = x + y := by
  have e : x = 2 ^ k * (x / 2 ^ k) := by
    have := Nat.div_add_mod x (2 ^ k)
    omega
  rw [e, ← Nat.mul_add_lt_is_or hy]

theorem m_fff00000 (x : Nat) : x &&& 0xfff00000 = x / 2 ^ 20 % 2 ^ 12 * 2 ^ 20 := and_field x 20 12
theorem m_fe000000 (x : Nat) : x &&& 0xfe000000 = x / 2 ^ 25 % 2 ^ 7 * 2 ^ 25 := and_field x 25 7
theorem m_80000000 (x : Nat) : x &&& 0x80000000 = x / 2 ^ 31 % 2 ^ 1 * 2 ^ 31 := and_field x 31 1
theorem m_fffff000 (x : Nat) : x &&& 0xfffff000 = x / 2 ^ 12 % 2 ^ 20 * 2 ^ 12 := and_field x 12 20
theorem m_ff000 (x : Nat) : x &&& 0xff000 = x / 2 ^ 12 % 2 ^ 8 * 2 ^ 12 := and_field x 12 8
theorem m_80 (x : Nat) : x &&& 0x80 = x / 2 ^ 7 % 2 ^ 1 * 2 ^ 7 := and_field x 7 1
theorem m_7e0 (x : Nat) : x &&& 0x7e0 = x / 2 ^ 5 % 2 ^ 6 * 2 ^ 5 := and_field x 5 6
theorem m_1e (x : Nat) : x &&& 0x1e = x / 2 ^ 1 % 2 ^ 4 * 2 ^ 1 := and_field x 1 4
theorem m_800 (x : Nat) : x &&& 0x800 = x / 2 ^ 11 % 2 ^ 1 * 2 ^ 11 := and_field x 11 1
theorem m_7fe (x : Nat) : x &&& 0x7fe = x / 2 ^ 1 % 2 ^ 10 * 2 ^ 1 := and_field x 1 10
theorem m_1f (x : Nat) : x &&& 0x1f = x % 2 ^ 5 := and_low x 5
theorem m_7f (x : Nat) : x &&& 0x7f = x % 2 ^ 7 := and_low x 7
theorem m_7 (x : Nat) : x &&& 0x7 = x % 2 ^ 3 := and_low x 3
theorem m_3 (x : Nat) : x &&& 0x3 = x % 2 ^ 2 := and_low x 2

theorem imm_I_eq (inst : Nat) (h : inst < 2 ^ 32) :
    imm_I inst = if inst / 2 ^ 20 < 2 ^ 11 then inst / 2 ^ 20
      else inst / 2 ^ 20 + (2 ^ 64 - 2 ^ 12) := by
  unfold imm_I ofInt sar i32
  rw [m_fff00000]
  split_ifs <;> omega

/-! ## DRAM accesses inside the mapped range -/

theorem dram_index_eq (addr k : Nat) (h1 : DRAM_BASE ≤ addr)
    (h2 : addr + k < DRAM_BASE + DRAM_SIZE) : dram_index addr k = addr - DRAM_BASE + k := by
  unfold dram_index; unfold DRAM_BASE DRAM_SIZE at *; omega

theorem read_ok (d : DRAM) (addr k : Nat) (h1 : DRAM_BASE ≤ addr)
    (h2 : addr + k < DRAM_BASE + DRAM_SIZE) :
    d.read addr k = .ok (d.mem (addr - DRAM_BASE + k)) := by
  have h3 : addr - DRAM_BASE + k < DRAM_SIZE := by unfold DRAM_BASE DRAM_SIZE at *; omega
  simp [DRAM.read, dram_index_eq addr k h1 h2, h3]

theorem write_ok (d : DRAM) (addr k v : Nat) (h1 : DRAM_BASE ≤ addr)
    (h2 : addr + k < DRAM_BASE + DRAM_SIZE) :
    d.write addr k v
      = .ok { mem := fun j => if j = addr - DRAM_BASE + k then v % 256 else d.mem j } := by
  have h3 : addr - DRAM_BASE + k < DRAM_SIZE := by unfold DRAM_BASE DRAM_SIZE at *; omega
  simp [DRAM.write, dram_index_eq addr k h1 h2, h3, u8]

theorem dram_load_8_ok (d : DRAM) (addr : Nat) (hlo : DRAM_BASE ≤ addr)
    (hhi : addr + 1 ≤ DRAM_BASE + DRAM_SIZE) :
    dram_load d addr 8 = .ok (d.mem (addr - DRAM_BASE)) := by
  have e0 : addr + 0 < DRAM_BASE + DRAM_SIZE := by omega
  simp [dram_load, dram_load_8, bind_ok, pure_ok, read_ok _ addr _ hlo e0]

theorem dram_load_16_ok (d : DRAM) (addr : Nat) (hlo : DRAM_BASE ≤ addr)
    (hhi : addr + 2 ≤ DRAM_BASE + DRAM_SIZE) :
    dram_load d addr 16
      = .ok (d.mem (addr - DRAM_BASE) ||| (d.mem (addr - DRAM_BASE + 1) <<< 8)) := by
  have e0 : addr + 0 < DRAM_BASE + DRAM_SIZE := by omega
  have e1 : addr + 1 < DRAM_BASE + DRAM_SIZE := by omega
  simp [dram_load, dram_load_16, bind_ok, pure_ok, read_ok _ addr _ hlo e0,
    read_ok _ addr _ hlo e1]

theorem dram_load_32_ok (d : DRAM) (addr : Nat) (hlo : DRAM_BASE ≤ addr)
    (hhi : addr + 4 ≤ DRAM_BASE + DRAM_SIZE) :
    dram_load d addr 32
      = .ok (d.mem (addr - DRAM_BASE) ||| (d.mem (addr - DRAM_BASE + 1) <<< 8)
          ||| (d.mem (addr - DRAM_BASE + 2) <<< 16) ||| (d.mem (addr - DRAM_BASE + 3) <<< 24)) := by
  have e0 : addr + 0 < DRAM_BASE + DRAM_SIZE := by omega
  have e1 : addr + 1 < DRAM_BASE + DRAM_SIZE := by omega
  have e2 : addr + 2 < DRAM_BASE + DRAM_SIZE := by omega
  have e3 : addr + 3 < DRAM_BASE + DRAM_SIZE := by omega
  simp [dram_load, dram_load_32, bind_ok, pure_ok, read_ok _ addr _ hlo e0,
    read_ok _ addr _ hlo e1, read_ok _ addr _ hlo e2, read_ok _ addr _ hlo e3]

theorem dram_load_64_ok (d : DRAM) (addr : Nat) (hlo : DRAM_BASE ≤ addr)
    (hhi : addr + 8 ≤ DRAM_BASE + DRAM_SIZE) :
    dram_load d addr 64
      = .ok (d.mem (addr - DRAM_BASE) ||| (d.mem (addr - DRAM_BASE + 1) <<< 8)
          ||| (d.mem (addr - DRAM_BASE + 2) <<< 16) ||| (d.mem (addr - DRAM_BASE + 3) <<< 24)
          ||| (d.mem (addr - DRAM_BASE + 4) <<< 32) ||| (d.mem (addr - DRAM_BASE + 5) <<< 40)
          ||| (d.mem (addr - DRAM_BASE + 6) <<< 48) ||| (d.mem (addr - DRAM_BASE + 7) <<< 56)) := by
  have e0 : addr + 0 < DRAM_BASE + DRAM_SIZE := by omega
  have e1 : addr + 1 < DRAM_BASE + DRAM_SIZE := by omega
  have e2 : addr + 2 < DRAM_BASE + DRAM_SIZE := by omega
  have e3 : addr + 3 < DRAM_BASE + DRAM_SIZE := by omega
  have e4 : addr + 4 < DRAM_BASE + DRAM_SIZE := by omega
  have e5 : addr + 5 < DRAM_BASE + DRAM_SIZE := by omega
  have e6 : addr + 6 < DRAM_BASE + DRAM_SIZE := by omega
  have e7 : addr + 7 < DRAM_BASE + DRAM_SIZE := by omega
  simp [dram_load, dram_load_64, bind_ok, pure_ok, read_ok _ addr _ hlo e0,
    read_ok _ addr _ hlo e1, read_ok _ addr _ hlo e2, read_ok _ addr _ hlo e3,
    read_ok _ addr _ hlo e4, read_ok _ addr _ hlo e5, read_ok _ addr _ hlo e6,
    read_ok _ addr _ hlo e7]

theorem dram_store_8_ok (d : DRAM) (addr value : Nat) (hlo : DRAM_BASE ≤ addr)
    (hhi : addr + 1 ≤ DRAM_BASE + DRAM_SIZE) :
    dram_store d addr 8 value = .ok { mem := fun j =>
      if j = addr - DRAM_BASE then value % 256 else d.mem j } := by
  have e0 : addr + 0 < DRAM_BASE + DRAM_SIZE := by omega
  simp [dram_store, dram_store_8, bind_ok, write_ok _ addr _ _ hlo e0, and_255]

theorem dram_store_16_ok (d : DRAM) (addr value : Nat) (hlo : DRAM_BASE ≤ addr)
    (hhi : addr + 2 ≤ DRAM_BASE + DRAM_SIZE) :
    dram_store d addr 16 value = .ok { mem := fun j =>
      if j = addr - DRAM_BASE + 1 then value / 2 ^ 8 % 256
      else if j = addr - DRAM_BASE then value % 256 else d.mem j } := by
  have e0 : addr + 0 < DRAM_BASE + DRAM_SIZE := by omega
  have e1 : addr + 1 < DRAM_BASE + DRAM_SIZE := by omega
  simp [dram_store, dram_store_16, bind_ok, write_ok _ addr _ _ hlo e0,
    write_ok _ addr _ _ hlo e1, and_255, Nat.shiftRight_eq_div_pow]

theorem dram_store_32_ok (d : DRAM) (addr value : Nat) (hlo : DRAM_BASE ≤ addr)
    (hhi : addr + 4 ≤ DRAM_BASE + DRAM_SIZE) :
    dram_store d addr 32 value = .ok { mem := fun j =>
      if j = addr - DRAM_BASE + 3 then value / 2 ^ 24 % 256
      else if j = addr - DRAM_BASE + 2 then value / 2 ^ 16 % 256
      else if j = addr - DRAM_BASE + 1 then value / 2 ^ 8 % 256
      else if j = addr - DRAM_BASE then value % 256 else d.mem j } := by
  have e0 : addr + 0 < DRAM_BASE + DRAM_SIZE := by omega
  have e1 : addr + 1 < DRAM_BASE + DRAM_SIZE := by omega
  have e2 : addr + 2 < DRAM_BASE + DRAM_SIZE := by omega
  have e3 : addr + 3 < DRAM_BASE + DRAM_SIZE := by omega
  simp [dram_store, dram_store_32, bind_ok, write_ok _ addr _ _ hlo e0,
    write_ok _ addr _ _ hlo e1, write_ok _ addr _ _ hlo e2, write_ok _ addr _ _ hlo e3,
    and_255, Nat.shiftRight_eq_div_pow]

theorem dram_store_64_ok (d : DRAM) (addr value : Nat) (hlo : DRAM_BASE ≤ addr)
    (hhi : addr + 8 ≤ DRAM_BASE + DRAM_SIZE) :
    dram_store d addr 64 value = .ok { mem := fun j =>
      if j = addr - DRAM_BASE + 7 then value / 2 ^ 56 % 256
      else if j = addr - DRAM_BASE + 6 then value / 2 ^ 48 % 256
      else if j = addr - DRAM_BASE + 5 then value / 2 ^ 40 % 256
      else if j = addr - DRAM_BASE + 4 then value / 2 ^ 32 % 256
      else if j = addr - DRAM_BASE + 3 then value / 2 ^ 24 % 256
      else if j = addr - DRAM_BASE + 2 then value / 2 ^ 16 % 256
      else if j = addr - DRAM_BASE + 1 then value / 2 ^ 8 % 256
      else if j = addr - DRAM_BASE then value % 256 else d.mem j } := by
  have e0 : addr + 0 < DRAM_BASE + DRAM_SIZE := by omega
  have e1 : addr + 1 < DRAM_BASE + DRAM_SIZE := by omega
  have e2 : addr + 2 < DRAM_BASE + DRAM_SIZE := by omega
  have e3 : addr + 3 < DRAM_BASE + DRAM_SIZE := by omega
  have e4 : addr + 4 < DRAM_BASE + DRAM_SIZE := by omega
  have e5 : addr + 5 < DRAM_BASE + DRAM_SIZE := by omega
  have e6 : addr + 6 < DRAM_BASE + DRAM_SIZE := by omega
  have e7 : addr + 7 < DRAM_BASE + DRAM_SIZE := by omega
  simp [dram_store, dram_store_64, bind_ok, write_ok _ addr _ _ hlo e0,
    write_ok _ addr _ _ hlo e1, write_ok _ addr _ _ hlo e2, write_ok _ addr _ _ hlo e3,
    write_ok _ addr _ _ hlo e4, write_ok _ addr _ _ hlo e5, write_ok _ addr _ _ hlo e6,
    write_ok _ addr _ _ hlo e7, and_255, Nat.shiftRight_eq_div_pow]

/-- The memory after a store of `size / 8` bytes of `value` at `addr`, cell by cell. -/
theorem dram_store_ok (d : DRAM) (addr size value : Nat)
    (hsize : size = 8 ∨ size = 16 ∨ size = 32 ∨ size = 64)
    (hlo : DRAM_BASE ≤ addr) (hhi : addr + size / 8 ≤ DRAM_BASE + DRAM_SIZE) :
    ∃ d', dram_store d addr size value = .ok d' ∧
      ∀ j, d'.mem j =
        if addr - DRAM_BASE ≤ j ∧ j < addr - DRAM_BASE + size / 8
        then value / 2 ^ (8 * (j - (addr - DRAM_BASE))) % 256 else d.mem j := by
  rcases hsize with rfl | rfl | rfl | rfl
  · refine ⟨_, dram_store_8_ok d addr value hlo hhi, fun j => ?_⟩
    generalize addr - DRAM_BASE = o
    by_cases h : o ≤ j ∧ j < o + 8 / 8
    · obtain ⟨k, rfl⟩ : ∃ k, j = o + k := ⟨j - o, by omega⟩
      have hk : k = 0 := by omega
      subst hk; simp
    · rw [if_neg h]; simp only; split_ifs <;> first | rfl | omega
  · refine ⟨_, dram_store_16_ok d addr value hlo hhi, fun j => ?_⟩
    generalize addr - DRAM_BASE = o
    by_cases h : o ≤ j ∧ j < o + 16 / 8
    · obtain ⟨k, rfl⟩ : ∃ k, j = o + k := ⟨j - o, by omega⟩
      have hk : k < 2 := by omega
      interval_cases k <;> simp
    · rw [if_neg h]; simp only; split_ifs <;> first | rfl | omega
  · refine ⟨_, dram_store_32_ok d addr value hlo hhi, fun j => ?_⟩
    generalize addr - DRAM_BASE = o
    by_cases h : o ≤ j ∧ j < o + 32 / 8
    · obtain ⟨k, rfl⟩ : ∃ k, j = o + k := ⟨j - o, by omega⟩
      have hk : k < 4 := by omega
      interval_cases k <;> simp
    · rw [if_neg h]; simp only; split_ifs <;> first | rfl | omega
  · refine ⟨_, dram_store_64_ok d addr value hlo hhi, fun j => ?_⟩
    generalize addr - DRAM_BASE = o
    by_cases h : o ≤ j ∧ j < o + 64 / 8
    · obtain ⟨k, rfl⟩ : ∃ k, j = o + k := ⟨j - o, by omega⟩
      have hk : k < 8 := by omega
      interval_cases k <;> simp
    · rw [if_neg h]; simp only; split_ifs <;> first | rfl | omega

/-! ## DRAM and bus: round trip, little-endian layout, frame -/

/-- C1: for every DRAM content, every size in {8,16,32,64}, every value and every address with
`DRAM_BASE <= addr` and `addr + size/8 <= DRAM_BASE + DRAM_SIZE`, `dram_load(addr, size)`
performed right after `dram_store(addr, size, value)` returns `value mod 2^size`; the same holds
through `bus_store` / `bus_load`. -/
theorem dram_store_load_roundtrip (d : DRAM) (b : BUS) (addr size value : Nat)
    (hsize : size = 8 ∨ size = 16 ∨ size = 32 ∨ size = 64)
    (hlo : DRAM_BASE ≤ addr) (hhi : addr + size / 8 ≤ DRAM_BASE + DRAM_SIZE) :
    (dram_store d addr size value >>= fun d' => dram_load d' addr size)
        = .ok (value % 2 ^ size)
      ∧ (bus_store b addr size value >>= fun b' => bus_load b' addr size)
        = .ok (value % 2 ^ size) := by
  have key : ∀ d0 : DRAM, (dram_store d0 addr size value >>= fun d' => dram_load d' addr size)
      = .ok (value % 2 ^ size) := by
    intro d0
    rcases hsize with rfl | rfl | rfl | rfl
    · rw [dram_store_8_ok d0 addr value hlo hhi, bind_ok, dram_load_8_ok _ addr hlo hhi]
      simp
    · rw [dram_store_16_ok d0 addr value hlo hhi, bind_ok, dram_load_16_ok _ addr hlo hhi]
      simp only [self_eq_add_right, Nat.add_right_inj, OfNat.ofNat_ne_zero, one_ne_zero,
        if_false, if_true, Nat.reduceEqDiff]
      rw [pack16 _ _ (Nat.mod_lt _ (by decide))]
      congr 1; omega
    · rw [dram_store_32_ok d0 addr value hlo hhi, bind_ok, dram_load_32_ok _ addr hlo hhi]
      simp only [self_eq_add_right, Nat.add_right_inj, OfNat.ofNat_ne_zero, one_ne_zero,
        if_false, if_true, Nat.reduceEqDiff]
      rw [pack32 _ _ _ _ (Nat.mod_lt _ (by decide)) (Nat.mod_lt _ (by decide))
        (Nat.mod_lt _ (by decide))]
      congr 1; omega
    · rw [dram_store_64_ok d0 addr value hlo hhi, bind_ok, dram_load_64_ok _ addr hlo hhi]
      simp only [self_eq_add_right, Nat.add_right_inj, OfNat.ofNat_ne_zero, one_ne_zero,
        if_false, if_true, Nat.reduceEqDiff]
      rw [pack64 _ _ _ _ _ _ _ _ (Nat.mod_lt _ (by decide)) (Nat.mod_lt _ (by decide))
        (Nat.mod_lt _ (by decide)) (Nat.mod_lt _ (by decide)) (Nat.mod_lt _ (by decide))
        (Nat.mod_lt _ (by decide)) (Nat.mod_lt _ (by decide))]
      congr 1; omega
  refine ⟨key d, ?_⟩
  have hb := key b.dram
  unfold bus_store bus_load
  cases hs : dram_store b.dram addr size value with
  | error e => rw [hs] at hb; cases hb
  | ok d' => rw [hs, bind_ok] at hb; simpa [bind_ok, pure_ok] using hb

theorem dram_store_load_roundtrip_witness :
    (32 = 8 ∨ 32 = 16 ∨ 32 = 32 ∨ 32 = 64) ∧ DRAM_BASE ≤ DRAM_BASE + 16
      ∧ DRAM_BASE + 16 + 32 / 8 ≤ DRAM_BASE + DRAM_SIZE
      ∧ (dram_store zeroDRAM (DRAM_BASE + 16) 32 0x1122334455667788
          >>= fun d' => dram_load d' (DRAM_BASE + 16) 32) = .ok (0x1122334455667788 % 2 ^ 32)
      ∧ (bus_store ⟨zeroDRAM⟩ (DRAM_BASE + 16) 32 0x1122334455667788
          >>= fun b' => bus_load b' (DRAM_BASE + 16) 32) = .ok (0x1122334455667788 % 2 ^ 32) :=
  ⟨by decide, by decide, by decide,
    dram_store_load_roundtrip zeroDRAM ⟨zeroDRAM⟩ (DRAM_BASE + 16) 32 0x1122334455667788
      (by decide) (by decide) (by decide)⟩

/-- C2: for every DRAM content (cells are bytes), every size in {8,16,32,64} and every in-range
address, `dram_load(addr, size)` is the sum over `i < size/8` of
`mem[addr - DRAM_BASE + i] * 2^(8*i)`: least-significant byte first, zero-extended, hence below
`2^size`. -/
theorem dram_load_little_endian (d : DRAM) (addr size : Nat)
    (hsize : size = 8 ∨ size = 16 ∨ size = 32 ∨ size = 64) (hbytes : d.Bytes)
    (hlo : DRAM_BASE ≤ addr) (hhi : addr + size / 8 ≤ DRAM_BASE + DRAM_SIZE) :
    dram_load d addr size
        = .ok (((List.range (size / 8)).map
            fun i => d.mem (addr - DRAM_BASE + i) * 2 ^ (8 * i)).sum)
      ∧ ((List.range (size / 8)).map
            fun i => d.mem (addr - DRAM_BASE + i) * 2 ^ (8 * i)).sum < 2 ^ size := by
  have hb : ∀ k, d.mem k < 256 := hbytes
  rcases hsize with rfl | rfl | rfl | rfl
  · have hr : List.range (8 / 8) = [0] := by decide
    rw [dram_load_8_ok d addr hlo hhi, hr]
    simp only [List.map_cons, List.map_nil, List.sum_cons, List.sum_nil, add_zero, mul_zero,
      pow_zero, mul_one]
    generalize addr - DRAM_BASE = o
    have h0 := hb o
    exact ⟨trivial, by omega⟩
  · have hr : List.range (16 / 8) = [0, 1] := by decide
    rw [dram_load_16_ok d addr hlo hhi, hr, pack16 _ _ (hb _)]
    simp only [List.map_cons, List.map_nil, List.sum_cons, List.sum_nil, add_zero, mul_zero,
      pow_zero, mul_one]
    generalize addr - DRAM_BASE = o
    have h0 := hb o; have h1 := hb (o + 1)
    exact ⟨trivial, by omega⟩
  · have hr : List.range (32 / 8) = [0, 1, 2, 3] := by decide
    rw [dram_load_32_ok d addr hlo hhi, hr, pack32 _ _ _ _ (hb _) (hb _) (hb _)]
    simp only [List.map_cons, List.map_nil, List.sum_cons, List.sum_nil, add_zero, mul_zero,
      pow_zero, mul_one]
    generalize addr - DRAM_BASE = o
    have h0 := hb o; have h1 := hb (o + 1); have h2 := hb (o + 2); have h3 := hb (o + 3)
    exact ⟨by congr 1; omega, by omega⟩
  · have hr : List.range (64 / 8) = [0, 1, 2, 3, 4, 5, 6, 7] := by decide
    rw [dram_load_64_ok d addr hlo hhi, hr,
      pack64 _ _ _ _ _ _ _ _ (hb _) (hb _) (hb _) (hb _) (hb _) (hb _) (hb _)]
    simp only [List.map_cons, List.map_nil, List.sum_cons, List.sum_nil, add_zero, mul_zero,
      pow_zero, mul_one]
    generalize addr - DRAM_BASE = o
    have h0 := hb o; have h1 := hb (o + 1); have h2 := hb (o + 2); have h3 := hb (o + 3)
    have h4 := hb (o + 4); have h5 := hb (o + 5); have h6 := hb (o + 6); have h7 := hb (o + 7)
    exact ⟨by congr 1; omega, by omega⟩

theorem sampleDRAM_bytes : sampleDRAM.Bytes := by
  intro i
  simp only [sampleDRAM]
  split_ifs <;> decide

theorem dram_load_little_endian_witness :
    dram_load sampleDRAM DRAM_BASE 32 = .ok 0x55667788 ∧ 0x55667788 < 2 ^ 32 :=
  dram_load_little_endian sampleDRAM DRAM_BASE 32 (by decide) sampleDRAM_bytes (by decide)
    (by decide)

/-- C3: for every size in {8,16,32,64}, every in-range address and every value,
`dram_store(addr, size, value)` sets the byte at `addr + i` to `(value >> 8*i) & 0xff` for each
`i < size/8` and leaves every other byte of DRAM unchanged; a byte load at `addr + i` after the
store returns byte `i` of the value. -/
theorem dram_store_bytes_frame (d : DRAM) (addr size value : Nat)
    (hsize : size = 8 ∨ size = 16 ∨ size = 32 ∨ size = 64)
    (hlo : DRAM_BASE ≤ addr) (hhi : addr + size / 8 ≤ DRAM_BASE + DRAM_SIZE) :
    ∃ d', dram_store d addr size value = .ok d'
      ∧ (∀ i, i < size / 8 → d'.mem (addr - DRAM_BASE + i) = (value >>> (8 * i)) &&& 0xff)
      ∧ (∀ j, ¬ (addr - DRAM_BASE ≤ j ∧ j < addr - DRAM_BASE + size / 8) → d'.mem j = d.mem j)
      ∧ (∀ i, i < size / 8 → dram_load d' (addr + i) 8 = .ok ((value >>> (8 * i)) &&& 0xff)) := by
  obtain ⟨d', hst, hmem⟩ := dram_store_ok d addr size value hsize hlo hhi
  have hcell : ∀ i, i < size / 8 →
      d'.mem (addr - DRAM_BASE + i) = (value >>> (8 * i)) &&& 0xff := by
    intro i hi
    rw [hmem, if_pos ⟨by omega, by omega⟩, Nat.add_sub_cancel_left, and_255,
      Nat.shiftRight_eq_div_pow]
  refine ⟨d', hst, hcell, fun j hj => by rw [hmem, if_neg hj], fun i hi => ?_⟩
  have hidx : addr + i - DRAM_BASE = addr - DRAM_BASE + i := by omega
  rw [dram_load_8_ok d' (addr + i) (by omega) (by omega), hidx, hcell i hi]

theorem dram_store_bytes_frame_witness :
    (32 = 8 ∨ 32 = 16 ∨ 32 = 32 ∨ 32 = 64) ∧ DRAM_BASE ≤ DRAM_BASE + 16
      ∧ DRAM_BASE + 16 + 32 / 8 ≤ DRAM_BASE + DRAM_SIZE
      ∧ ∃ d', dram_store sampleDRAM (DRAM_BASE + 16) 32 0xcafef00d = .ok d'
        ∧ (∀ i, i < 32 / 8 →
            d'.mem (DRAM_BASE + 16 - DRAM_BASE + i) = (0xcafef00d >>> (8 * i)) &&& 0xff)
        ∧ (∀ j, ¬ (DRAM_BASE + 16 - DRAM_BASE ≤ j ∧ j < DRAM_BASE + 16 - DRAM_BASE + 32 / 8) →
            d'.mem j = sampleDRAM.mem j)
        ∧ (∀ i, i < 32 / 8 →
            dram_load d' (DRAM_BASE + 16 + i) 8 = .ok ((0xcafef00d >>> (8 * i)) &&& 0xff)) :=
  ⟨by decide, by decide, by decide,
    dram_store_bytes_frame sampleDRAM (DRAM_BASE + 16) 32 0xcafef00d
      (by decide) (by decide) (by decide)⟩

/-! ## Decoder -/

/-- C4: for every 32-bit instruction word, `imm_I(inst)` is bits 31..20 of `inst` read as a
12-bit two's-complement number and sign-extended to 64 bits: its signed reading is the signed
reading of the field, its low 12 bits are the field, and bit 31 of `inst` is replicated into
bits 63..12; `imm_I(0xFFF00000) = 2^64 - 1` and `imm_I(0x7FF00000) = 0x7FF`. -/
theorem imm_I_sign_extends (inst : Nat) (h : inst < 2 ^ 32) :
    i64 (imm_I inst)
        = (if inst / 2 ^ 20 % 2 ^ 12 < 2 ^ 11 then ((inst / 2 ^ 20 % 2 ^ 12 : Nat) : Int)
           else ((inst / 2 ^ 20 % 2 ^ 12 : Nat) : Int) - 2 ^ 12)
      ∧ imm_I inst < 2 ^ 64
      ∧ imm_I inst % 2 ^ 12 = inst / 2 ^ 20 % 2 ^ 12
      ∧ (∀ k, 12 ≤ k → k < 64 → (imm_I inst).testBit k = inst.testBit 31)
      ∧ imm_I 0xFFF00000 = 2 ^ 64 - 1 ∧ imm_I 0x7FF00000 = 0x7FF := by
  have hI := imm_I_eq inst h
  refine ⟨?_, ?_, ?_, ?_, by decide, by decide⟩
  · unfold i64
    rw [hI]
    split_ifs <;> omega
  · rw [hI]; split_ifs <;> omega
  · rw [hI]; split_ifs <;> omega
  · intro k hk1 hk2
    have hb : inst.testBit 31 = decide (inst / 2 ^ 31 % 2 = 1) := Nat.testBit_to_div_mod
    by_cases hs : inst / 2 ^ 20 < 2 ^ 11
    · rw [hI, if_pos hs, hb]
      have h1 : inst / 2 ^ 20 < 2 ^ k :=
        lt_of_lt_of_le hs (Nat.pow_le_pow_right (by decide) (by omega))
      rw [Nat.testBit_lt_two_pow h1]
      have : ¬ inst / 2 ^ 31 % 2 = 1 := by omega
      rw [decide_eq_false this]
    · rw [hI, if_neg hs, hb]
      have e : inst / 2 ^ 20 + (2 ^ 64 - 2 ^ 12)
          = 2 ^ 64 - ((2 ^ 12 - 1 - inst / 2 ^ 20) + 1) := by omega
      have hlt : 2 ^ 12 - 1 - inst / 2 ^ 20 < 2 ^ 64 := by omega
      rw [e, Nat.testBit_two_pow_sub_succ hlt]
      have h1 : 2 ^ 12 - 1 - inst / 2 ^ 20 < 2 ^ k :=
        lt_of_lt_of_le (by omega : 2 ^ 12 - 1 - inst / 2 ^ 20 < 2 ^ 11)
          (Nat.pow_le_pow_right (by decide) (by omega))
      rw [Nat.testBit_lt_two_pow h1]
      have : inst / 2 ^ 31 % 2 = 1 := by omega
      rw [decide_eq_true this, decide_eq_true hk2]
      rfl

theorem imm_I_sign_extends_witness :
    0x00500093 < 2 ^ 32
      ∧ i64 (imm_I 0x00500093)
        = (if 0x00500093 / 2 ^ 20 % 2 ^ 12 < 2 ^ 11
           then ((0x00500093 / 2 ^ 20 % 2 ^ 12 : Nat) : Int)
           else ((0x00500093 / 2 ^ 20 % 2 ^ 12 : Nat) : Int) - 2 ^ 12)
      ∧ imm_I 0x00500093 < 2 ^ 64
      ∧ imm_I 0x00500093 % 2 ^ 12 = 0x00500093 / 2 ^ 20 % 2 ^ 12
      ∧ (∀ k, 12 ≤ k → k < 64 → (imm_I 0x00500093).testBit k = (0x00500093).testBit 31)
      ∧ imm_I 0xFFF00000 = 2 ^ 64 - 1 ∧ imm_I 0x7FF00000 = 0x7FF :=
  ⟨by decide, imm_I_sign_extends 0x00500093 (by decide)⟩

/-- The encoding of the fields of an instruction word that C5 speaks of. -/
theorem encode_eq (opc rd' f3 rs1' rs2' f7 : Nat) (ho : opc < 128) (hrd : rd' < 32)
    (hf3 : f3 < 8) (hrs1 : rs1' < 32) (hrs2 : rs2' < 32) :
    opc ||| (rd' <<< 7) ||| (f3 <<< 12) ||| (rs1' <<< 15) ||| (rs2' <<< 20) ||| (f7 <<< 25)
      = opc + rd' * 2 ^ 7 + f3 * 2 ^ 12 + rs1' * 2 ^ 15 + rs2' * 2 ^ 20 + f7 * 2 ^ 25 := by
  rw [or_shl opc rd' 7 (by omega), or_shl _ f3 12 (by omega), or_shl _ rs1' 15 (by omega),
    or_shl _ rs2' 20 (by omega), or_shl _ f7 25 (by omega)]

/-- C5: decode undoes encode for the register and CSR fields: for `rd, rs1, rs2 < 32`,
`funct3 < 8`, `funct7 < 128`, `opcode < 128` the word
`w = opcode | rd<<7 | funct3<<12 | rs1<<15 | rs2<<20 | funct7<<25` has `rd(w) = rd`,
`rs1(w) = rs1`, `rs2(w) = rs2`, `csr(w) = (funct7 << 5) | rs2`, and the opcode, funct3 and
funct7 that `cpu_execute` extracts are the encoded ones. -/
theorem decode_encode (opc rd' f3 rs1' rs2' f7 : Nat) (ho : opc < 128) (hrd : rd' < 32)
    (hf3 : f3 < 8) (hrs1 : rs1' < 32) (hrs2 : rs2' < 32) (hf7 : f7 < 128) :
    rd (opc ||| (rd' <<< 7) ||| (f3 <<< 12) ||| (rs1' <<< 15) ||| (rs2' <<< 20) ||| (f7 <<< 25))
        = rd'
      ∧ rs1 (opc ||| (rd' <<< 7) ||| (f3 <<< 12) ||| (rs1' <<< 15) ||| (rs2' <<< 20)
          ||| (f7 <<< 25)) = rs1'
      ∧ rs2 (opc ||| (rd' <<< 7) ||| (f3 <<< 12) ||| (rs1' <<< 15) ||| (rs2' <<< 20)
          ||| (f7 <<< 25)) = rs2'
      ∧ csr (opc ||| (rd' <<< 7) ||| (f3 <<< 12) ||| (rs1' <<< 15) ||| (rs2' <<< 20)
          ||| (f7 <<< 25)) = (f7 <<< 5) ||| rs2'
      ∧ opcode (opc ||| (rd' <<< 7) ||| (f3 <<< 12) ||| (rs1' <<< 15) ||| (rs2' <<< 20)
          ||| (f7 <<< 25)) = opc
      ∧ funct3 (opc ||| (rd' <<< 7) ||| (f3 <<< 12) ||| (rs1' <<< 15) ||| (rs2' <<< 20)
          ||| (f7 <<< 25)) = f3
      ∧ funct7 (opc ||| (rd' <<< 7) ||| (f3 <<< 12) ||| (rs1' <<< 15) ||| (rs2' <<< 20)
          ||| (f7 <<< 25)) = f7 := by
  rw [encode_eq opc rd' f3 rs1' rs2' f7 ho hrd hf3 hrs1 hrs2]
  unfold rd rs1 rs2 csr opcode funct3 funct7
  rw [m_fff00000, m_1f, m_1f, m_1f, m_7f, m_7f, m_7, Nat.or_comm, or_shl rs2' f7 5 hrs2]
  simp only [Nat.shiftRight_eq_div_pow]
  refine ⟨?_, ?_, ?_, ?_, ?_, ?_, ?_⟩ <;> omega

theorem decode_encode_witness :
    rd (0x13 ||| (1 <<< 7) ||| (0 <<< 12) ||| (2 <<< 15) ||| (5 <<< 20) ||| (0x20 <<< 25)) = 1
      ∧ rs1 (0x13 ||| (1 <<< 7) ||| (0 <<< 12) ||| (2 <<< 15) ||| (5 <<< 20) ||| (0x20 <<< 25))
        = 2
      ∧ rs2 (0x13 ||| (1 <<< 7) ||| (0 <<< 12) ||| (2 <<< 15) ||| (5 <<< 20) ||| (0x20 <<< 25))
        = 5
      ∧ csr (0x13 ||| (1 <<< 7) ||| (0 <<< 12) ||| (2 <<< 15) ||| (5 <<< 20) ||| (0x20 <<< 25))
        = (0x20 <<< 5) ||| 5
      ∧ opcode (0x13 ||| (1 <<< 7) ||| (0 <<< 12) ||| (2 <<< 15) ||| (5 <<< 20)
          ||| (0x20 <<< 25)) = 0x13
      ∧ funct3 (0x13 ||| (1 <<< 7) ||| (0 <<< 12) ||| (2 <<< 15) ||| (5 <<< 20)
          ||| (0x20 <<< 25)) = 0
      ∧ funct7 (0x13 ||| (1 <<< 7) ||| (0 <<< 12) ||| (2 <<< 15) ||| (5 <<< 20)
          ||| (0x20 <<< 25)) = 0x20 :=
  decode_encode 0x13 1 0 2 5 0x20 (by decide) (by decide) (by decide) (by decide) (by decide)
    (by decide)

/-! ## Registers written by an instruction

Every `exec_` function assigns no register other than `regs[rd(inst)]`. -/

theorem bind_eq_ok {ε α β : Type} (x : Except ε α) (f : α → Except ε β) (b : β) :
    (x >>= f) = .ok b ↔ ∃ a, x = .ok a ∧ f a = .ok b := by
  cases x with
  | error e =>
    constructor
    · intro h; cases h
    · rintro ⟨a, ha, -⟩; cases ha
  | ok a =>
    constructor
    · intro h; exact ⟨a, rfl, h⟩
    · rintro ⟨a', ha, h⟩; cases ha; exact h

theorem setReg_regs_ne (cpu : CPU) (i v j : Nat) (h : j ≠ i) :
    (cpu.setReg i v).regs j = cpu.regs j := by
  simp [CPU.setReg, h]

theorem setReg_regs_self (cpu : CPU) (i v : Nat) : (cpu.setReg i v).regs i = v := by
  simp [CPU.setReg]

theorem setReg_pc (cpu : CPU) (i v : Nat) : (cpu.setReg i v).pc = cpu.pc := rfl

theorem setReg_bus (cpu : CPU) (i v : Nat) : (cpu.setReg i v).bus = cpu.bus := rfl

theorem setReg_csr (cpu : CPU) (i v : Nat) : (cpu.setReg i v).csr = cpu.csr := rfl

theorem cpu_store_regs {cpu c : CPU} {a sz v : Nat} (h : cpu_store cpu a sz v = .ok c) :
    c.regs = cpu.regs ∧ c.pc = cpu.pc ∧ c.csr = cpu.csr := by
  unfold cpu_store at h
  simp only [bind_eq_ok, pure_ok, Except.ok.injEq] at h
  obtain ⟨b, -, rfl⟩ := h
  exact ⟨rfl, rfl, rfl⟩

theorem exec_LUI_regs {cpu c : CPU} {inst : Nat} (h : exec_LUI cpu inst = .ok c)
    (j : Nat) (hj : j ≠ rd inst) : c.regs j = cpu.regs j := by
  unfold exec_LUI at h
  simp only [pure_ok, Except.ok.injEq] at h
  subst h
  exact setReg_regs_ne _ _ _ _ hj

theorem exec_AUIPC_regs {cpu c : CPU} {inst : Nat} (h : exec_AUIPC cpu inst = .ok c)
    (j : Nat) (hj : j ≠ rd inst) : c.regs j = cpu.regs j := by
  unfold exec_AUIPC at h
  simp only [pure_ok, Except.ok.injEq] at h
  subst h
  exact setReg_regs_ne _ _ _ _ hj

theorem exec_ADDI_regs {cpu c : CPU} {inst : Nat} (h : exec_ADDI cpu inst = .ok c)
    (j : Nat) (hj : j ≠ rd inst) : c.regs j = cpu.regs j := by
  unfold exec_ADDI at h
  simp only [pure_ok, Except.ok.injEq] at h
  subst h
  exact setReg_regs_ne _ _ _ _ hj

theorem exec_SLTI_regs {cpu c : CPU} {inst : Nat} (h : exec_SLTI cpu inst = .ok c)
    (j : Nat) (hj : j ≠ rd inst) : c.regs j = cpu.regs j := by
  unfold exec_SLTI at h
  simp only [pure_ok, Except.ok.injEq] at h
  subst h
  exact setReg_regs_ne _ _ _ _ hj

theorem exec_SLTIU_regs {cpu c : CPU} {inst : Nat} (h : exec_SLTIU cpu inst = .ok c)
    (j : Nat) (hj : j ≠ rd inst) : c.regs j = cpu.regs j := by
  unfold exec_SLTIU at h
  simp only [pure_ok, Except.ok.injEq] at h
  subst h
  exact setReg_regs_ne _ _ _ _ hj

theorem exec_XORI_regs {cpu c : CPU} {inst : Nat} (h : exec_XORI cpu inst = .ok c)
    (j : Nat) (hj : j ≠ rd inst) : c.regs j = cpu.regs j := by
  unfold exec_XORI at h
  simp only [pure_ok, Except.ok.injEq] at h
  subst h
  exact setReg_regs_ne _ _ _ _ hj

theorem exec_ORI_regs {cpu c : CPU} {inst : Nat} (h : exec_ORI cpu inst = .ok c)
    (j : Nat) (hj : j ≠ rd inst) : c.regs j = cpu.regs j := by
  unfold exec_ORI at h
  simp only [pure_ok, Except.ok.injEq] at h
  subst h
  exact setReg_regs_ne _ _ _ _ hj

theorem exec_ANDI_regs {cpu c : CPU} {inst : Nat} (h : exec_ANDI cpu inst = .ok c)
    (j : Nat) (hj : j ≠ rd inst) : c.regs j = cpu.regs j := by
  unfold exec_ANDI at h
  simp only [pure_ok, Except.ok.injEq] at h
  subst h
  exact setReg_regs_ne _ _ _ _ hj

theorem exec_ADD_regs {cpu c : CPU} {inst : Nat} (h : exec_ADD cpu inst = .ok c)
    (j : Nat) (hj : j ≠ rd inst) : c.regs j = cpu.regs j := by
  unfold exec_ADD at h
  simp only [pure_ok, Except.ok.injEq] at h
  subst h
  exact setReg_regs_ne _ _ _ _ hj

theorem exec_SUB_regs {cpu c : CPU} {inst : Nat} (h : exec_SUB cpu inst = .ok c)
    (j : Nat) (hj : j ≠ rd inst) : c.regs j = cpu.regs j := by
  unfold exec_SUB at h
  simp only [pure_ok, Except.ok.injEq] at h
  subst h
  exact setReg_regs_ne _ _ _ _ hj

theorem exec_SLT_regs {cpu c : CPU} {inst : Nat} (h : exec_SLT cpu inst = .ok c)
    (j : Nat) (hj : j ≠ rd inst) : c.regs j = cpu.regs j := by
  unfold exec_SLT at h
  simp only [pure_ok, Except.ok.injEq] at h
  subst h
  exact setReg_regs_ne _ _ _ _ hj

theorem exec_SLTU_regs {cpu c : CPU} {inst : Nat} (h : exec_SLTU cpu inst = .ok c)
    (j : Nat) (hj : j ≠ rd inst) : c.regs j = cpu.regs j := by
  unfold exec_SLTU at h
  simp only [pure_ok, Except.ok.injEq] at h
  subst h
  exact setReg_regs_ne _ _ _ _ hj

theorem exec_XOR_regs {cpu c : CPU} {inst : Nat} (h : exec_XOR cpu inst = .ok c)
    (j : Nat) (hj : j ≠ rd inst) : c.regs j = cpu.regs j := by
  unfold exec_XOR at h
  simp only [pure_ok, Except.ok.injEq] at h
  subst h
  exact setReg_regs_ne _ _ _ _ hj

theorem exec_OR_regs {cpu c : CPU} {inst : Nat} (h : exec_OR cpu inst = .ok c)
    (j : Nat) (hj : j ≠ rd inst) : c.regs j = cpu.regs j := by
  unfold exec_OR at h
  simp only [pure_ok, Except.ok.injEq] at h
  subst h
  exact setReg_regs_ne _ _ _ _ hj

theorem exec_AND_regs {cpu c : CPU} {inst : Nat} (h : exec_AND cpu inst = .ok c)
    (j : Nat) (hj : j ≠ rd inst) : c.regs j = cpu.regs j := by
  unfold exec_AND at h
  simp only [pure_ok, Except.ok.injEq] at h
  subst h
  exact setReg_regs_ne _ _ _ _ hj

theorem exec_ADDIW_regs {cpu c : CPU} {inst : Nat} (h : exec_ADDIW cpu inst = .ok c)
    (j : Nat) (hj : j ≠ rd inst) : c.regs j = cpu.regs j := by
  unfold exec_ADDIW at h
  simp only [pure_ok, Except.ok.injEq] at h
  subst h
  exact setReg_regs_ne _ _ _ _ hj

theorem exec_ADDW_regs {cpu c : CPU} {inst : Nat} (h : exec_ADDW cpu inst = .ok c)
    (j : Nat) (hj : j ≠ rd inst) : c.regs j = cpu.regs j := by
  unfold exec_ADDW at h
  simp only [pure_ok, Except.ok.injEq] at h
  subst h
  exact setReg_regs_ne _ _ _ _ hj

theorem exec_MULW_regs {cpu c : CPU} {inst : Nat} (h : exec_MULW cpu inst = .ok c)
    (j : Nat) (hj : j ≠ rd inst) : c.regs j = cpu.regs j := by
  unfold exec_MULW at h
  simp only [pure_ok, Except.ok.injEq] at h
  subst h
  exact setReg_regs_ne _ _ _ _ hj

theorem exec_SUBW_regs {cpu c : CPU} {inst : Nat} (h : exec_SUBW cpu inst = .ok c)
    (j : Nat) (hj : j ≠ rd inst) : c.regs j = cpu.regs j := by
  unfold exec_SUBW at h
  simp only [pure_ok, Except.ok.injEq] at h
  subst h
  exact setReg_regs_ne _ _ _ _ hj

theorem exec_LB_regs {cpu c : CPU} {inst : Nat} (h : exec_LB cpu inst = .ok c)
    (j : Nat) (hj : j ≠ rd inst) : c.regs j = cpu.regs j := by
  unfold exec_LB at h
  simp only [bind_eq_ok, pure_ok, Except.ok.injEq] at h
  obtain ⟨v, -, rfl⟩ := h
  exact setReg_regs_ne _ _ _ _ hj

theorem exec_LH_regs {cpu c : CPU} {inst : Nat} (h : exec_LH cpu inst = .ok c)
    (j : Nat) (hj : j ≠ rd inst) : c.regs j = cpu.regs j := by
  unfold exec_LH at h
  simp only [bind_eq_ok, pure_ok, Except.ok.injEq] at h
  obtain ⟨v, -, rfl⟩ := h
  exact setReg_regs_ne _ _ _ _ hj

theorem exec_LW_regs {cpu c : CPU} {inst : Nat} (h : exec_LW cpu inst = .ok c)
    (j : Nat) (hj : j ≠ rd inst) : c.regs j = cpu.regs j := by
  unfold exec_LW at h
  simp only [bind_eq_ok, pure_ok, Except.ok.injEq] at h
  obtain ⟨v, -, rfl⟩ := h
  exact setReg_regs_ne _ _ _ _ hj

theorem exec_LD_regs {cpu c : CPU} {inst : Nat} (h : exec_LD cpu inst = .ok c)
    (j : Nat) (hj : j ≠ rd inst) : c.regs j = cpu.regs j := by
  unfold exec_LD at h
  simp only [bind_eq_ok, pure_ok, Except.ok.injEq] at h
  obtain ⟨v, -, rfl⟩ := h
  exact setReg_regs_ne _ _ _ _ hj

theorem exec_LBU_regs {cpu c : CPU} {inst : Nat} (h : exec_LBU cpu inst = .ok c)
    (j : Nat) (hj : j ≠ rd inst) : c.regs j = cpu.regs j := by
  unfold exec_LBU at h
  simp only [bind_eq_ok, pure_ok, Except.ok.injEq] at h
  obtain ⟨v, -, rfl⟩ := h
  exact setReg_regs_ne _ _ _ _ hj

theorem exec_LHU_regs {cpu c : CPU} {inst : Nat} (h : exec_LHU cpu inst = .ok c)
    (j : Nat) (hj : j ≠ rd inst) : c.regs j = cpu.regs j := by
  unfold exec_LHU at h
  simp only [bind_eq_ok, pure_ok, Except.ok.injEq] at h
  obtain ⟨v, -, rfl⟩ := h
  exact setReg_regs_ne _ _ _ _ hj

theorem exec_LWU_regs {cpu c : CPU} {inst : Nat} (h : exec_LWU cpu inst = .ok c)
    (j : Nat) (hj : j ≠ rd inst) : c.regs j = cpu.regs j := by
  unfold exec_LWU at h
  simp only [bind_eq_ok, pure_ok, Except.ok.injEq] at h
  obtain ⟨v, -, rfl⟩ := h
  exact setReg_regs_ne _ _ _ _ hj

theorem exec_SLLI_regs {cpu c : CPU} {inst : Nat} (h : exec_SLLI cpu inst = .ok c)
    (j : Nat) (hj : j ≠ rd inst) : c.regs j = cpu.regs j := by
  unfold exec_SLLI at h
  simp only [bind_eq_ok, pure_ok, Except.ok.injEq] at h
  obtain ⟨v, -, rfl⟩ := h
  exact setReg_regs_ne _ _ _ _ hj

theorem exec_SRLI_regs {cpu c : CPU} {inst : Nat} (h : exec_SRLI cpu inst = .ok c)
    (j : Nat) (hj : j ≠ rd inst) : c.regs j = cpu.regs j := by
  unfold exec_SRLI at h
  simp only [bind_eq_ok, pure_ok, Except.ok.injEq] at h
  obtain ⟨v, -, rfl⟩ := h
  exact setReg_regs_ne _ _ _ _ hj

theorem exec_SRAI_regs {cpu c : CPU} {inst : Nat} (h : exec_SRAI cpu inst = .ok c)
    (j : Nat) (hj : j ≠ rd inst) : c.regs j = cpu.regs j := by
  unfold exec_SRAI at h
  simp only [bind_eq_ok, pure_ok, Except.ok.injEq] at h
  obtain ⟨v, -, rfl⟩ := h
  exact setReg_regs_ne _ _ _ _ hj

theorem exec_SLL_regs {cpu c : CPU} {inst : Nat} (h : exec_SLL cpu inst = .ok c)
    (j : Nat) (hj : j ≠ rd inst) : c.regs j = cpu.regs j := by
  unfold exec_SLL at h
  simp only [bind_eq_ok, pure_ok, Except.ok.injEq] at h
  obtain ⟨v, -, rfl⟩ := h
  exact setReg_regs_ne _ _ _ _ hj

theorem exec_SRL_regs {cpu c : CPU} {inst : Nat} (h : exec_SRL cpu inst = .ok c)
    (j : Nat) (hj : j ≠ rd inst) : c.regs j = cpu.regs j := by
  unfold exec_SRL at h
  simp only [bind_eq_ok, pure_ok, Except.ok.injEq] at h
  obtain ⟨v, -, rfl⟩ := h
  exact setReg_regs_ne _ _ _ _ hj

theorem exec_SRA_regs {cpu c : CPU} {inst : Nat} (h : exec_SRA cpu inst = .ok c)
    (j : Nat) (hj : j ≠ rd inst) : c.regs j = cpu.regs j := by
  unfold exec_SRA at h
  simp only [bind_eq_ok, pure_ok, Except.ok.injEq] at h
  obtain ⟨v, -, rfl⟩ := h
  exact setReg_regs_ne _ _ _ _ hj

theorem exec_SLLIW_regs {cpu c : CPU} {inst : Nat} (h : exec_SLLIW cpu inst = .ok c)
    (j : Nat) (hj : j ≠ rd inst) : c.regs j = cpu.regs j := by
  unfold exec_SLLIW at h
  simp only [bind_eq_ok, pure_ok, Except.ok.injEq] at h
  obtain ⟨v, -, rfl⟩ := h
  exact setReg_regs_ne _ _ _ _ hj

theorem exec_SRLIW_regs {cpu c : CPU} {inst : Nat} (h : exec_SRLIW cpu inst = .ok c)
    (j : Nat) (hj : j ≠ rd inst) : c.regs j = cpu.regs j := by
  unfold exec_SRLIW at h
  simp only [bind_eq_ok, pure_ok, Except.ok.injEq] at h
  obtain ⟨v, -, rfl⟩ := h
  exact setReg_regs_ne _ _ _ _ hj

theorem exec_SRAIW_regs {cpu c : CPU} {inst : Nat} (h : exec_SRAIW cpu inst = .ok c)
    (j : Nat) (hj : j ≠ rd inst) : c.regs j = cpu.regs j := by
  unfold exec_SRAIW at h
  simp only [bind_eq_ok, pure_ok, Except.ok.injEq] at h
  obtain ⟨v, -, rfl⟩ := h
  exact setReg_regs_ne _ _ _ _ hj

theorem exec_DIVW_regs {cpu c : CPU} {inst : Nat} (h : exec_DIVW cpu inst = .ok c)
    (j : Nat) (hj : j ≠ rd inst) : c.regs j = cpu.regs j := by
  unfold exec_DIVW at h
  simp only [bind_eq_ok, pure_ok, Except.ok.injEq] at h
  obtain ⟨v, -, rfl⟩ := h
  exact setReg_regs_ne _ _ _ _ hj

theorem exec_SLLW_regs {cpu c : CPU} {inst : Nat} (h : exec_SLLW cpu inst = .ok c)
    (j : Nat) (hj : j ≠ rd inst) : c.regs j = cpu.regs j := by
  unfold exec_SLLW at h
  simp only [bind_eq_ok, pure_ok, Except.ok.injEq] at h
  obtain ⟨v, -, rfl⟩ := h
  exact setReg_regs_ne _ _ _ _ hj

theorem exec_SRLW_regs {cpu c : CPU} {inst : Nat} (h : exec_SRLW cpu inst = .ok c)
    (j : Nat) (hj : j ≠ rd inst) : c.regs j = cpu.regs j := by
  unfold exec_SRLW at h
  simp only [bind_eq_ok, pure_ok, Except.ok.injEq] at h
  obtain ⟨v, -, rfl⟩ := h
  exact setReg_regs_ne _ _ _ _ hj

theorem exec_DIVUW_regs {cpu c : CPU} {inst : Nat} (h : exec_DIVUW cpu inst = .ok c)
    (j : Nat) (hj : j ≠ rd inst) : c.regs j = cpu.regs j := by
  unfold exec_DIVUW at h
  simp only [bind_eq_ok, pure_ok, Except.ok.injEq] at h
  obtain ⟨v, -, rfl⟩ := h
  exact setReg_regs_ne _ _ _ _ hj

theorem exec_SRAW_regs {cpu c : CPU} {inst : Nat} (h : exec_SRAW cpu inst = .ok c)
    (j : Nat) (hj : j ≠ rd inst) : c.regs j = cpu.regs j := by
  unfold exec_SRAW at h
  simp only [bind_eq_ok, pure_ok, Except.ok.injEq] at h
  obtain ⟨v, -, rfl⟩ := h
  exact setReg_regs_ne _ _ _ _ hj

theorem exec_REMW_regs {cpu c : CPU} {inst : Nat} (h : exec_REMW cpu inst = .ok c)
    (j : Nat) (hj : j ≠ rd inst) : c.regs j = cpu.regs j := by
  unfold exec_REMW at h
  simp only [bind_eq_ok, pure_ok, Except.ok.injEq] at h
  obtain ⟨v, -, rfl⟩ := h
  exact setReg_regs_ne _ _ _ _ hj

theorem exec_REMUW_regs {cpu c : CPU} {inst : Nat} (h : exec_REMUW cpu inst = .ok c)
    (j : Nat) (hj : j ≠ rd inst) : c.regs j = cpu.regs j := by
  unfold exec_REMUW at h
  simp only [bind_eq_ok, pure_ok, Except.ok.injEq] at h
  obtain ⟨v, -, rfl⟩ := h
  exact setReg_regs_ne _ _ _ _ hj

theorem exec_BEQ_regs {cpu c : CPU} {inst : Nat} (h : exec_BEQ cpu inst = .ok c)
    (j : Nat) (_hj : j ≠ rd inst) : c.regs j = cpu.regs j := by
  unfold exec_BEQ at h
  split_ifs at h <;> cases h <;> rfl

theorem exec_BNE_regs {cpu c : CPU} {inst : Nat} (h : exec_BNE cpu inst = .ok c)
    (j : Nat) (_hj : j ≠ rd inst) : c.regs j = cpu.regs j := by
  unfold exec_BNE at h
  split_ifs at h <;> cases h <;> rfl

theorem exec_BLT_regs {cpu c : CPU} {inst : Nat} (h : exec_BLT cpu inst = .ok c)
    (j : Nat) (_hj : j ≠ rd inst) : c.regs j = cpu.regs j := by
  unfold exec_BLT at h
  split_ifs at h <;> cases h <;> rfl

theorem exec_BGE_regs {cpu c : CPU} {inst : Nat} (h : exec_BGE cpu inst = .ok c)
    (j : Nat) (_hj : j ≠ rd inst) : c.regs j = cpu.regs j := by
  unfold exec_BGE at h
  split_ifs at h <;> cases h <;> rfl

theorem exec_BLTU_regs {cpu c : CPU} {inst : Nat} (h : exec_BLTU cpu inst = .ok c)
    (j : Nat) (_hj : j ≠ rd inst) : c.regs j = cpu.regs j := by
  unfold exec_BLTU at h
  split_ifs at h <;> cases h <;> rfl

theorem exec_BGEU_regs {cpu c : CPU} {inst : Nat} (h : exec_BGEU cpu inst = .ok c)
    (j : Nat) (_hj : j ≠ rd inst) : c.regs j = cpu.regs j := by
  unfold exec_BGEU at h
  split_ifs at h <;> cases h <;> rfl

theorem exec_JAL_regs {cpu c : CPU} {inst : Nat} (h : exec_JAL cpu inst = .ok c)
    (j : Nat) (hj : j ≠ rd inst) : c.regs j = cpu.regs j := by
  unfold exec_JAL at h
  simp only [] at h
  split_ifs at h
  simp only [pure_ok, Except.ok.injEq] at h
  subst h
  dsimp only
  exact setReg_regs_ne _ _ _ _ hj

theorem exec_JALR_regs {cpu c : CPU} {inst : Nat} (h : exec_JALR cpu inst = .ok c)
    (j : Nat) (hj : j ≠ rd inst) : c.regs j = cpu.regs j := by
  unfold exec_JALR at h
  simp only [] at h
  split_ifs at h
  simp only [pure_ok, Except.ok.injEq] at h
  subst h
  rw [setReg_regs_ne _ _ _ _ hj]

theorem exec_SB_regs {cpu c : CPU} {inst : Nat} (h : exec_SB cpu inst = .ok c)
    (j : Nat) (_hj : j ≠ rd inst) : c.regs j = cpu.regs j := by
  unfold exec_SB at h
  rw [(cpu_store_regs h).1]

theorem exec_SH_regs {cpu c : CPU} {inst : Nat} (h : exec_SH cpu inst = .ok c)
    (j : Nat) (_hj : j ≠ rd inst) : c.regs j = cpu.regs j := by
  unfold exec_SH at h
  rw [(cpu_store_regs h).1]

theorem exec_SW_regs {cpu c : CPU} {inst : Nat} (h : exec_SW cpu inst = .ok c)
    (j : Nat) (_hj : j ≠ rd inst) : c.regs j = cpu.regs j := by
  unfold exec_SW at h
  rw [(cpu_store_regs h).1]

theorem exec_SD_regs {cpu c : CPU} {inst : Nat} (h : exec_SD cpu inst = .ok c)
    (j : Nat) (_hj : j ≠ rd inst) : c.regs j = cpu.regs j := by
  unfold exec_SD at h
  rw [(cpu_store_regs h).1]

theorem exec_CSRRW_regs {cpu c : CPU} {inst : Nat} (h : exec_CSRRW cpu inst = .ok c)
    (j : Nat) (hj : j ≠ rd inst) : c.regs j = cpu.regs j := by
  unfold exec_CSRRW at h
  simp only [pure_ok, Except.ok.injEq] at h
  subst h
  exact setReg_regs_ne _ _ _ _ hj

theorem exec_CSRRS_regs {cpu c : CPU} {inst : Nat} (h : exec_CSRRS cpu inst = .ok c)
    (j : Nat) (_hj : j ≠ rd inst) : c.regs j = cpu.regs j := by
  unfold exec_CSRRS at h
  simp only [pure_ok, Except.ok.injEq] at h
  subst h
  rfl

theorem exec_CSRRC_regs {cpu c : CPU} {inst : Nat} (h : exec_CSRRC cpu inst = .ok c)
    (j : Nat) (_hj : j ≠ rd inst) : c.regs j = cpu.regs j := by
  unfold exec_CSRRC at h
  simp only [pure_ok, Except.ok.injEq] at h
  subst h
  rfl

theorem exec_CSRRWI_regs {cpu c : CPU} {inst : Nat} (h : exec_CSRRWI cpu inst = .ok c)
    (j : Nat) (_hj : j ≠ rd inst) : c.regs j = cpu.regs j := by
  unfold exec_CSRRWI at h
  simp only [pure_ok, Except.ok.injEq] at h
  subst h
  rfl

theorem exec_CSRRSI_regs {cpu c : CPU} {inst : Nat} (h : exec_CSRRSI cpu inst = .ok c)
    (j : Nat) (_hj : j ≠ rd inst) : c.regs j = cpu.regs j := by
  unfold exec_CSRRSI at h
  simp only [pure_ok, Except.ok.injEq] at h
  subst h
  rfl

theorem exec_CSRRCI_regs {cpu c : CPU} {inst : Nat} (h : exec_CSRRCI cpu inst = .ok c)
    (j : Nat) (_hj : j ≠ rd inst) : c.regs j = cpu.regs j := by
  unfold exec_CSRRCI at h
  simp only [pure_ok, Except.ok.injEq] at h
  subst h
  rfl

theorem exec_AMOADD_W_regs {cpu c : CPU} {inst : Nat} (h : exec_AMOADD_W cpu inst = .ok c)
    (j : Nat) (hj : j ≠ rd inst) : c.regs j = cpu.regs j := by
  unfold exec_AMOADD_W at h
  simp only [bind_eq_ok, pure_ok, Except.ok.injEq] at h
  obtain ⟨v, -, h⟩ := h
  rw [(cpu_store_regs h).1]
  exact setReg_regs_ne _ _ _ _ hj

theorem exec_AMOXOR_W_regs {cpu c : CPU} {inst : Nat} (h : exec_AMOXOR_W cpu inst = .ok c)
    (j : Nat) (hj : j ≠ rd inst) : c.regs j = cpu.regs j := by
  unfold exec_AMOXOR_W at h
  simp only [bind_eq_ok, pure_ok, Except.ok.injEq] at h
  obtain ⟨v, -, h⟩ := h
  rw [(cpu_store_regs h).1]
  exact setReg_regs_ne _ _ _ _ hj

theorem exec_AMOAND_W_regs {cpu c : CPU} {inst : Nat} (h : exec_AMOAND_W cpu inst = .ok c)
    (j : Nat) (hj : j ≠ rd inst) : c.regs j = cpu.regs j := by
  unfold exec_AMOAND_W at h
  simp only [bind_eq_ok, pure_ok, Except.ok.injEq] at h
  obtain ⟨v, -, h⟩ := h
  rw [(cpu_store_regs h).1]
  exact setReg_regs_ne _ _ _ _ hj

theorem exec_AMOOR_W_regs {cpu c : CPU} {inst : Nat} (h : exec_AMOOR_W cpu inst = .ok c)
    (j : Nat) (hj : j ≠ rd inst) : c.regs j = cpu.regs j := by
  unfold exec_AMOOR_W at h
  simp only [bind_eq_ok, pure_ok, Except.ok.injEq] at h
  obtain ⟨v, -, h⟩ := h
  rw [(cpu_store_regs h).1]
  exact setReg_regs_ne _ _ _ _ hj

theorem exec_FENCE_regs {cpu c : CPU} {inst : Nat} (h : exec_FENCE cpu inst = .ok c)
    (j : Nat) (_hj : j ≠ rd inst) : c.regs j = cpu.regs j := by
  unfold exec_FENCE at h
  cases h
  rfl

theorem exec_ECALL_regs {cpu c : CPU} {inst : Nat} (h : exec_ECALL cpu inst = .ok c)
    (j : Nat) (_hj : j ≠ rd inst) : c.regs j = cpu.regs j := by
  unfold exec_ECALL at h
  cases h
  rfl

theorem exec_EBREAK_regs {cpu c : CPU} {inst : Nat} (h : exec_EBREAK cpu inst = .ok c)
    (j : Nat) (_hj : j ≠ rd inst) : c.regs j = cpu.regs j := by
  unfold exec_EBREAK at h
  cases h
  rfl

theorem exec_LR_W_regs {cpu c : CPU} {inst : Nat} (h : exec_LR_W cpu inst = .ok c)
    (j : Nat) (_hj : j ≠ rd inst) : c.regs j = cpu.regs j := by
  unfold exec_LR_W at h
  cases h
  rfl

theorem exec_SC_W_regs {cpu c : CPU} {inst : Nat} (h : exec_SC_W cpu inst = .ok c)
    (j : Nat) (_hj : j ≠ rd inst) : c.regs j = cpu.regs j := by
  unfold exec_SC_W at h
  cases h
  rfl

theorem exec_AMOSWAP_W_regs {cpu c : CPU} {inst : Nat} (h : exec_AMOSWAP_W cpu inst = .ok c)
    (j : Nat) (_hj : j ≠ rd inst) : c.regs j = cpu.regs j := by
  unfold exec_AMOSWAP_W at h
  cases h
  rfl

theorem exec_AMOMIN_W_regs {cpu c : CPU} {inst : Nat} (h : exec_AMOMIN_W cpu inst = .ok c)
    (j : Nat) (_hj : j ≠ rd inst) : c.regs j = cpu.regs j := by
  unfold exec_AMOMIN_W at h
  cases h
  rfl

theorem exec_AMOMAX_W_regs {cpu c : CPU} {inst : Nat} (h : exec_AMOMAX_W cpu inst = .ok c)
    (j : Nat) (_hj : j ≠ rd inst) : c.regs j = cpu.regs j := by
  unfold exec_AMOMAX_W at h
  cases h
  rfl

theorem exec_AMOMINU_W_regs {cpu c : CPU} {inst : Nat} (h : exec_AMOMINU_W cpu inst = .ok c)
    (j : Nat) (_hj : j ≠ rd inst) : c.regs j = cpu.regs j := by
  unfold exec_AMOMINU_W at h
  cases h
  rfl

theorem exec_AMOMAXU_W_regs {cpu c : CPU} {inst : Nat} (h : exec_AMOMAXU_W cpu inst = .ok c)
    (j : Nat) (_hj : j ≠ rd inst) : c.regs j = cpu.regs j := by
  unfold exec_AMOMAXU_W at h
  cases h
  rfl

theorem exec_ECALLBREAK_regs {cpu c : CPU} {inst : Nat} (h : exec_ECALLBREAK cpu inst = .ok c)
    (j : Nat) (_hj : j ≠ rd inst) : c.regs j = cpu.regs j := by
  unfold exec_ECALLBREAK at h
  unfold exec_ECALL exec_EBREAK at h
  split_ifs at h <;> cases h <;> rfl

theorem cont_eq_ok {x : Except Fault CPU} {r : Nat} {c : CPU} (h : cont x = .ok (r, c)) :
    r = 1 ∧ x = .ok c := by
  unfold cont at h
  simp only [bind_eq_ok, pure_ok, Except.ok.injEq, Prod.mk.injEq] at h
  obtain ⟨a, ha, h1, rfl⟩ := h
  exact ⟨h1.symm, ha⟩

theorem case_B_TYPE_regs {cpu c : CPU} {inst r : Nat}
    (h : case_B_TYPE cpu inst = .ok (r, c)) (j : Nat) (hj : j ≠ rd inst) :
    c.regs j = cpu.regs j := by
  unfold case_B_TYPE at h
  dsimp only at h
  by_cases c1 : funct3 inst = BEQ
  · rw [if_pos c1] at h
    exact exec_BEQ_regs (cont_eq_ok h).2 j hj
  rw [if_neg c1] at h
  by_cases c2 : funct3 inst = BNE
  · rw [if_pos c2] at h
    exact exec_BNE_regs (cont_eq_ok h).2 j hj
  rw [if_neg c2] at h
  by_cases c3 : funct3 inst = BLT
  · rw [if_pos c3] at h
    exact exec_BLT_regs (cont_eq_ok h).2 j hj
  rw [if_neg c3] at h
  by_cases c4 : funct3 inst = BGE
  · rw [if_pos c4] at h
    exact exec_BGE_regs (cont_eq_ok h).2 j hj
  rw [if_neg c4] at h
  by_cases c5 : funct3 inst = BLTU
  · rw [if_pos c5] at h
    exact exec_BLTU_regs (cont_eq_ok h).2 j hj
  rw [if_neg c5] at h
  by_cases c6 : funct3 inst = BGEU
  · rw [if_pos c6] at h
    exact exec_BGEU_regs (cont_eq_ok h).2 j hj
  rw [if_neg c6] at h
  replace h := (cont_eq_ok h).2
  simp only [pure_ok, Except.ok.injEq] at h
  subst h
  rfl

theorem case_LOAD_regs {cpu c : CPU} {inst r : Nat}
    (h : case_LOAD cpu inst = .ok (r, c)) (j : Nat) (hj : j ≠ rd inst) :
    c.regs j = cpu.regs j := by
  unfold case_LOAD at h
  dsimp only at h
  by_cases c1 : funct3 inst = LB
  · rw [if_pos c1] at h
    exact exec_LB_regs (cont_eq_ok h).2 j hj
  rw [if_neg c1] at h
  by_cases c2 : funct3 inst = LH
  · rw [if_pos c2] at h
    exact exec_LH_regs (cont_eq_ok h).2 j hj
  rw [if_neg c2] at h
  by_cases c3 : funct3 inst = LW
  · rw [if_pos c3] at h
    exact exec_LW_regs (cont_eq_ok h).2 j hj
  rw [if_neg c3] at h
  by_cases c4 : funct3 inst = LD
  · rw [if_pos c4] at h
    exact exec_LD_regs (cont_eq_ok h).2 j hj
  rw [if_neg c4] at h
  by_cases c5 : funct3 inst = LBU
  · rw [if_pos c5] at h
    exact exec_LBU_regs (cont_eq_ok h).2 j hj
  rw [if_neg c5] at h
  by_cases c6 : funct3 inst = LHU
  · rw [if_pos c6] at h
    exact exec_LHU_regs (cont_eq_ok h).2 j hj
  rw [if_neg c6] at h
  by_cases c7 : funct3 inst = LWU
  · rw [if_pos c7] at h
    exact exec_LWU_regs (cont_eq_ok h).2 j hj
  rw [if_neg c7] at h
  replace h := (cont_eq_ok h).2
  simp only [pure_ok, Except.ok.injEq] at h
  subst h
  rfl

theorem case_S_TYPE_regs {cpu c : CPU} {inst r : Nat}
    (h : case_S_TYPE cpu inst = .ok (r, c)) (j : Nat) (hj : j ≠ rd inst) :
    c.regs j = cpu.regs j := by
  unfold case_S_TYPE at h
  dsimp only at h
  by_cases c1 : funct3 inst = SB
  · rw [if_pos c1] at h
    exact exec_SB_regs (cont_eq_ok h).2 j hj
  rw [if_neg c1] at h
  by_cases c2 : funct3 inst = SH
  · rw [if_pos c2] at h
    exact exec_SH_regs (cont_eq_ok h).2 j hj
  rw [if_neg c2] at h
  by_cases c3 : funct3 inst = SW
  · rw [if_pos c3] at h
    exact exec_SW_regs (cont_eq_ok h).2 j hj
  rw [if_neg c3] at h
  by_cases c4 : funct3 inst = SD
  · rw [if_pos c4] at h
    exact exec_SD_regs (cont_eq_ok h).2 j hj
  rw [if_neg c4] at h
  replace h := (cont_eq_ok h).2
  simp only [pure_ok, Except.ok.injEq] at h
  subst h
  rfl

theorem case_I_TYPE_regs {cpu c : CPU} {inst r : Nat}
    (h : case_I_TYPE cpu inst = .ok (r, c)) (j : Nat) (hj : j ≠ rd inst) :
    c.regs j = cpu.regs j := by
  unfold case_I_TYPE at h
  dsimp only at h
  by_cases c1 : funct3 inst = ADDI
  · rw [if_pos c1] at h
    exact exec_ADDI_regs (cont_eq_ok h).2 j hj
  rw [if_neg c1] at h
  by_cases c2 : funct3 inst = SLLI
  · rw [if_pos c2] at h
    exact exec_SLLI_regs (cont_eq_ok h).2 j hj
  rw [if_neg c2] at h
  by_cases c3 : funct3 inst = SLTI
  · rw [if_pos c3] at h
    exact exec_SLTI_regs (cont_eq_ok h).2 j hj
  rw [if_neg c3] at h
  by_cases c4 : funct3 inst = SLTIU
  · rw [if_pos c4] at h
    exact exec_SLTIU_regs (cont_eq_ok h).2 j hj
  rw [if_neg c4] at h
  by_cases c5 : funct3 inst = XORI
  · rw [if_pos c5] at h
    exact exec_XORI_regs (cont_eq_ok h).2 j hj
  rw [if_neg c5] at h
  by_cases c6 : funct3 inst = SRI
  · rw [if_pos c6] at h
    by_cases c7 : funct7 inst = SRLI
    · rw [if_pos c7] at h
      exact exec_SRLI_regs (cont_eq_ok h).2 j hj
    rw [if_neg c7] at h
    by_cases c8 : funct7 inst = SRAI
    · rw [if_pos c8] at h
      exact exec_SRAI_regs (cont_eq_ok h).2 j hj
    rw [if_neg c8] at h
    replace h := (cont_eq_ok h).2
    simp only [pure_ok, Except.ok.injEq] at h
    subst h
    rfl
  rw [if_neg c6] at h
  by_cases c9 : funct3 inst = ORI
  · rw [if_pos c9] at h
    exact exec_ORI_regs (cont_eq_ok h).2 j hj
  rw [if_neg c9] at h
  by_cases c10 : funct3 inst = ANDI
  · rw [if_pos c10] at h
    exact exec_ANDI_regs (cont_eq_ok h).2 j hj
  rw [if_neg c10] at h
  simp only [pure_ok, Except.ok.injEq, Prod.mk.injEq] at h
  obtain ⟨-, rfl⟩ := h
  rfl

theorem case_I_TYPE_64_regs {cpu c : CPU} {inst r : Nat}
    (h : case_I_TYPE_64 cpu inst = .ok (r, c)) (j : Nat) (hj : j ≠ rd inst) :
    c.regs j = cpu.regs j := by
  unfold case_I_TYPE_64 at h
  dsimp only at h
  by_cases c1 : funct3 inst = ADDIW
  · rw [if_pos c1] at h
    exact exec_ADDIW_regs (cont_eq_ok h).2 j hj
  rw [if_neg c1] at h
  by_cases c2 : funct3 inst = SLLIW
  · rw [if_pos c2] at h
    exact exec_SLLIW_regs (cont_eq_ok h).2 j hj
  rw [if_neg c2] at h
  by_cases c3 : funct3 inst = SRIW
  · rw [if_pos c3] at h
    by_cases c4 : funct7 inst = SRLIW
    · rw [if_pos c4] at h
      exact exec_SRLIW_regs (cont_eq_ok h).2 j hj
    rw [if_neg c4] at h
    by_cases c5 : funct7 inst = SRAIW
    · rw [if_pos c5] at h
      exact exec_SRLIW_regs (cont_eq_ok h).2 j hj
    rw [if_neg c5] at h
    replace h := (cont_eq_ok h).2
    simp only [pure_ok, Except.ok.injEq] at h
    subst h
    rfl
  rw [if_neg c3] at h
  replace h := (cont_eq_ok h).2
  simp only [pure_ok, Except.ok.injEq] at h
  subst h
  rfl

theorem case_R_TYPE_64_regs {cpu c : CPU} {inst r : Nat}
    (h : case_R_TYPE_64 cpu inst = .ok (r, c)) (j : Nat) (hj : j ≠ rd inst) :
    c.regs j = cpu.regs j := by
  unfold case_R_TYPE_64 at h
  dsimp only at h
  by_cases c1 : funct3 inst = ADDSUB
  · rw [if_pos c1] at h
    by_cases c2 : funct7 inst = ADDW
    · rw [if_pos c2] at h
      exact exec_ADDW_regs (cont_eq_ok h).2 j hj
    rw [if_neg c2] at h
    by_cases c3 : funct7 inst = SUBW
    · rw [if_pos c3] at h
      exact exec_SUBW_regs (cont_eq_ok h).2 j hj
    rw [if_neg c3] at h
    by_cases c4 : funct7 inst = MULW
    · rw [if_pos c4] at h
      exact exec_MULW_regs (cont_eq_ok h).2 j hj
    rw [if_neg c4] at h
    replace h := (cont_eq_ok h).2
    simp only [pure_ok, Except.ok.injEq] at h
    subst h
    rfl
  rw [if_neg c1] at h
  by_cases c5 : funct3 inst = DIVW
  · rw [if_pos c5] at h
    exact exec_DIVW_regs (cont_eq_ok h).2 j hj
  rw [if_neg c5] at h
  by_cases c6 : funct3 inst = SLLW
  · rw [if_pos c6] at h
    exact exec_SLLW_regs (cont_eq_ok h).2 j hj
  rw [if_neg c6] at h
  by_cases c7 : funct3 inst = SRW
  · rw [if_pos c7] at h
    by_cases c8 : funct7 inst = SRLW
    · rw [if_pos c8] at h
      exact exec_SRLW_regs (cont_eq_ok h).2 j hj
    rw [if_neg c8] at h
    by_cases c9 : funct7 inst = SRAW
    · rw [if_pos c9] at h
      exact exec_SRAW_regs (cont_eq_ok h).2 j hj
    rw [if_neg c9] at h
    by_cases c10 : funct7 inst = DIVUW
    · rw [if_pos c10] at h
      exact exec_DIVUW_regs (cont_eq_ok h).2 j hj
    rw [if_neg c10] at h
    replace h := (cont_eq_ok h).2
    simp only [pure_ok, Except.ok.injEq] at h
    subst h
    rfl
  rw [if_neg c7] at h
  by_cases c11 : funct3 inst = REMW
  · rw [if_pos c11] at h
    exact exec_REMW_regs (cont_eq_ok h).2 j hj
  rw [if_neg c11] at h
  by_cases c12 : funct3 inst = REMUW
  · rw [if_pos c12] at h
    exact exec_REMUW_regs (cont_eq_ok h).2 j hj
  rw [if_neg c12] at h
  replace h := (cont_eq_ok h).2
  simp only [pure_ok, Except.ok.injEq] at h
  subst h
  rfl

theorem case_CSR_regs {K : Opcodes} {cpu c : CPU} {inst r : Nat}
    (h : case_CSR K cpu inst = .ok (r, c)) (j : Nat) (hj : j ≠ rd inst) :
    c.regs j = cpu.regs j := by
  unfold case_CSR at h
  dsimp only at h
  by_cases c1 : funct3 inst = K.ECALLBREAK
  · rw [if_pos c1] at h
    exact exec_ECALLBREAK_regs (cont_eq_ok h).2 j hj
  rw [if_neg c1] at h
  by_cases c2 : funct3 inst = K.CSRRW
  · rw [if_pos c2] at h
    exact exec_CSRRW_regs (cont_eq_ok h).2 j hj
  rw [if_neg c2] at h
  by_cases c3 : funct3 inst = K.CSRRS
  · rw [if_pos c3] at h
    exact exec_CSRRS_regs (cont_eq_ok h).2 j hj
  rw [if_neg c3] at h
  by_cases c4 : funct3 inst = K.CSRRC
  · rw [if_pos c4] at h
    exact exec_CSRRC_regs (cont_eq_ok h).2 j hj
  rw [if_neg c4] at h
  by_cases c5 : funct3 inst = K.CSRRWI
  · rw [if_pos c5] at h
    exact exec_CSRRWI_regs (cont_eq_ok h).2 j hj
  rw [if_neg c5] at h
  by_cases c6 : funct3 inst = K.CSRRSI
  · rw [if_pos c6] at h
    exact exec_CSRRSI_regs (cont_eq_ok h).2 j hj
  rw [if_neg c6] at h
  by_cases c7 : funct3 inst = K.CSRRCI
  · rw [if_pos c7] at h
    exact exec_CSRRCI_regs (cont_eq_ok h).2 j hj
  rw [if_neg c7] at h
  simp only [pure_ok, Except.ok.injEq, Prod.mk.injEq] at h
  obtain ⟨-, rfl⟩ := h
  rfl

theorem case_AMO_W_regs {K : Opcodes} {cpu c : CPU} {inst r : Nat}
    (h : case_AMO_W K cpu inst = .ok (r, c)) (j : Nat) (hj : j ≠ rd inst) :
    c.regs j = cpu.regs j := by
  unfold case_AMO_W at h
  dsimp only at h
  by_cases c1 : funct7 inst >>> 2 = K.LR_W
  · rw [if_pos c1] at h
    exact exec_LR_W_regs (cont_eq_ok h).2 j hj
  rw [if_neg c1] at h
  by_cases c2 : funct7 inst >>> 2 = K.SC_W
  · rw [if_pos c2] at h
    exact exec_SC_W_regs (cont_eq_ok h).2 j hj
  rw [if_neg c2] at h
  by_cases c3 : funct7 inst >>> 2 = K.AMOSWAP_W
  · rw [if_pos c3] at h
    exact exec_AMOSWAP_W_regs (cont_eq_ok h).2 j hj
  rw [if_neg c3] at h
  by_cases c4 : funct7 inst >>> 2 = K.AMOADD_W
  · rw [if_pos c4] at h
    exact exec_AMOADD_W_regs (cont_eq_ok h).2 j hj
  rw [if_neg c4] at h
  by_cases c5 : funct7 inst >>> 2 = K.AMOXOR_W
  · rw [if_pos c5] at h
    exact exec_AMOXOR_W_regs (cont_eq_ok h).2 j hj
  rw [if_neg c5] at h
  by_cases c6 : funct7 inst >>> 2 = K.AMOAND_W
  · rw [if_pos c6] at h
    exact exec_AMOAND_W_regs (cont_eq_ok h).2 j hj
  rw [if_neg c6] at h
  by_cases c7 : funct7 inst >>> 2 = K.AMOOR_W
  · rw [if_pos c7] at h
    exact exec_AMOOR_W_regs (cont_eq_ok h).2 j hj
  rw [if_neg c7] at h
  by_cases c8 : funct7 inst >>> 2 = K.AMOMIN_W
  · rw [if_pos c8] at h
    exact exec_AMOMIN_W_regs (cont_eq_ok h).2 j hj
  rw [if_neg c8] at h
  by_cases c9 : funct7 inst >>> 2 = K.AMOMAX_W
  · rw [if_pos c9] at h
    exact exec_AMOMAX_W_regs (cont_eq_ok h).2 j hj
  rw [if_neg c9] at h
  by_cases c10 : funct7 inst >>> 2 = K.AMOMINU_W
  · rw [if_pos c10] at h
    exact exec_AMOMINU_W_regs (cont_eq_ok h).2 j hj
  rw [if_neg c10] at h
  by_cases c11 : funct7 inst >>> 2 = K.AMOMAXU_W
  · rw [if_pos c11] at h
    exact exec_AMOMAXU_W_regs (cont_eq_ok h).2 j hj
  rw [if_neg c11] at h
  simp only [pure_ok, Except.ok.injEq, Prod.mk.injEq] at h
  obtain ⟨-, rfl⟩ := h
  rfl

theorem case_R_TYPE_regs {K : Opcodes} {cpu c : CPU} {inst r : Nat}
    (h : case_R_TYPE K cpu inst = .ok (r, c)) (j : Nat) (hj : j ≠ rd inst) :
    c.regs j = cpu.regs j := by
  unfold case_R_TYPE at h
  dsimp only at h
  by_cases c1 : funct3 inst = ADDSUB
  · rw [if_pos c1] at h
    by_cases c2 : funct7 inst = ADD
    · rw [if_pos c2] at h
      replace h := (cont_eq_ok h).2
      simp only [bind_eq_ok] at h
      obtain ⟨a, h1, h2⟩ := h
      rw [exec_ADD_regs h2 j hj, exec_ADD_regs h1 j hj]
    rw [if_neg c2] at h
    by_cases c3 : funct7 inst = K.SUB
    · rw [if_pos c3] at h
      exact exec_ADD_regs (cont_eq_ok h).2 j hj
    rw [if_neg c3] at h
    replace h := (cont_eq_ok h).2
    simp only [pure_ok, Except.ok.injEq] at h
    subst h
    rfl
  rw [if_neg c1] at h
  by_cases c4 : funct3 inst = K.SLL
  · rw [if_pos c4] at h
    exact exec_SLL_regs (cont_eq_ok h).2 j hj
  rw [if_neg c4] at h
  by_cases c5 : funct3 inst = K.SLT
  · rw [if_pos c5] at h
    exact exec_SLT_regs (cont_eq_ok h).2 j hj
  rw [if_neg c5] at h
  by_cases c6 : funct3 inst = K.SLTU
  · rw [if_pos c6] at h
    exact exec_SLTU_regs (cont_eq_ok h).2 j hj
  rw [if_neg c6] at h
  by_cases c7 : funct3 inst = K.XOR
  · rw [if_pos c7] at h
    exact exec_XOR_regs (cont_eq_ok h).2 j hj
  rw [if_neg c7] at h
  by_cases c8 : funct3 inst = K.SR
  · rw [if_pos c8] at h
    by_cases d1 : funct7 inst = K.SRL
    · rw [if_pos d1] at h
      replace h := (cont_eq_ok h).2
      simp only [bind_eq_ok] at h
      obtain ⟨a, h1, h2⟩ := h
      rw [exec_OR_regs h2 j hj, exec_SRL_regs h1 j hj]
    rw [if_neg d1] at h
    by_cases d2 : funct7 inst = K.SRA
    · rw [if_pos d2] at h
      replace h := (cont_eq_ok h).2
      simp only [bind_eq_ok] at h
      obtain ⟨a, h1, h2⟩ := h
      rw [exec_OR_regs h2 j hj, exec_SRA_regs h1 j hj]
    rw [if_neg d2] at h
    replace h := (cont_eq_ok h).2
    simp only [bind_eq_ok, pure_ok, Except.ok.injEq] at h
    obtain ⟨a, rfl, h2⟩ := h
    exact exec_OR_regs h2 j hj
  rw [if_neg c8] at h
  by_cases c9 : funct3 inst = K.OR
  · rw [if_pos c9] at h
    exact exec_OR_regs (cont_eq_ok h).2 j hj
  rw [if_neg c9] at h
  by_cases c10 : funct3 inst = K.AND
  · rw [if_pos c10] at h
    exact exec_AND_regs (cont_eq_ok h).2 j hj
  rw [if_neg c10] at h
  simp only [pure_ok, Except.ok.injEq, Prod.mk.injEq] at h
  obtain ⟨-, rfl⟩ := h
  rfl

/-- After `cpu_execute`, every register other than `rd(inst)` holds what it held after the
assignment `cpu->regs[0] = 0` at the top of the function. -/
theorem cpu_execute_regs {K : Opcodes} {cpu c : CPU} {inst r : Nat}
    (h : cpu_execute K cpu inst = .ok (r, c)) (j : Nat) (hj : j ≠ rd inst) :
    c.regs j = (cpu.setReg 0 0).regs j := by
  unfold cpu_execute at h
  dsimp only at h
  by_cases c1 : opcode inst = LUI
  · rw [if_pos c1] at h
    exact exec_LUI_regs (cont_eq_ok h).2 j hj
  rw [if_neg c1] at h
  by_cases c2 : opcode inst = AUIPC
  · rw [if_pos c2] at h
    exact exec_AUIPC_regs (cont_eq_ok h).2 j hj
  rw [if_neg c2] at h
  by_cases c3 : opcode inst = JAL
  · rw [if_pos c3] at h
    exact exec_JAL_regs (cont_eq_ok h).2 j hj
  rw [if_neg c3] at h
  by_cases c4 : opcode inst = JALR
  · rw [if_pos c4] at h
    exact exec_JALR_regs (cont_eq_ok h).2 j hj
  rw [if_neg c4] at h
  by_cases c5 : opcode inst = B_TYPE
  · rw [if_pos c5] at h
    exact case_B_TYPE_regs h j hj
  rw [if_neg c5] at h
  by_cases c6 : opcode inst = LOAD
  · rw [if_pos c6] at h
    exact case_LOAD_regs h j hj
  rw [if_neg c6] at h
  by_cases c7 : opcode inst = S_TYPE
  · rw [if_pos c7] at h
    exact case_S_TYPE_regs h j hj
  rw [if_neg c7] at h
  by_cases c8 : opcode inst = I_TYPE
  · rw [if_pos c8] at h
    exact case_I_TYPE_regs h j hj
  rw [if_neg c8] at h
  by_cases c9 : opcode inst = R_TYPE
  · rw [if_pos c9] at h
    exact case_R_TYPE_regs h j hj
  rw [if_neg c9] at h
  by_cases c10 : opcode inst = K.FENCE
  · rw [if_pos c10] at h
    exact exec_FENCE_regs (cont_eq_ok h).2 j hj
  rw [if_neg c10] at h
  by_cases c11 : opcode inst = I_TYPE_64
  · rw [if_pos c11] at h
    exact case_I_TYPE_64_regs h j hj
  rw [if_neg c11] at h
  by_cases c12 : opcode inst = R_TYPE_64
  · rw [if_pos c12] at h
    exact case_R_TYPE_64_regs h j hj
  rw [if_neg c12] at h
  by_cases c13 : opcode inst = K.CSR
  · rw [if_pos c13] at h
    exact case_CSR_regs h j hj
  rw [if_neg c13] at h
  by_cases c14 : opcode inst = K.AMO_W
  · rw [if_pos c14] at h
    exact case_AMO_W_regs h j hj
  rw [if_neg c14] at h
  by_cases c15 : opcode inst = 0x00
  · rw [if_pos c15] at h
    simp only [pure_ok, Except.ok.injEq, Prod.mk.injEq] at h
    obtain ⟨-, rfl⟩ := h
    rfl
  rw [if_neg c15] at h
  simp only [pure_ok, Except.ok.injEq, Prod.mk.injEq] at h
  obtain ⟨-, rfl⟩ := h
  rfl

/-! ## The stepper: register 0 and the program counter -/

/-- C6, counterexample: the step that executes `addi x0, x0, 5` (0x00500013) from the state
after `cpu_init` completes with the continue result 1 and leaves 5, not zero, in register 0. -/
theorem step_addi_x0_leaves_five :
    addiX0Prog.regs 0 = 0 ∧ observe rv64 addiX0Prog 0 = some (1, 5, 0x80000004) := by
  decide

/-- C6, amended: `cpu_execute` sets register 0 to zero before it dispatches, and after every
step that completes register 0 holds zero whenever the `rd` field (bits 11..7) of the executed
instruction word is not 0. -/
theorem step_x0_zero_of_rd_ne_zero (K : Opcodes) (cpu c : CPU) (inst r : Nat)
    (hf : cpu_fetch cpu = .ok inst) (hrd : rd inst ≠ 0) (hs : step K cpu = .ok (r, c)) :
    c.regs 0 = 0 := by
  unfold step at hs
  rw [hf, bind_ok] at hs
  rw [cpu_execute_regs hs 0 (Ne.symm hrd)]
  exact setReg_regs_self _ 0 0

theorem step_x0_zero_of_rd_ne_zero_witness :
    cpu_fetch addiProg = .ok 0x00500093 ∧ rd 0x00500093 ≠ 0
      ∧ step rv64 addiProg = .ok (1, stepTo rv64 addiProg)
      ∧ (stepTo rv64 addiProg).regs 0 = 0 :=
  ⟨rfl, by decide, rfl,
    step_x0_zero_of_rd_ne_zero rv64 addiProg (stepTo rv64 addiProg) 0x00500093 1 rfl (by decide)
      rfl⟩

/-- C7, the code at the failing input: from the state after `cpu_init`, whose pc 0x80000000 is
a multiple of 4, the step that executes `beq x0, x0, +2` (0x00000163) completes with the
continue result 1, without any misalignment failure, and leaves pc = 0x80000002, which is not a
multiple of 4. -/
theorem step_beq_plus_two_misaligns :
    beqProg.pc % 4 = 0 ∧ imm_B 0x00000163 = 2
      ∧ observe rv64 beqProg 0 = some (1, 0, 0x80000002) ∧ 0x80000002 % 4 = 2 := by
  decide

theorem imm_U_odd (inst : Nat) (h : opcode inst = 0x17) : imm_U inst % 2 = 1 := by
  unfold opcode at h
  rw [m_7f] at h
  have h1 : (inst &&& 0xfffff999) % 2 = 1 := Nat.and_mod_two_eq_one.mpr ⟨by omega, by decide⟩
  unfold imm_U ofInt i32
  generalize inst &&& 0xfffff999 = X at h1
  split_ifs <;> omega

/-- C9, the code at the failing input: `auipc x6, 0` (0x00000317) at pc = 0x80000000 leaves
x6 = 0x80000111, not 0x80000000: `imm_U` masks with 0xfffff999, so bits 0, 3, 4, 7, 8, 11 of
the instruction word reach the immediate, whereas `exec_LUI` masks with 0xfffff000.  For every
word with opcode 0x17 the immediate `imm_U` yields is odd, so its bits 11..0 are never zero. -/
theorem step_auipc_keeps_low_bits :
    auipcProg.pc = 0x80000000 ∧ imm_U 0x00000317 = 0x111
      ∧ observe rv64 auipcProg 6 = some (1, 0x80000111, 0x80000004)
      ∧ ∀ inst, opcode inst = 0x17 → imm_U inst % 2 = 1 :=
  ⟨by decide, by decide, by decide, imm_U_odd⟩

/-! ## ADDI, AUIPC, JAL -/

theorem cpu_fetch_lt {cpu : CPU} {inst : Nat} (h : cpu_fetch cpu = .ok inst) : inst < 2 ^ 32 := by
  unfold cpu_fetch at h
  simp only [bind_eq_ok, pure_ok, Except.ok.injEq] at h
  obtain ⟨v, -, rfl⟩ := h
  exact Nat.mod_lt _ (by decide)

theorem cpu_fetch_range {cpu : CPU} {inst : Nat} (h : cpu_fetch cpu = .ok inst)
    (hpc : cpu.pc < 2 ^ 64) : DRAM_BASE ≤ cpu.pc ∧ cpu.pc + 4 ≤ DRAM_BASE + DRAM_SIZE := by
  unfold cpu_fetch bus_load at h
  simp only [bind_eq_ok, pure_ok, Except.ok.injEq] at h
  obtain ⟨v, hv, -⟩ := h
  have e : dram_load cpu.bus.dram cpu.pc 32 = dram_load_32 cpu.bus.dram cpu.pc := rfl
  rw [e] at hv
  unfold dram_load_32 at hv
  simp only [bind_eq_ok, pure_ok, Except.ok.injEq] at hv
  obtain ⟨b0, h0, hv⟩ := hv
  obtain ⟨b1, -, hv⟩ := hv
  obtain ⟨b2, -, hv⟩ := hv
  obtain ⟨b3, h3, -⟩ := hv
  unfold DRAM.read at h0 h3
  split_ifs at h0 h3 with i0 i3
  unfold dram_index at i0 i3
  unfold DRAM_BASE DRAM_SIZE at *
  omega

theorem cpu_execute_ADDI (K : Opcodes) (cpu : CPU) (inst : Nat) (hop : opcode inst = 0x13)
    (hf3 : funct3 inst = 0) :
    cpu_execute K cpu inst = cont (exec_ADDI (cpu.setReg 0 0) inst) := by
  unfold cpu_execute case_I_TYPE
  simp [hop, hf3, LUI, AUIPC, JAL, JALR, B_TYPE, LOAD, S_TYPE, I_TYPE, ADDI]

theorem cpu_execute_JAL (K : Opcodes) (cpu : CPU) (inst : Nat) (hop : opcode inst = 0x6f) :
    cpu_execute K cpu inst = cont (exec_JAL (cpu.setReg 0 0) inst) := by
  unfold cpu_execute
  simp [hop, LUI, AUIPC, JAL]

theorem imm_J_eq (inst : Nat) :
    imm_J inst = immJField inst + inst / 2 ^ 31 % 2 * (2 ^ 64 - 2 ^ 21) := by
  have hs : ofInt (sar (i32 (inst &&& 0x80000000)) 11) = inst / 2 ^ 31 % 2 * (2 ^ 64 - 2 ^ 20) := by
    unfold ofInt sar i32
    rw [m_80000000]
    split_ifs <;> omega
  unfold imm_J immJField
  rw [hs, m_ff000, m_800, m_7fe]
  simp only [Nat.shiftRight_eq_div_pow]
  have d1 : inst / 2 ^ 9 / 2 ^ 11 = inst / 2 ^ 20 := by
    rw [Nat.div_div_eq_div_mul]; norm_num
  have d2 : inst / 2 ^ 20 / 2 ^ 1 = inst / 2 ^ 21 := by
    rw [Nat.div_div_eq_div_mul]; norm_num
  rw [d1, d2]
  have e1 := or_of_dvd (inst / 2 ^ 31 % 2 * (2 ^ 64 - 2 ^ 20)) (inst / 2 ^ 12 % 2 ^ 8 * 2 ^ 12) 20
    (by omega) (by omega)
  rw [e1]
  have e2 := or_of_dvd (inst / 2 ^ 31 % 2 * (2 ^ 64 - 2 ^ 20) + inst / 2 ^ 12 % 2 ^ 8 * 2 ^ 12)
    (inst / 2 ^ 20 % 2 ^ 1 * 2 ^ 11) 12 (by omega) (by omega)
  rw [e2]
  have e3 := or_of_dvd (inst / 2 ^ 31 % 2 * (2 ^ 64 - 2 ^ 20) + inst / 2 ^ 12 % 2 ^ 8 * 2 ^ 12
    + inst / 2 ^ 20 % 2 ^ 1 * 2 ^ 11) (inst / 2 ^ 21 % 2 ^ 10 * 2 ^ 1) 11
    (by omega) (by omega)
  rw [e3]
  omega

theorem ofInt_i64 (x : Nat) : ofInt (i64 x) = x % 2 ^ 64 := by
  unfold ofInt i64
  split_ifs <;> omega

theorem ofInt_lt (i : Int) : ofInt i < 2 ^ 64 := by
  unfold ofInt
  omega

theorem ofInt_add_nat (a : Nat) (s : Int) : ofInt ((a : Int) + s) = u64 (a + ofInt s) := by
  unfold ofInt u64
  omega

theorem ofInt_sext12 (inst : Nat) (h : inst < 2 ^ 32) :
    ofInt (sextSpec 12 (inst / 2 ^ 20)) = imm_I inst := by
  rw [imm_I_eq inst h]
  unfold ofInt sextSpec
  split_ifs <;> omega

theorem imm_I_lt (inst : Nat) (h : inst < 2 ^ 32) : imm_I inst < 2 ^ 64 := by
  rw [imm_I_eq inst h]
  split_ifs <;> omega

/-- C8: for every ADDI instruction (opcode 0x13, funct3 0) with `rd != 0`, one step (fetch,
`pc += 4`, `cpu_execute`) completes with the continue result, sets `regs[rd]` to
`regs[rs1] + sext(inst[31:20])` modulo `2^64`, where `regs[rs1]` is read as 0 when `rs1 = 0`,
and leaves pc at the address of the instruction plus 4. -/
theorem step_ADDI (K : Opcodes) (cpu : CPU) (inst : Nat) (hpc : cpu.pc < 2 ^ 64)
    (hf : cpu_fetch cpu = .ok inst) (hop : opcode inst = 0x13) (hf3 : funct3 inst = 0) :
    ∃ c, step K cpu = .ok (1, c)
      ∧ c.regs (rd inst)
          = ofInt (((if rs1 inst = 0 then 0 else cpu.regs (rs1 inst) : Nat) : Int)
              + sextSpec 12 (inst / 2 ^ 20))
      ∧ c.pc = cpu.pc + 4 := by
  have hlt := cpu_fetch_lt hf
  have hr := cpu_fetch_range hf hpc
  refine ⟨CPU.setReg (CPU.setReg { cpu with pc := u64 (cpu.pc + 4) } 0 0) (rd inst)
    (u64 ((CPU.setReg { cpu with pc := u64 (cpu.pc + 4) } 0 0).regs (rs1 inst)
      + ofInt (i64 (imm_I inst)))), ?_, ?_, ?_⟩
  · unfold step
    rw [hf, bind_ok, cpu_execute_ADDI K _ inst hop hf3]
    rfl
  · rw [setReg_regs_self]
    have hR : (CPU.setReg { cpu with pc := u64 (cpu.pc + 4) } 0 0).regs (rs1 inst)
        = if rs1 inst = 0 then 0 else cpu.regs (rs1 inst) := rfl
    rw [hR]
    rw [ofInt_add_nat, ofInt_sext12 inst hlt, ofInt_i64, Nat.mod_eq_of_lt (imm_I_lt inst hlt)]
  · show u64 (cpu.pc + 4) = cpu.pc + 4
    unfold u64
    unfold DRAM_BASE DRAM_SIZE at hr
    omega

theorem step_ADDI_witness :
    addiProg = loadImage (cpu_init zeroCPU) (wordBytes 0x00500093 ++ wordBytes 0xFFD08113)
      ∧ (∃ c, step rv64 addiProg = .ok (1, c) ∧ c.regs 1 = 5 ∧ c.pc = 0x80000004)
      ∧ (∃ c, step rv64 (stepTo rv64 addiProg) = .ok (1, c) ∧ c.regs 2 = 2
          ∧ c.pc = 0x80000008)
      ∧ (stepTo rv64 (stepTo rv64 addiProg)).regs 1 = 5
      ∧ (stepTo rv64 (stepTo rv64 addiProg)).regs 2 = 2 :=
  ⟨rfl,
    step_ADDI rv64 addiProg 0x00500093 (by decide) rfl (by decide) (by decide),
    step_ADDI rv64 (stepTo rv64 addiProg) 0xFFD08113 (by decide) rfl (by decide) (by decide),
    by decide, by decide⟩

theorem immJField_facts (w : Nat) :
    immJField w < 2 ^ 21 ∧ immJField w % 2 = 0
      ∧ (w / 2 ^ 31 % 2 = 0 → immJField w < 2 ^ 20)
      ∧ (w / 2 ^ 31 % 2 = 1 → 2 ^ 20 ≤ immJField w) := by
  unfold immJField
  refine ⟨?_, ?_, ?_, ?_⟩ <;> omega

theorem imm_J_cases (w : Nat) :
    (imm_J w = immJField w ∧ immJField w < 2 ^ 20)
      ∨ (imm_J w = immJField w + (2 ^ 64 - 2 ^ 21) ∧ 2 ^ 20 ≤ immJField w
          ∧ immJField w < 2 ^ 21) := by
  have h1 := imm_J_eq w
  obtain ⟨f1, -, f3, f4⟩ := immJField_facts w
  have hb : w / 2 ^ 31 % 2 = 0 ∨ w / 2 ^ 31 % 2 = 1 := by omega
  rcases hb with hb | hb
  · left
    rw [hb] at h1
    exact ⟨by omega, f3 hb⟩
  · right
    rw [hb] at h1
    exact ⟨by omega, f4 hb, f1⟩

theorem i64_imm_J (w : Nat) : i64 (imm_J w) = sextSpec 21 (immJField w) := by
  rcases imm_J_cases w with ⟨h, hlt⟩ | ⟨h, hge, hlt⟩
  · rw [h]
    generalize immJField w = F at *
    unfold i64 sextSpec
    rw [if_pos (by omega), if_pos (by omega)]
    omega
  · rw [h]
    generalize immJField w = F at *
    unfold i64 sextSpec
    rw [if_neg (by omega), if_neg (by omega)]
    omega

theorem imm_J_facts (w : Nat) :
    i64 (imm_J w) = sextSpec 21 (immJField w) ∧ imm_J w < 2 ^ 64 ∧ imm_J w % 2 = 0
      ∧ -(2 : Int) ^ 20 ≤ i64 (imm_J w) ∧ i64 (imm_J w) < 2 ^ 20 := by
  have hev := (immJField_facts w).2.1
  refine ⟨i64_imm_J w, ?_, ?_, ?_, ?_⟩
  · rcases imm_J_cases w with ⟨h, hlt⟩ | ⟨h, hge, hlt⟩ <;> omega
  · rcases imm_J_cases w with ⟨h, hlt⟩ | ⟨h, hge, hlt⟩ <;> omega
  · rw [i64_imm_J]
    obtain ⟨f1, -, -, -⟩ := immJField_facts w
    generalize immJField w = F at *
    unfold sextSpec
    split_ifs <;> omega
  · rw [i64_imm_J]
    obtain ⟨f1, -, -, -⟩ := immJField_facts w
    generalize immJField w = F at *
    unfold sextSpec
    split_ifs <;> omega

theorem jump_target (pc A : Nat) (S : Int) (hA : pc = A + 4) :
    usub (u64 (pc + ofInt S)) 4 = ofInt ((A : Int) + 4 + S - 4) := by
  subst hA
  unfold usub u64 ofInt
  omega

/-- C10: for every JAL instruction (opcode 0x6f) at address `A` whose target is 4-byte
aligned, execution with pc already advanced to `A + 4` completes, sets `regs[rd]` to `A + 4` and
pc to `A + 4 + imm_J - 4` modulo `2^64`; and for every 32-bit word `w`, `imm_J(w)` is the 21-bit
value `{w[31], w[19:12], w[20], w[30:21], 0}` sign-extended to 64 bits, hence even and, read as
signed, in `[-2^20, 2^20)`. -/
theorem cpu_execute_JAL_spec (K : Opcodes) (cpu : CPU) (inst A : Nat)
    (hop : opcode inst = 0x6f) (hA : cpu.pc = A + 4)
    (hal : ofInt ((A : Int) + 4 + sextSpec 21 (immJField inst) - 4) % 4 = 0) :
    (∃ c, cpu_execute K cpu inst = .ok (1, c)
        ∧ c.regs (rd inst) = A + 4
        ∧ c.pc = ofInt ((A : Int) + 4 + sextSpec 21 (immJField inst) - 4))
      ∧ ∀ w, w < 2 ^ 32 →
          i64 (imm_J w) = sextSpec 21 (immJField w) ∧ imm_J w < 2 ^ 64 ∧ imm_J w % 2 = 0
            ∧ -(2 : Int) ^ 20 ≤ i64 (imm_J w) ∧ i64 (imm_J w) < 2 ^ 20 := by
  refine ⟨?_, fun w _ => imm_J_facts w⟩
  have hpcv : usub (u64 (cpu.pc + ofInt (i64 (imm_J inst)))) 4
      = ofInt ((A : Int) + 4 + sextSpec 21 (immJField inst) - 4) := by
    rw [← i64_imm_J]
    exact jump_target cpu.pc A _ hA
  have hna : ¬ ADDR_MISALIGNED (usub (u64 (cpu.pc + ofInt (i64 (imm_J inst)))) 4) ≠ 0 := by
    rw [hpcv]
    unfold ADDR_MISALIGNED
    rw [m_3]
    generalize ofInt ((A : Int) + 4 + sextSpec 21 (immJField inst) - 4) = T at hal
    omega
  refine ⟨{ (CPU.setReg (cpu.setReg 0 0) (rd inst) cpu.pc) with
    pc := usub (u64 (cpu.pc + ofInt (i64 (imm_J inst)))) 4 }, ?_, ?_, ?_⟩
  · rw [cpu_execute_JAL K cpu inst hop]
    unfold exec_JAL
    simp only [setReg_pc]
    rw [if_neg hna]
    rfl
  · dsimp only
    rw [setReg_regs_self, hA]
  · dsimp only
    exact hpcv

theorem cpu_execute_JAL_spec_witness :
    opcode 0x008000ef = 0x6f ∧ jalState.pc = 0x80000000 + 4
      ∧ ofInt ((0x80000000 : Int) + 4 + sextSpec 21 (immJField 0x008000ef) - 4) % 4 = 0
      ∧ (∃ c, cpu_execute rv64 jalState 0x008000ef = .ok (1, c)
          ∧ c.regs 1 = 0x80000004 ∧ c.pc = 0x80000008)
      ∧ ∀ w, w < 2 ^ 32 →
          i64 (imm_J w) = sextSpec 21 (immJField w) ∧ imm_J w < 2 ^ 64 ∧ imm_J w % 2 = 0
            ∧ -(2 : Int) ^ 20 ≤ i64 (imm_J w) ∧ i64 (imm_J w) < 2 ^ 20 :=
  ⟨by decide, rfl, by decide,
    cpu_execute_JAL_spec rv64 jalState 0x008000ef 0x80000000 (by decide) rfl (by decide)⟩

/-! ## JALR and the misalignment check -/

theorem exec_JAL_eq (cpu : CPU) (inst : Nat) :
    exec_JAL cpu inst
      = if ADDR_MISALIGNED (jalNewPc cpu inst) ≠ 0 then .error .addrMisaligned
        else .ok { (cpu.setReg (rd inst) cpu.pc) with pc := jalNewPc cpu inst } := rfl

theorem exec_JALR_eq (cpu : CPU) (inst : Nat) :
    exec_JALR cpu inst
      = if ADDR_MISALIGNED (jalrNewPc cpu inst) ≠ 0 then .error .addrMisaligned
        else .ok (CPU.setReg { cpu with pc := jalrNewPc cpu inst } (rd inst) cpu.pc) := rfl

theorem misaligned_iff (x : Nat) : ADDR_MISALIGNED x ≠ 0 ↔ x % 4 ≠ 0 := by
  unfold ADDR_MISALIGNED
  rw [m_3]
  exact Iff.rfl

/-- C11, the code at the failing input: `jalr x1, 0(x5)` (0x000280E7) with x5 = 0x180000000 and
pc = 0x80000004 on entry completes with x1 = 0x80000004 and pc = 0x80000000, not 0x180000000:
the mask 0xfffffffe is a 32-bit constant, so bits 63..32 of the target are cleared together
with bit 0.  For every state and word the pc that `exec_JALR` leaves is below `2^32`. -/
theorem exec_JALR_clears_high_bits :
    observeExec rv64 jalrHighState 0x000280E7 1 = some (1, 0x80000004, 0x80000000)
      ∧ jalrHighState.regs (rs1 0x000280E7) + imm_I 0x000280E7 = 0x180000000
      ∧ ∀ (cpu c : CPU) (inst : Nat), exec_JALR cpu inst = .ok c → c.pc < 2 ^ 32 := by
  refine ⟨by decide, by decide, ?_⟩
  intro cpu c inst h
  rw [exec_JALR_eq] at h
  split_ifs at h
  simp only [Except.ok.injEq] at h
  subst h
  rw [setReg_pc]
  exact Nat.and_lt_two_pow _ (by decide)

/-- C12: `exec_JAL` and `exec_JALR` end in the fatal address-misalignment outcome if and only
if the new pc they compute has its lowest two bits not both zero; when both bits are zero they
complete normally, leaving that pc. -/
theorem jump_misaligned_iff (cpu : CPU) (inst : Nat) :
    (exec_JAL cpu inst = .error .addrMisaligned ↔ jalNewPc cpu inst % 4 ≠ 0)
      ∧ (jalNewPc cpu inst % 4 = 0 →
          ∃ c, exec_JAL cpu inst = .ok c ∧ c.pc = jalNewPc cpu inst)
      ∧ (exec_JALR cpu inst = .error .addrMisaligned ↔ jalrNewPc cpu inst % 4 ≠ 0)
      ∧ (jalrNewPc cpu inst % 4 = 0 →
          ∃ c, exec_JALR cpu inst = .ok c ∧ c.pc = jalrNewPc cpu inst) := by
  refine ⟨?_, ?_, ?_, ?_⟩
  · rw [exec_JAL_eq, ← misaligned_iff]
    by_cases h : ADDR_MISALIGNED (jalNewPc cpu inst) ≠ 0
    · rw [if_pos h]; exact ⟨(fun _ => h), (fun _ => rfl)⟩
    · rw [if_neg h]; exact ⟨(fun e => by cases e), (fun e => absurd e h)⟩
  · intro h0
    have h : ¬ ADDR_MISALIGNED (jalNewPc cpu inst) ≠ 0 := by
      rw [misaligned_iff]; exact fun e => e h0
    rw [exec_JAL_eq, if_neg h]
    exact ⟨_, rfl, rfl⟩
  · rw [exec_JALR_eq, ← misaligned_iff]
    by_cases h : ADDR_MISALIGNED (jalrNewPc cpu inst) ≠ 0
    · rw [if_pos h]; exact ⟨(fun _ => h), (fun _ => rfl)⟩
    · rw [if_neg h]; exact ⟨(fun e => by cases e), (fun e => absurd e h)⟩
  · intro h0
    have h : ¬ ADDR_MISALIGNED (jalrNewPc cpu inst) ≠ 0 := by
      rw [misaligned_iff]; exact fun e => e h0
    rw [exec_JALR_eq, if_neg h]
    exact ⟨_, rfl, setReg_pc _ _ _⟩

/-! ## Conditional branches -/

theorem imm_B_eq (inst : Nat) :
    imm_B inst = immBField inst + inst / 2 ^ 31 % 2 * (2 ^ 64 - 2 ^ 13) := by
  have hs : ofInt (sar (i32 (inst &&& 0x80000000)) 19) = inst / 2 ^ 31 % 2 * (2 ^ 64 - 2 ^ 12) := by
    unfold ofInt sar i32
    rw [m_80000000]
    split_ifs <;> omega
  have hu : u32 ((inst &&& 0x80) <<< 4) = inst / 2 ^ 7 % 2 * 2 ^ 11 := by
    unfold u32
    rw [m_80, Nat.shiftLeft_eq]
    omega
  unfold imm_B immBField
  rw [hs, hu, m_7e0, m_1e]
  simp only [Nat.shiftRight_eq_div_pow]
  have d1 : inst / 2 ^ 20 / 2 ^ 5 = inst / 2 ^ 25 := by
    rw [Nat.div_div_eq_div_mul]; norm_num
  have d2 : inst / 2 ^ 7 / 2 ^ 1 = inst / 2 ^ 8 := by
    rw [Nat.div_div_eq_div_mul]; norm_num
  rw [d1, d2]
  have e1 := or_of_dvd (inst / 2 ^ 31 % 2 * (2 ^ 64 - 2 ^ 12)) (inst / 2 ^ 7 % 2 * 2 ^ 11) 12
    (by omega) (by omega)
  rw [e1]
  have e2 := or_of_dvd (inst / 2 ^ 31 % 2 * (2 ^ 64 - 2 ^ 12) + inst / 2 ^ 7 % 2 * 2 ^ 11)
    (inst / 2 ^ 25 % 2 ^ 6 * 2 ^ 5) 11 (by omega) (by omega)
  rw [e2]
  have e3 := or_of_dvd (inst / 2 ^ 31 % 2 * (2 ^ 64 - 2 ^ 12) + inst / 2 ^ 7 % 2 * 2 ^ 11
    + inst / 2 ^ 25 % 2 ^ 6 * 2 ^ 5) (inst / 2 ^ 8 % 2 ^ 4 * 2 ^ 1) 5 (by omega) (by omega)
  rw [e3]
  omega

theorem immBField_facts (w : Nat) :
    immBField w < 2 ^ 13
      ∧ (w / 2 ^ 31 % 2 = 0 → immBField w < 2 ^ 12)
      ∧ (w / 2 ^ 31 % 2 = 1 → 2 ^ 12 ≤ immBField w) := by
  unfold immBField
  refine ⟨?_, ?_, ?_⟩ <;> omega

theorem imm_B_cases (w : Nat) :
    (imm_B w = immBField w ∧ immBField w < 2 ^ 12)
      ∨ (imm_B w = immBField w + (2 ^ 64 - 2 ^ 13) ∧ 2 ^ 12 ≤ immBField w
          ∧ immBField w < 2 ^ 13) := by
  have h1 := imm_B_eq w
  obtain ⟨f1, f3, f4⟩ := immBField_facts w
  have hb : w / 2 ^ 31 % 2 = 0 ∨ w / 2 ^ 31 % 2 = 1 := by omega
  rcases hb with hb | hb
  · left
    rw [hb] at h1
    exact ⟨by omega, f3 hb⟩
  · right
    rw [hb] at h1
    exact ⟨by omega, f4 hb, f1⟩

theorem i64_imm_B (w : Nat) : i64 (imm_B w) = sextSpec 13 (immBField w) := by
  rcases imm_B_cases w with ⟨h, hlt⟩ | ⟨h, hge, hlt⟩
  · rw [h]
    generalize immBField w = F at *
    unfold i64 sextSpec
    rw [if_pos (by omega), if_pos (by omega)]
    omega
  · rw [h]
    generalize immBField w = F at *
    unfold i64 sextSpec
    rw [if_neg (by omega), if_neg (by omega)]
    omega

theorem i64_eq_sext (x : Nat) : i64 x = sextSpec 64 x := by
  unfold i64 sextSpec
  split_ifs <;> omega

theorem usub_ofInt (pc : Nat) (S : Int) :
    usub (u64 (pc + ofInt S)) 4 = ofInt ((pc : Int) + S - 4) := by
  unfold usub u64 ofInt
  omega

theorem ofInt_i64_add (pc : Nat) (S : Int) :
    ofInt (i64 pc + S - 4) = ofInt ((pc : Int) + S - 4) := by
  unfold ofInt i64
  split_ifs <;> omega

theorem i64_inj (a b : Nat) (ha : a < 2 ^ 64) (hb : b < 2 ^ 64) : i64 a = i64 b ↔ a = b := by
  unfold i64
  constructor
  · intro h
    split_ifs at h <;> omega
  · intro h
    rw [h]

/-! The six branch functions, in the terms of the specification. -/

theorem exec_BEQ_eq (cpu : CPU) (inst : Nat) (ha : cpu.regs (rs1 inst) < 2 ^ 64)
    (hb : cpu.regs (rs2 inst) < 2 ^ 64) :
    exec_BEQ cpu inst
      = .ok (if cpu.regs (rs1 inst) = cpu.regs (rs2 inst)
             then { cpu with pc := branchTarget cpu inst } else cpu) := by
  have hc : (i64 (cpu.regs (rs1 inst)) = i64 (cpu.regs (rs2 inst))) ↔ (cpu.regs (rs1 inst) = cpu.regs (rs2 inst)) := by
    exact i64_inj _ _ ha hb
  unfold exec_BEQ branchTarget
  simp only []
  by_cases h : cpu.regs (rs1 inst) = cpu.regs (rs2 inst)
  · rw [if_pos (hc.mpr h), if_pos h]
    rw [usub_ofInt, i64_imm_B]
    rfl
  · rw [if_neg (fun e => h (hc.mp e)), if_neg h]
    rfl

theorem exec_BNE_eq (cpu : CPU) (inst : Nat) (ha : cpu.regs (rs1 inst) < 2 ^ 64)
    (hb : cpu.regs (rs2 inst) < 2 ^ 64) :
    exec_BNE cpu inst
      = .ok (if cpu.regs (rs1 inst) ≠ cpu.regs (rs2 inst)
             then { cpu with pc := branchTarget cpu inst } else cpu) := by
  have hc : (i64 (cpu.regs (rs1 inst)) ≠ i64 (cpu.regs (rs2 inst))) ↔ (cpu.regs (rs1 inst) ≠ cpu.regs (rs2 inst)) := by
    exact not_congr (i64_inj _ _ ha hb)
  unfold exec_BNE branchTarget
  simp only []
  by_cases h : cpu.regs (rs1 inst) ≠ cpu.regs (rs2 inst)
  · rw [if_pos (hc.mpr h), if_pos h]
    rw [usub_ofInt, i64_imm_B]
    rfl
  · rw [if_neg (fun e => h (hc.mp e)), if_neg h]
    rfl

theorem exec_BLT_eq (cpu : CPU) (inst : Nat) :
    exec_BLT cpu inst
      = .ok (if sextSpec 64 (cpu.regs (rs1 inst)) < sextSpec 64 (cpu.regs (rs2 inst))
             then { cpu with pc := branchTarget cpu inst } else cpu) := by
  have hc : (i64 (cpu.regs (rs1 inst)) < i64 (cpu.regs (rs2 inst))) ↔ (sextSpec 64 (cpu.regs (rs1 inst)) < sextSpec 64 (cpu.regs (rs2 inst))) := by
    rw [i64_eq_sext, i64_eq_sext]
  unfold exec_BLT branchTarget
  simp only []
  by_cases h : sextSpec 64 (cpu.regs (rs1 inst)) < sextSpec 64 (cpu.regs (rs2 inst))
  · rw [if_pos (hc.mpr h), if_pos h]
    rw [usub_ofInt, i64_imm_B]
    rfl
  · rw [if_neg (fun e => h (hc.mp e)), if_neg h]
    rfl

theorem exec_BGE_eq (cpu : CPU) (inst : Nat) :
    exec_BGE cpu inst
      = .ok (if sextSpec 64 (cpu.regs (rs1 inst)) ≥ sextSpec 64 (cpu.regs (rs2 inst))
             then { cpu with pc := branchTarget cpu inst } else cpu) := by
  have hc : (i64 (cpu.regs (rs1 inst)) ≥ i64 (cpu.regs (rs2 inst))) ↔ (sextSpec 64 (cpu.regs (rs1 inst)) ≥ sextSpec 64 (cpu.regs (rs2 inst))) := by
    rw [i64_eq_sext, i64_eq_sext]
  unfold exec_BGE branchTarget
  simp only []
  by_cases h : sextSpec 64 (cpu.regs (rs1 inst)) ≥ sextSpec 64 (cpu.regs (rs2 inst))
  · rw [if_pos (hc.mpr h), if_pos h]
    rw [usub_ofInt, i64_imm_B]
    rfl
  · rw [if_neg (fun e => h (hc.mp e)), if_neg h]
    rfl

theorem exec_BLTU_eq (cpu : CPU) (inst : Nat) :
    exec_BLTU cpu inst
      = .ok (if cpu.regs (rs1 inst) < cpu.regs (rs2 inst)
             then { cpu with pc := branchTarget cpu inst } else cpu) := by
  have hc : (cpu.regs (rs1 inst) < cpu.regs (rs2 inst)) ↔ (cpu.regs (rs1 inst) < cpu.regs (rs2 inst)) := by
    exact Iff.rfl
  unfold exec_BLTU branchTarget
  simp only []
  by_cases h : cpu.regs (rs1 inst) < cpu.regs (rs2 inst)
  · rw [if_pos (hc.mpr h), if_pos h]
    rw [usub_ofInt, i64_imm_B]
    rfl
  · rw [if_neg (fun e => h (hc.mp e)), if_neg h]
    rfl

theorem exec_BGEU_eq (cpu : CPU) (inst : Nat) :
    exec_BGEU cpu inst
      = .ok (if cpu.regs (rs1 inst) ≥ cpu.regs (rs2 inst)
             then { cpu with pc := branchTarget cpu inst } else cpu) := by
  have hc : (cpu.regs (rs1 inst) ≥ cpu.regs (rs2 inst)) ↔ (cpu.regs (rs1 inst) ≥ cpu.regs (rs2 inst)) := by
    exact Iff.rfl
  unfold exec_BGEU branchTarget
  simp only []
  by_cases h : cpu.regs (rs1 inst) ≥ cpu.regs (rs2 inst)
  · rw [if_pos (hc.mpr h), if_pos h]
    rw [ofInt_i64_add, i64_imm_B]
    rfl
  · rw [if_neg (fun e => h (hc.mp e)), if_neg h]
    rfl

/-! Which arm of `cpu_execute` an opcode selects. -/

theorem cpu_execute_B_TYPE (K : Opcodes) (cpu : CPU) (inst : Nat) (hop : opcode inst = 0x63) :
    cpu_execute K cpu inst = case_B_TYPE (cpu.setReg 0 0) inst := by
  unfold cpu_execute
  simp [hop, LUI, AUIPC, JAL, JALR, B_TYPE]

theorem cpu_execute_LOAD (K : Opcodes) (cpu : CPU) (inst : Nat) (hop : opcode inst = 0x03) :
    cpu_execute K cpu inst = case_LOAD (cpu.setReg 0 0) inst := by
  unfold cpu_execute
  simp [hop, LUI, AUIPC, JAL, JALR, B_TYPE, LOAD]

theorem cpu_execute_S_TYPE (K : Opcodes) (cpu : CPU) (inst : Nat) (hop : opcode inst = 0x23) :
    cpu_execute K cpu inst = case_S_TYPE (cpu.setReg 0 0) inst := by
  unfold cpu_execute
  simp [hop, LUI, AUIPC, JAL, JALR, B_TYPE, LOAD, S_TYPE]

theorem cpu_execute_I_TYPE (K : Opcodes) (cpu : CPU) (inst : Nat) (hop : opcode inst = 0x13) :
    cpu_execute K cpu inst = case_I_TYPE (cpu.setReg 0 0) inst := by
  unfold cpu_execute
  simp [hop, LUI, AUIPC, JAL, JALR, B_TYPE, LOAD, S_TYPE, I_TYPE]

theorem cpu_execute_R_TYPE (K : Opcodes) (cpu : CPU) (inst : Nat) (hop : opcode inst = 0x33) :
    cpu_execute K cpu inst = case_R_TYPE K (cpu.setReg 0 0) inst := by
  unfold cpu_execute
  simp [hop, LUI, AUIPC, JAL, JALR, B_TYPE, LOAD, S_TYPE, I_TYPE, R_TYPE]

theorem case_B_TYPE_eq (cpu : CPU) (inst : Nat) :
    (funct3 inst = 0 → case_B_TYPE cpu inst = cont (exec_BEQ cpu inst))
      ∧ (funct3 inst = 1 → case_B_TYPE cpu inst = cont (exec_BNE cpu inst))
      ∧ (funct3 inst = 4 → case_B_TYPE cpu inst = cont (exec_BLT cpu inst))
      ∧ (funct3 inst = 5 → case_B_TYPE cpu inst = cont (exec_BGE cpu inst))
      ∧ (funct3 inst = 6 → case_B_TYPE cpu inst = cont (exec_BLTU cpu inst))
      ∧ (funct3 inst = 7 → case_B_TYPE cpu inst = cont (exec_BGEU cpu inst)) := by
  refine ⟨?_, ?_, ?_, ?_, ?_, ?_⟩ <;> intro h <;> unfold case_B_TYPE <;>
    simp [h, BEQ, BNE, BLT, BGE, BLTU, BGEU]

/-- C13: for each of BEQ, BNE, BLT, BGE, BLTU, BGEU and every pair of 64-bit register values,
the `exec_` function leaves the state unchanged except for the pc, which becomes
`pc + imm_B - 4` modulo `2^64` if the comparison holds (equal, not equal, signed less-than,
signed greater-or-equal, unsigned less-than, unsigned greater-or-equal) and stays as it is
otherwise; `cpu_execute` reaches these functions for opcode 0x63 and funct3 0, 1, 4, 5, 6, 7;
and `imm_B(inst)` is the 13-bit value `{inst[31], inst[7], inst[30:25], inst[11:8], 0}`
sign-extended to 64 bits. -/
theorem branch_spec (K : Opcodes) (cpu : CPU) (inst : Nat) (ha : cpu.regs (rs1 inst) < 2 ^ 64)
    (hb : cpu.regs (rs2 inst) < 2 ^ 64) :
    exec_BEQ cpu inst
        = .ok (if cpu.regs (rs1 inst) = cpu.regs (rs2 inst)
               then { cpu with pc := branchTarget cpu inst } else cpu)
      ∧ exec_BNE cpu inst
        = .ok (if cpu.regs (rs1 inst) ≠ cpu.regs (rs2 inst)
               then { cpu with pc := branchTarget cpu inst } else cpu)
      ∧ exec_BLT cpu inst
        = .ok (if sextSpec 64 (cpu.regs (rs1 inst)) < sextSpec 64 (cpu.regs (rs2 inst))
               then { cpu with pc := branchTarget cpu inst } else cpu)
      ∧ exec_BGE cpu inst
        = .ok (if sextSpec 64 (cpu.regs (rs1 inst)) ≥ sextSpec 64 (cpu.regs (rs2 inst))
               then { cpu with pc := branchTarget cpu inst } else cpu)
      ∧ exec_BLTU cpu inst
        = .ok (if cpu.regs (rs1 inst) < cpu.regs (rs2 inst)
               then { cpu with pc := branchTarget cpu inst } else cpu)
      ∧ exec_BGEU cpu inst
        = .ok (if cpu.regs (rs1 inst) ≥ cpu.regs (rs2 inst)
               then { cpu with pc := branchTarget cpu inst } else cpu)
      ∧ (opcode inst = 0x63 →
          (funct3 inst = 0 → cpu_execute K cpu inst = cont (exec_BEQ (cpu.setReg 0 0) inst))
          ∧ (funct3 inst = 1 → cpu_execute K cpu inst = cont (exec_BNE (cpu.setReg 0 0) inst))
          ∧ (funct3 inst = 4 → cpu_execute K cpu inst = cont (exec_BLT (cpu.setReg 0 0) inst))
          ∧ (funct3 inst = 5 → cpu_execute K cpu inst = cont (exec_BGE (cpu.setReg 0 0) inst))
          ∧ (funct3 inst = 6 → cpu_execute K cpu inst = cont (exec_BLTU (cpu.setReg 0 0) inst))
          ∧ (funct3 inst = 7 →
              cpu_execute K cpu inst = cont (exec_BGEU (cpu.setReg 0 0) inst)))
      ∧ i64 (imm_B inst) = sextSpec 13 (immBField inst) ∧ imm_B inst < 2 ^ 64 := by
  refine ⟨exec_BEQ_eq cpu inst ha hb, exec_BNE_eq cpu inst ha hb, exec_BLT_eq cpu inst,
    exec_BGE_eq cpu inst, exec_BLTU_eq cpu inst, exec_BGEU_eq cpu inst, ?_, i64_imm_B inst, ?_⟩
  · intro hop
    rw [cpu_execute_B_TYPE K cpu inst hop]
    exact case_B_TYPE_eq (cpu.setReg 0 0) inst
  · rcases imm_B_cases inst with ⟨h, hlt⟩ | ⟨h, hge, hlt⟩ <;> omega

theorem branch_spec_witness :
    branchState.regs (rs1 0x0020C463) < 2 ^ 64 ∧ branchState.regs (rs2 0x0020C463) < 2 ^ 64
      ∧ sextSpec 64 (branchState.regs (rs1 0x0020C463)) = -1
      ∧ sextSpec 64 (branchState.regs (rs2 0x0020C463)) = 1
      ∧ branchTarget branchState 0x0020C463 = 0x80000008
      ∧ exec_BLT branchState 0x0020C463
        = .ok (if sextSpec 64 (branchState.regs (rs1 0x0020C463))
                  < sextSpec 64 (branchState.regs (rs2 0x0020C463))
               then { branchState with pc := branchTarget branchState 0x0020C463 }
               else branchState)
      ∧ exec_BLTU branchState 0x0020C463
        = .ok (if branchState.regs (rs1 0x0020C463) < branchState.regs (rs2 0x0020C463)
               then { branchState with pc := branchTarget branchState 0x0020C463 }
               else branchState)
      ∧ observeExec rv64 branchState 0x0020C463 1 = some (1, 2 ^ 64 - 1, 0x80000008) :=
  ⟨by decide, by decide, by decide, by decide, by decide,
    (branch_spec rv64 branchState 0x0020C463 (by decide) (by decide)).2.2.1,
    (branch_spec rv64 branchState 0x0020C463 (by decide) (by decide)).2.2.2.2.1,
    by decide⟩

/-! ## Loads -/

theorem dram_load_leValue (d : DRAM) (addr size : Nat)
    (hsize : size = 8 ∨ size = 16 ∨ size = 32 ∨ size = 64) (hbytes : d.Bytes)
    (hlo : DRAM_BASE ≤ addr) (hhi : addr + size / 8 ≤ DRAM_BASE + DRAM_SIZE) :
    dram_load d addr size = .ok (leValue d addr (size / 8))
      ∧ leValue d addr (size / 8) < 2 ^ size := by
  unfold leValue
  have hb : ∀ k, d.mem k < 256 := hbytes
  rcases hsize with rfl | rfl | rfl | rfl
  · have hr : List.range (8 / 8) = [0] := by decide
    rw [dram_load_8_ok d addr hlo hhi, hr]
    simp only [List.map_cons, List.map_nil, List.sum_cons, List.sum_nil, add_zero, mul_zero,
      pow_zero, mul_one]
    generalize addr - DRAM_BASE = o
    have h0 := hb o
    exact ⟨trivial, by omega⟩
  · have hr : List.range (16 / 8) = [0, 1] := by decide
    rw [dram_load_16_ok d addr hlo hhi, hr, pack16 _ _ (hb _)]
    simp only [List.map_cons, List.map_nil, List.sum_cons, List.sum_nil, add_zero, mul_zero,
      pow_zero, mul_one]
    generalize addr - DRAM_BASE = o
    have h0 := hb o; have h1 := hb (o + 1)
    exact ⟨trivial, by omega⟩
  · have hr : List.range (32 / 8) = [0, 1, 2, 3] := by decide
    rw [dram_load_32_ok d addr hlo hhi, hr, pack32 _ _ _ _ (hb _) (hb _) (hb _)]
    simp only [List.map_cons, List.map_nil, List.sum_cons, List.sum_nil, add_zero, mul_zero,
      pow_zero, mul_one]
    generalize addr - DRAM_BASE = o
    have h0 := hb o; have h1 := hb (o + 1); have h2 := hb (o + 2); have h3 := hb (o + 3)
    exact ⟨by congr 1; omega, by omega⟩
  · have hr : List.range (64 / 8) = [0, 1, 2, 3, 4, 5, 6, 7] := by decide
    rw [dram_load_64_ok d addr hlo hhi, hr,
      pack64 _ _ _ _ _ _ _ _ (hb _) (hb _) (hb _) (hb _) (hb _) (hb _) (hb _)]
    simp only [List.map_cons, List.map_nil, List.sum_cons, List.sum_nil, add_zero, mul_zero,
      pow_zero, mul_one]
    generalize addr - DRAM_BASE = o
    have h0 := hb o; have h1 := hb (o + 1); have h2 := hb (o + 2); have h3 := hb (o + 3)
    have h4 := hb (o + 4); have h5 := hb (o + 5); have h6 := hb (o + 6); have h7 := hb (o + 7)
    exact ⟨by congr 1; omega, by omega⟩

theorem u64_add_ofInt_i64 (r x : Nat) : u64 (r + ofInt (i64 x)) = u64 (r + x) := by
  rw [ofInt_i64]
  unfold u64
  omega

theorem i8_eq_sext (x : Nat) : i8 x = sextSpec 8 x := by
  unfold i8 sextSpec
  split_ifs <;> omega

theorem i16_eq_sext (x : Nat) : i16 x = sextSpec 16 x := by
  unfold i16 sextSpec
  split_ifs <;> omega

theorem i32_eq_sext (x : Nat) : i32 x = sextSpec 32 x := by
  unfold i32 sextSpec
  split_ifs <;> omega

theorem exec_LB_ok (cpu : CPU) (inst : Nat) (hbytes : cpu.bus.dram.Bytes)
    (hlo : DRAM_BASE ≤ u64 (cpu.regs (rs1 inst) + imm_I inst))
    (hhi : u64 (cpu.regs (rs1 inst) + imm_I inst) + 8 / 8 ≤ DRAM_BASE + DRAM_SIZE) :
    exec_LB cpu inst
      = .ok (cpu.setReg (rd inst)
          (ofInt (sextSpec 8 (leValue cpu.bus.dram (u64 (cpu.regs (rs1 inst) + imm_I inst)) (8 / 8))))) := by
  have hl := dram_load_leValue cpu.bus.dram _ 8 (by decide) hbytes hlo hhi
  unfold exec_LB cpu_load bus_load
  simp only []
  rw [u64_add_ofInt_i64, hl.1, bind_ok, i8_eq_sext]
  rfl

theorem exec_LH_ok (cpu : CPU) (inst : Nat) (hbytes : cpu.bus.dram.Bytes)
    (hlo : DRAM_BASE ≤ u64 (cpu.regs (rs1 inst) + imm_I inst))
    (hhi : u64 (cpu.regs (rs1 inst) + imm_I inst) + 16 / 8 ≤ DRAM_BASE + DRAM_SIZE) :
    exec_LH cpu inst
      = .ok (cpu.setReg (rd inst)
          (ofInt (sextSpec 16 (leValue cpu.bus.dram (u64 (cpu.regs (rs1 inst) + imm_I inst)) (16 / 8))))) := by
  have hl := dram_load_leValue cpu.bus.dram _ 16 (by decide) hbytes hlo hhi
  unfold exec_LH cpu_load bus_load
  simp only []
  rw [u64_add_ofInt_i64, hl.1, bind_ok, i16_eq_sext]
  rfl

theorem exec_LW_ok (cpu : CPU) (inst : Nat) (hbytes : cpu.bus.dram.Bytes)
    (hlo : DRAM_BASE ≤ u64 (cpu.regs (rs1 inst) + imm_I inst))
    (hhi : u64 (cpu.regs (rs1 inst) + imm_I inst) + 32 / 8 ≤ DRAM_BASE + DRAM_SIZE) :
    exec_LW cpu inst
      = .ok (cpu.setReg (rd inst)
          (ofInt (sextSpec 32 (leValue cpu.bus.dram (u64 (cpu.regs (rs1 inst) + imm_I inst)) (32 / 8))))) := by
  have hl := dram_load_leValue cpu.bus.dram _ 32 (by decide) hbytes hlo hhi
  unfold exec_LW cpu_load bus_load
  simp only []
  rw [u64_add_ofInt_i64, hl.1, bind_ok, i32_eq_sext]
  rfl

theorem exec_LD_ok (cpu : CPU) (inst : Nat) (hbytes : cpu.bus.dram.Bytes)
    (hlo : DRAM_BASE ≤ u64 (cpu.regs (rs1 inst) + imm_I inst))
    (hhi : u64 (cpu.regs (rs1 inst) + imm_I inst) + 64 / 8 ≤ DRAM_BASE + DRAM_SIZE) :
    exec_LD cpu inst
      = .ok (cpu.setReg (rd inst)
          ((leValue cpu.bus.dram (u64 (cpu.regs (rs1 inst) + imm_I inst)) (64 / 8)))) := by
  have hl := dram_load_leValue cpu.bus.dram _ 64 (by decide) hbytes hlo hhi
  unfold exec_LD cpu_load bus_load
  simp only []
  rw [u64_add_ofInt_i64, hl.1, bind_ok, ofInt_i64, Nat.mod_eq_of_lt hl.2]
  rfl

theorem exec_LBU_ok (cpu : CPU) (inst : Nat) (hbytes : cpu.bus.dram.Bytes)
    (hlo : DRAM_BASE ≤ u64 (cpu.regs (rs1 inst) + imm_I inst))
    (hhi : u64 (cpu.regs (rs1 inst) + imm_I inst) + 8 / 8 ≤ DRAM_BASE + DRAM_SIZE) :
    exec_LBU cpu inst
      = .ok (cpu.setReg (rd inst)
          ((leValue cpu.bus.dram (u64 (cpu.regs (rs1 inst) + imm_I inst)) (8 / 8)))) := by
  have hl := dram_load_leValue cpu.bus.dram _ 8 (by decide) hbytes hlo hhi
  unfold exec_LBU cpu_load bus_load
  simp only []
  rw [u64_add_ofInt_i64, hl.1, bind_ok]
  rfl

theorem exec_LHU_ok (cpu : CPU) (inst : Nat) (hbytes : cpu.bus.dram.Bytes)
    (hlo : DRAM_BASE ≤ u64 (cpu.regs (rs1 inst) + imm_I inst))
    (hhi : u64 (cpu.regs (rs1 inst) + imm_I inst) + 16 / 8 ≤ DRAM_BASE + DRAM_SIZE) :
    exec_LHU cpu inst
      = .ok (cpu.setReg (rd inst)
          ((leValue cpu.bus.dram (u64 (cpu.regs (rs1 inst) + imm_I inst)) (16 / 8)))) := by
  have hl := dram_load_leValue cpu.bus.dram _ 16 (by decide) hbytes hlo hhi
  unfold exec_LHU cpu_load bus_load
  simp only []
  rw [u64_add_ofInt_i64, hl.1, bind_ok]
  rfl

theorem exec_LWU_ok (cpu : CPU) (inst : Nat) (hbytes : cpu.bus.dram.Bytes)
    (hlo : DRAM_BASE ≤ u64 (cpu.regs (rs1 inst) + imm_I inst))
    (hhi : u64 (cpu.regs (rs1 inst) + imm_I inst) + 32 / 8 ≤ DRAM_BASE + DRAM_SIZE) :
    exec_LWU cpu inst
      = .ok (cpu.setReg (rd inst)
          ((leValue cpu.bus.dram (u64 (cpu.regs (rs1 inst) + imm_I inst)) (32 / 8)))) := by
  have hl := dram_load_leValue cpu.bus.dram _ 32 (by decide) hbytes hlo hhi
  unfold exec_LWU cpu_load bus_load
  simp only []
  rw [u64_add_ofInt_i64, hl.1, bind_ok]
  rfl

theorem case_LOAD_eq (cpu : CPU) (inst : Nat) :
    (funct3 inst = 0 → case_LOAD cpu inst = cont (exec_LB cpu inst))
      ∧ (funct3 inst = 1 → case_LOAD cpu inst = cont (exec_LH cpu inst))
      ∧ (funct3 inst = 2 → case_LOAD cpu inst = cont (exec_LW cpu inst))
      ∧ (funct3 inst = 3 → case_LOAD cpu inst = cont (exec_LD cpu inst))
      ∧ (funct3 inst = 4 → case_LOAD cpu inst = cont (exec_LBU cpu inst))
      ∧ (funct3 inst = 5 → case_LOAD cpu inst = cont (exec_LHU cpu inst))
      ∧ (funct3 inst = 6 → case_LOAD cpu inst = cont (exec_LWU cpu inst)) := by
  refine ⟨?_, ?_, ?_, ?_, ?_, ?_, ?_⟩ <;> intro h <;> unfold case_LOAD <;>
    simp [h, LB, LH, LW, LD, LBU, LHU, LWU]

theorem cont_ok (c : CPU) : cont (.ok c) = .ok (1, c) := rfl

/-- C14: for every load instruction (opcode 0x03, funct3 0..6) whose address
`a = regs[rs1] + imm_I` modulo `2^64` is in range, `cpu_execute` completes and sets `regs[rd]`
to the little-endian value of the 1, 2, 4 or 8 bytes at `a`: sign-extended from the access
width for LB, LH, LW, as it is (zero-extended, below `2^width`) for LD, LBU, LHU, LWU. -/
theorem load_spec (K : Opcodes) (cpu : CPU) (inst : Nat) (hop : opcode inst = 0x03)
    (hf3 : funct3 inst ≤ 6) (hbytes : cpu.bus.dram.Bytes)
    (hlo : DRAM_BASE ≤ loadAddr cpu inst)
    (hhi : loadAddr cpu inst + loadSize (funct3 inst) / 8 ≤ DRAM_BASE + DRAM_SIZE) :
    ∃ c, cpu_execute K cpu inst = .ok (1, c)
      ∧ c.regs (rd inst)
          = loadValue (funct3 inst)
              (leValue cpu.bus.dram (loadAddr cpu inst) (loadSize (funct3 inst) / 8))
      ∧ leValue cpu.bus.dram (loadAddr cpu inst) (loadSize (funct3 inst) / 8)
          < 2 ^ loadSize (funct3 inst) := by
  unfold loadAddr at *
  have h7 : funct3 inst = 0 ∨ funct3 inst = 1 ∨ funct3 inst = 2 ∨ funct3 inst = 3
      ∨ funct3 inst = 4 ∨ funct3 inst = 5 ∨ funct3 inst = 6 := by omega
  rcases h7 with h | h | h | h | h | h | h
  · rw [h] at hhi ⊢
    have e : loadSize 0 = 8 := by decide
    rw [e] at hhi ⊢
    have hx := exec_LB_ok (cpu.setReg 0 0) inst hbytes hlo hhi
    have hl := dram_load_leValue cpu.bus.dram _ 8 (by decide) hbytes hlo hhi
    rw [cpu_execute_LOAD K cpu inst hop, (case_LOAD_eq _ inst).1 h, hx, cont_ok]
    refine ⟨_, rfl, ?_, hl.2⟩
    rw [setReg_regs_self]
    rfl
  · rw [h] at hhi ⊢
    have e : loadSize 1 = 16 := by decide
    rw [e] at hhi ⊢
    have hx := exec_LH_ok (cpu.setReg 0 0) inst hbytes hlo hhi
    have hl := dram_load_leValue cpu.bus.dram _ 16 (by decide) hbytes hlo hhi
    rw [cpu_execute_LOAD K cpu inst hop, (case_LOAD_eq _ inst).2.1 h, hx, cont_ok]
    refine ⟨_, rfl, ?_, hl.2⟩
    rw [setReg_regs_self]
    rfl
  · rw [h] at hhi ⊢
    have e : loadSize 2 = 32 := by decide
    rw [e] at hhi ⊢
    have hx := exec_LW_ok (cpu.setReg 0 0) inst hbytes hlo hhi
    have hl := dram_load_leValue cpu.bus.dram _ 32 (by decide) hbytes hlo hhi
    rw [cpu_execute_LOAD K cpu inst hop, (case_LOAD_eq _ inst).2.2.1 h, hx, cont_ok]
    refine ⟨_, rfl, ?_, hl.2⟩
    rw [setReg_regs_self]
    rfl
  · rw [h] at hhi ⊢
    have e : loadSize 3 = 64 := by decide
    rw [e] at hhi ⊢
    have hx := exec_LD_ok (cpu.setReg 0 0) inst hbytes hlo hhi
    have hl := dram_load_leValue cpu.bus.dram _ 64 (by decide) hbytes hlo hhi
    rw [cpu_execute_LOAD K cpu inst hop, (case_LOAD_eq _ inst).2.2.2.1 h, hx, cont_ok]
    refine ⟨_, rfl, ?_, hl.2⟩
    rw [setReg_regs_self]
    rfl
  · rw [h] at hhi ⊢
    have e : loadSize 4 = 8 := by decide
    rw [e] at hhi ⊢
    have hx := exec_LBU_ok (cpu.setReg 0 0) inst hbytes hlo hhi
    have hl := dram_load_leValue cpu.bus.dram _ 8 (by decide) hbytes hlo hhi
    rw [cpu_execute_LOAD K cpu inst hop, (case_LOAD_eq _ inst).2.2.2.2.1 h, hx, cont_ok]
    refine ⟨_, rfl, ?_, hl.2⟩
    rw [setReg_regs_self]
    rfl
  · rw [h] at hhi ⊢
    have e : loadSize 5 = 16 := by decide
    rw [e] at hhi ⊢
    have hx := exec_LHU_ok (cpu.setReg 0 0) inst hbytes hlo hhi
    have hl := dram_load_leValue cpu.bus.dram _ 16 (by decide) hbytes hlo hhi
    rw [cpu_execute_LOAD K cpu inst hop, (case_LOAD_eq _ inst).2.2.2.2.2.1 h, hx, cont_ok]
    refine ⟨_, rfl, ?_, hl.2⟩
    rw [setReg_regs_self]
    rfl
  · rw [h] at hhi ⊢
    have e : loadSize 6 = 32 := by decide
    rw [e] at hhi ⊢
    have hx := exec_LWU_ok (cpu.setReg 0 0) inst hbytes hlo hhi
    have hl := dram_load_leValue cpu.bus.dram _ 32 (by decide) hbytes hlo hhi
    rw [cpu_execute_LOAD K cpu inst hop, (case_LOAD_eq _ inst).2.2.2.2.2.2 h, hx, cont_ok]
    refine ⟨_, rfl, ?_, hl.2⟩
    rw [setReg_regs_self]
    rfl

theorem lbState_bytes : lbState.bus.dram.Bytes := by
  intro i
  show (if i = 8 then 0x80 else 0) < 256
  split_ifs <;> decide

theorem load_spec_witness :
    loadAddr lbState 0x00008183 = 0x80000008
      ∧ leValue lbState.bus.dram 0x80000008 1 = 0x80
      ∧ (∃ c, cpu_execute rv64 lbState 0x00008183 = .ok (1, c)
          ∧ c.regs 3 = 0xFFFFFFFFFFFFFF80 ∧ 0x80 < 2 ^ 8)
      ∧ (∃ c, cpu_execute rv64 lbState 0x0000C183 = .ok (1, c)
          ∧ c.regs 3 = 0x80 ∧ 0x80 < 2 ^ 8) :=
  ⟨by decide, by decide,
    load_spec rv64 lbState 0x00008183 (by decide) (by decide) lbState_bytes (by decide)
      (by decide),
    load_spec rv64 lbState 0x0000C183 (by decide) (by decide) lbState_bytes (by decide)
      (by decide)⟩

/-! ## Stores -/

theorem imm_S_eq (inst : Nat) :
    imm_S inst = immSField inst + inst / 2 ^ 31 % 2 * (2 ^ 64 - 2 ^ 12) := by
  have hs : ofInt (sar (i32 (inst &&& 0xfe000000)) 20)
      = inst / 2 ^ 25 % 2 ^ 7 * 2 ^ 5 + inst / 2 ^ 31 % 2 * (2 ^ 64 - 2 ^ 12) := by
    unfold ofInt sar i32
    rw [m_fe000000]
    split_ifs <;> omega
  unfold imm_S immSField
  rw [hs, m_1f]
  simp only [Nat.shiftRight_eq_div_pow]
  have e1 := or_of_dvd (inst / 2 ^ 25 % 2 ^ 7 * 2 ^ 5 + inst / 2 ^ 31 % 2 * (2 ^ 64 - 2 ^ 12))
    (inst / 2 ^ 7 % 2 ^ 5) 5 (by omega) (by omega)
  rw [e1]
  omega

theorem immSField_facts (w : Nat) :
    immSField w < 2 ^ 12
      ∧ (w / 2 ^ 31 % 2 = 0 → immSField w < 2 ^ 11)
      ∧ (w / 2 ^ 31 % 2 = 1 → 2 ^ 11 ≤ immSField w) := by
  have d : w / 2 ^ 31 = w / 2 ^ 25 / 2 ^ 6 := by
    rw [Nat.div_div_eq_div_mul]; norm_num
  have hx : w / 2 ^ 25 % (2 ^ 6 * 2) / 2 ^ 6 = w / 2 ^ 25 / 2 ^ 6 % 2 :=
    Nat.mod_mul_right_div_self _ _ _
  have hlt : w / 2 ^ 25 % (2 ^ 6 * 2) < 2 ^ 6 * 2 := Nat.mod_lt _ (by decide)
  unfold immSField
  rw [d, ← hx]
  generalize w / 2 ^ 25 % (2 ^ 6 * 2) = X at hlt
  refine ⟨?_, ?_, ?_⟩ <;> omega

theorem i64_imm_S (w : Nat) : i64 (imm_S w) = sextSpec 12 (immSField w) := by
  have h1 := imm_S_eq w
  obtain ⟨f1, f3, f4⟩ := immSField_facts w
  have hb : w / 2 ^ 31 % 2 = 0 ∨ w / 2 ^ 31 % 2 = 1 := by omega
  rcases hb with hb | hb
  · have g := f3 hb
    rw [hb] at h1
    rw [h1]
    generalize immSField w = F at *
    unfold i64 sextSpec
    rw [if_pos (by omega), if_pos (by omega)]
    omega
  · have g := f4 hb
    rw [hb] at h1
    rw [h1]
    generalize immSField w = F at *
    unfold i64 sextSpec
    rw [if_neg (by omega), if_neg (by omega)]
    omega

theorem store_addr_eq (cpu : CPU) (inst : Nat) :
    u64 (cpu.regs (rs1 inst) + ofInt (i64 (imm_S inst))) = storeAddr cpu inst := by
  unfold storeAddr
  rw [ofInt_add_nat, i64_imm_S]

/-- A store followed by a load of the same width at the same in-range address. -/
theorem dram_store_then_load (d : DRAM) (addr size value : Nat)
    (hsize : size = 8 ∨ size = 16 ∨ size = 32 ∨ size = 64)
    (hlo : DRAM_BASE ≤ addr) (hhi : addr + size / 8 ≤ DRAM_BASE + DRAM_SIZE) :
    ∃ d', dram_store d addr size value = .ok d'
      ∧ dram_load d' addr size = .ok (value % 2 ^ size) := by
  rcases hsize with rfl | rfl | rfl | rfl
  · refine ⟨_, dram_store_8_ok d addr value hlo hhi, ?_⟩
    rw [dram_load_8_ok _ addr hlo hhi]
    simp
  · refine ⟨_, dram_store_16_ok d addr value hlo hhi, ?_⟩
    rw [dram_load_16_ok _ addr hlo hhi]
    simp only [self_eq_add_right, Nat.add_right_inj, OfNat.ofNat_ne_zero, one_ne_zero,
      if_false, if_true, Nat.reduceEqDiff]
    rw [pack16 _ _ (Nat.mod_lt _ (by decide))]
    congr 1; omega
  · refine ⟨_, dram_store_32_ok d addr value hlo hhi, ?_⟩
    rw [dram_load_32_ok _ addr hlo hhi]
    simp only [self_eq_add_right, Nat.add_right_inj, OfNat.ofNat_ne_zero, one_ne_zero,
      if_false, if_true, Nat.reduceEqDiff]
    rw [pack32 _ _ _ _ (Nat.mod_lt _ (by decide)) (Nat.mod_lt _ (by decide))
      (Nat.mod_lt _ (by decide))]
    congr 1; omega
  · refine ⟨_, dram_store_64_ok d addr value hlo hhi, ?_⟩
    rw [dram_load_64_ok _ addr hlo hhi]
    simp only [self_eq_add_right, Nat.add_right_inj, OfNat.ofNat_ne_zero, one_ne_zero,
      if_false, if_true, Nat.reduceEqDiff]
    rw [pack64 _ _ _ _ _ _ _ _ (Nat.mod_lt _ (by decide)) (Nat.mod_lt _ (by decide))
      (Nat.mod_lt _ (by decide)) (Nat.mod_lt _ (by decide)) (Nat.mod_lt _ (by decide))
      (Nat.mod_lt _ (by decide)) (Nat.mod_lt _ (by decide))]
    congr 1; omega

/-- The state after `cpu_store` at an in-range address: only memory differs, and a load of the
same width at the address returns the low bits of the stored value. -/
theorem cpu_store_then_load (cpu : CPU) (addr size value : Nat)
    (hsize : size = 8 ∨ size = 16 ∨ size = 32 ∨ size = 64)
    (hlo : DRAM_BASE ≤ addr) (hhi : addr + size / 8 ≤ DRAM_BASE + DRAM_SIZE) :
    ∃ c, cpu_store cpu addr size value = .ok c ∧ c.regs = cpu.regs ∧ c.pc = cpu.pc
      ∧ c.csr = cpu.csr ∧ cpu_load c addr size = .ok (value % 2 ^ size) := by
  obtain ⟨d', hst, hld⟩ := dram_store_then_load cpu.bus.dram addr size value hsize hlo hhi
  refine ⟨{ cpu with bus := { cpu.bus with dram := d' } }, ?_, rfl, rfl, rfl, hld⟩
  unfold cpu_store bus_store
  rw [hst]
  rfl

theorem exec_SB_ok (cpu : CPU) (inst : Nat) (hlo : DRAM_BASE ≤ storeAddr cpu inst)
    (hhi : storeAddr cpu inst + 8 / 8 ≤ DRAM_BASE + DRAM_SIZE) :
    ∃ c, exec_SB cpu inst = .ok c ∧ c.regs = cpu.regs ∧ c.pc = cpu.pc ∧ c.csr = cpu.csr
      ∧ cpu_load c (storeAddr cpu inst) 8 = .ok (cpu.regs (rs2 inst) % 2 ^ 8) := by
  unfold exec_SB
  simp only []
  rw [store_addr_eq]
  exact cpu_store_then_load cpu _ 8 _ (by decide) hlo hhi

theorem exec_SH_ok (cpu : CPU) (inst : Nat) (hlo : DRAM_BASE ≤ storeAddr cpu inst)
    (hhi : storeAddr cpu inst + 16 / 8 ≤ DRAM_BASE + DRAM_SIZE) :
    ∃ c, exec_SH cpu inst = .ok c ∧ c.regs = cpu.regs ∧ c.pc = cpu.pc ∧ c.csr = cpu.csr
      ∧ cpu_load c (storeAddr cpu inst) 16 = .ok (cpu.regs (rs2 inst) % 2 ^ 16) := by
  unfold exec_SH
  simp only []
  rw [store_addr_eq]
  exact cpu_store_then_load cpu _ 16 _ (by decide) hlo hhi

theorem exec_SW_ok (cpu : CPU) (inst : Nat) (hlo : DRAM_BASE ≤ storeAddr cpu inst)
    (hhi : storeAddr cpu inst + 32 / 8 ≤ DRAM_BASE + DRAM_SIZE) :
    ∃ c, exec_SW cpu inst = .ok c ∧ c.regs = cpu.regs ∧ c.pc = cpu.pc ∧ c.csr = cpu.csr
      ∧ cpu_load c (storeAddr cpu inst) 32 = .ok (cpu.regs (rs2 inst) % 2 ^ 32) := by
  unfold exec_SW
  simp only []
  rw [store_addr_eq]
  exact cpu_store_then_load cpu _ 32 _ (by decide) hlo hhi

theorem exec_SD_ok (cpu : CPU) (inst : Nat) (hlo : DRAM_BASE ≤ storeAddr cpu inst)
    (hhi : storeAddr cpu inst + 64 / 8 ≤ DRAM_BASE + DRAM_SIZE) :
    ∃ c, exec_SD cpu inst = .ok c ∧ c.regs = cpu.regs ∧ c.pc = cpu.pc ∧ c.csr = cpu.csr
      ∧ cpu_load c (storeAddr cpu inst) 64 = .ok (cpu.regs (rs2 inst) % 2 ^ 64) := by
  unfold exec_SD
  simp only []
  rw [store_addr_eq]
  exact cpu_store_then_load cpu _ 64 _ (by decide) hlo hhi

theorem case_S_TYPE_eq (cpu : CPU) (inst : Nat) :
    (funct3 inst = 0 → case_S_TYPE cpu inst = cont (exec_SB cpu inst))
      ∧ (funct3 inst = 1 → case_S_TYPE cpu inst = cont (exec_SH cpu inst))
      ∧ (funct3 inst = 2 → case_S_TYPE cpu inst = cont (exec_SW cpu inst))
      ∧ (funct3 inst = 3 → case_S_TYPE cpu inst = cont (exec_SD cpu inst)) := by
  refine ⟨?_, ?_, ?_, ?_⟩ <;> intro h <;> unfold case_S_TYPE <;> simp [h, SB, SH, SW, SD]

/-- C15: for every SB, SH, SW, SD instruction whose address
`a = regs[rs1] + sext({inst[31:25], inst[11:7]})` modulo `2^64` is in range, the `exec_`
function completes, leaves registers, pc and CSRs unchanged and writes the low 8, 16, 32, 64
bits of `regs[rs2]` at `a`: a load of the same width at `a` afterwards returns exactly those
bits, zero-extended.  `cpu_execute` reaches these functions for opcode 0x23 and funct3 0..3,
and `imm_S(inst)` is the sign-extended 12-bit field. -/
theorem store_spec (K : Opcodes) (cpu : CPU) (inst : Nat)
    (hlo : DRAM_BASE ≤ storeAddr cpu inst)
    (hhi : storeAddr cpu inst + 1 ≤ DRAM_BASE + DRAM_SIZE) :
    (∃ c, exec_SB cpu inst = .ok c ∧ c.regs = cpu.regs ∧ c.pc = cpu.pc ∧ c.csr = cpu.csr
        ∧ cpu_load c (storeAddr cpu inst) 8 = .ok (cpu.regs (rs2 inst) % 2 ^ 8))
      ∧ (storeAddr cpu inst + 2 ≤ DRAM_BASE + DRAM_SIZE →
          ∃ c, exec_SH cpu inst = .ok c ∧ c.regs = cpu.regs ∧ c.pc = cpu.pc ∧ c.csr = cpu.csr
            ∧ cpu_load c (storeAddr cpu inst) 16 = .ok (cpu.regs (rs2 inst) % 2 ^ 16))
      ∧ (storeAddr cpu inst + 4 ≤ DRAM_BASE + DRAM_SIZE →
          ∃ c, exec_SW cpu inst = .ok c ∧ c.regs = cpu.regs ∧ c.pc = cpu.pc ∧ c.csr = cpu.csr
            ∧ cpu_load c (storeAddr cpu inst) 32 = .ok (cpu.regs (rs2 inst) % 2 ^ 32))
      ∧ (storeAddr cpu inst + 8 ≤ DRAM_BASE + DRAM_SIZE →
          ∃ c, exec_SD cpu inst = .ok c ∧ c.regs = cpu.regs ∧ c.pc = cpu.pc ∧ c.csr = cpu.csr
            ∧ cpu_load c (storeAddr cpu inst) 64 = .ok (cpu.regs (rs2 inst) % 2 ^ 64))
      ∧ (opcode inst = 0x23 →
          (funct3 inst = 0 → cpu_execute K cpu inst = cont (exec_SB (cpu.setReg 0 0) inst))
          ∧ (funct3 inst = 1 → cpu_execute K cpu inst = cont (exec_SH (cpu.setReg 0 0) inst))
          ∧ (funct3 inst = 2 → cpu_execute K cpu inst = cont (exec_SW (cpu.setReg 0 0) inst))
          ∧ (funct3 inst = 3 → cpu_execute K cpu inst = cont (exec_SD (cpu.setReg 0 0) inst)))
      ∧ i64 (imm_S inst) = sextSpec 12 (immSField inst) := by
  refine ⟨exec_SB_ok cpu inst hlo hhi, fun h => exec_SH_ok cpu inst hlo h,
    fun h => exec_SW_ok cpu inst hlo h, fun h => exec_SD_ok cpu inst hlo h, ?_, i64_imm_S inst⟩
  intro hop
  rw [cpu_execute_S_TYPE K cpu inst hop]
  exact case_S_TYPE_eq (cpu.setReg 0 0) inst

theorem store_spec_witness :
    storeAddr storeState 0x00112423 = 0x80000018
      ∧ DRAM_BASE ≤ storeAddr storeState 0x00112423
      ∧ storeAddr storeState 0x00112423 + 4 ≤ DRAM_BASE + DRAM_SIZE
      ∧ storeState.regs (rs2 0x00112423) % 2 ^ 32 = 0x55667788
      ∧ ∃ c, exec_SW storeState 0x00112423 = .ok c ∧ c.regs = storeState.regs
          ∧ c.pc = storeState.pc ∧ c.csr = storeState.csr
          ∧ cpu_load c (storeAddr storeState 0x00112423) 32
              = .ok (storeState.regs (rs2 0x00112423) % 2 ^ 32) :=
  ⟨by decide, by decide, by decide, by decide,
    (store_spec rv64 storeState 0x00112423 (by decide) (by decide)).2.2.1 (by decide)⟩

/-! ## The store/load scenario at the stack pointer -/

/-- C16, counterexample: from the `cpu_init` state with `addi x1,x0,-1; sw x1,0(x2);
lw x3,0(x2)` at `DRAM_BASE`, the first step completes with x1 = 2^64 - 1 and leaves
x2 = DRAM_BASE + DRAM_SIZE; the second step fetches 0x00112023, whose store address is
`DRAM_BASE + DRAM_SIZE`, not below `DRAM_BASE + DRAM_SIZE`: the byte written is
`mem[DRAM_SIZE]`, outside the array, and the step has no defined result. -/
theorem sw_at_sp_is_outside_dram :
    observe rv64 spProg 1 = some (1, 2 ^ 64 - 1, 0x80000004)
      ∧ (stepTo rv64 spProg).regs 2 = DRAM_BASE + DRAM_SIZE
      ∧ cpu_fetch (stepTo rv64 spProg) = .ok 0x00112023
      ∧ storeAddr (stepTo rv64 spProg) 0x00112023 = DRAM_BASE + DRAM_SIZE
      ∧ dram_index (storeAddr (stepTo rv64 spProg) 0x00112023) 0 = DRAM_SIZE
      ∧ ¬ (storeAddr (stepTo rv64 spProg) 0x00112023 < DRAM_BASE + DRAM_SIZE)
      ∧ faultStep rv64 (stepTo rv64 spProg) = some .outOfBounds := by
  refine ⟨by decide, by decide, rfl, by decide, by decide, by decide, by decide⟩

/-- C16, amended: with the words of the claim the first step completes and leaves
x1 = 2^64 - 1, and the store of the second step is at `DRAM_BASE + DRAM_SIZE`, one byte past the
last byte of DRAM; with the store and the load at `sp - 4` instead (0xFE112E23, 0xFFC12183)
three steps complete, the store and the load address `DRAM_BASE + DRAM_SIZE - 4`, inside
`[DRAM_BASE, DRAM_BASE + DRAM_SIZE)`, and x3 = 2^64 - 1 at the end. -/
theorem sp_store_load_scenario :
    (observe rv64 spProg 1 = some (1, 2 ^ 64 - 1, 0x80000004)
        ∧ storeAddr (stepTo rv64 spProg) 0x00112023 = DRAM_BASE + DRAM_SIZE
        ∧ faultStep rv64 (stepTo rv64 spProg) = some .outOfBounds)
      ∧ (faultStep rv64 spProgBelow = none
        ∧ faultStep rv64 (stepTo rv64 spProgBelow) = none
        ∧ faultStep rv64 (stepTo rv64 (stepTo rv64 spProgBelow)) = none
        ∧ storeAddr (stepTo rv64 spProgBelow) 0xFE112E23 = DRAM_BASE + DRAM_SIZE - 4
        ∧ loadAddr (stepTo rv64 (stepTo rv64 spProgBelow)) 0xFFC12183
            = DRAM_BASE + DRAM_SIZE - 4
        ∧ observe rv64 (stepTo rv64 (stepTo rv64 spProgBelow)) 3
            = some (1, 2 ^ 64 - 1, 0x8000000c)) := by
  refine ⟨⟨by decide, by decide, by decide⟩,
    by decide, by decide, by decide, by decide, by decide, by decide⟩

/-! ## SLTI and SLT -/

theorem exec_SLTI_eq_SLTIU (cpu : CPU) (inst : Nat) (h : inst < 2 ^ 32) :
    exec_SLTI cpu inst = exec_SLTIU cpu inst := by
  unfold exec_SLTI exec_SLTIU
  simp only []
  rw [ofInt_i64, Nat.mod_eq_of_lt (imm_I_lt inst h)]

theorem exec_SLT_eq_SLTU (cpu : CPU) (inst : Nat) (h : cpu.regs (rs2 inst) < 2 ^ 64) :
    exec_SLT cpu inst = exec_SLTU cpu inst := by
  unfold exec_SLT exec_SLTU
  rw [ofInt_i64, Nat.mod_eq_of_lt h]

/-- C17, the code at the failing input: with x1 = 2^64 - 1 (minus one as a signed value) and
x2 = 1, `slti x3, x1, 0` (0x0000A193) and `slt x3, x1, x2` (0x0020A1B3) both leave x3 = 0, where
the signed comparisons -1 < 0 and -1 < 1 hold.  The comparison in `exec_SLTI` and `exec_SLT`
has a `uint64_t` left operand, so it is unsigned: `exec_SLTI` computes what `exec_SLTIU`
computes and `exec_SLT` what `exec_SLTU` computes. -/
theorem slti_slt_compare_unsigned :
    sextSpec 64 (branchState.regs 1) = -1 ∧ sextSpec 12 (0x0000A193 / 2 ^ 20) = 0
      ∧ sextSpec 64 (branchState.regs 2) = 1
      ∧ observeExec rv64 branchState 0x0000A193 3 = some (1, 0, 0x80000004)
      ∧ observeExec rv64 branchState 0x0020A1B3 3 = some (1, 0, 0x80000004)
      ∧ (∀ (cpu : CPU) (inst : Nat), inst < 2 ^ 32 → exec_SLTI cpu inst = exec_SLTIU cpu inst)
      ∧ (∀ (cpu : CPU) (inst : Nat), cpu.regs (rs2 inst) < 2 ^ 64 →
          exec_SLT cpu inst = exec_SLTU cpu inst) :=
  ⟨by decide, by decide, by decide, by decide, by decide, exec_SLTI_eq_SLTIU, exec_SLT_eq_SLTU⟩

/-! ## R-type ADD, SUB, SRL, SRA -/

theorem case_R_TYPE_ADD (K : Opcodes) (cpu : CPU) (inst : Nat) (hf3 : funct3 inst = 0)
    (hf7 : funct7 inst = 0) :
    case_R_TYPE K cpu inst = cont (exec_ADD cpu inst >>= fun c => exec_ADD c inst) := by
  unfold case_R_TYPE
  simp [hf3, hf7, ADDSUB, ADD]

theorem case_R_TYPE_SUB (K : Opcodes) (cpu : CPU) (inst : Nat) (hf3 : funct3 inst = 0)
    (hf7 : funct7 inst ≠ 0) (hK : funct7 inst = K.SUB) :
    case_R_TYPE K cpu inst = cont (exec_ADD cpu inst) := by
  unfold case_R_TYPE
  simp only [hf3, ADDSUB, ADD, if_true, if_neg hf7, if_pos hK]

/-- C18, the code at the failing inputs: with x1 = 5 and x2 = 3, `add x1, x1, x2` (0x002080B3)
leaves x1 = 11, not 8, and `sub x3, x1, x2` (0x402081B3) leaves x3 = 8, not 2.  In
`case ADDSUB:` the arm `case ADD:` has no `break`, so `exec_ADD` runs twice, and the arm
`case SUB:` calls `exec_ADD`; `exec_SUB` is never called. -/
theorem add_sub_arms_run_exec_ADD :
    observeExec rv64 aluState 0x002080B3 1 = some (1, 11, 0x80000004)
      ∧ observeExec rv64 aluState 0x402081B3 3 = some (1, 8, 0x80000004)
      ∧ (∀ (K : Opcodes) (cpu : CPU) (inst : Nat), opcode inst = 0x33 → funct3 inst = 0 →
          funct7 inst = 0 →
          cpu_execute K cpu inst
            = cont (exec_ADD (cpu.setReg 0 0) inst >>= fun c => exec_ADD c inst))
      ∧ (∀ (K : Opcodes) (cpu : CPU) (inst : Nat), opcode inst = 0x33 → funct3 inst = 0 →
          funct7 inst ≠ 0 → funct7 inst = K.SUB →
          cpu_execute K cpu inst = cont (exec_ADD (cpu.setReg 0 0) inst)) := by
  refine ⟨by decide, by decide, ?_, ?_⟩
  · intro K cpu inst hop hf3 hf7
    rw [cpu_execute_R_TYPE K cpu inst hop, case_R_TYPE_ADD K _ inst hf3 hf7]
  · intro K cpu inst hop hf3 hf7 hK
    rw [cpu_execute_R_TYPE K cpu inst hop, case_R_TYPE_SUB K _ inst hf3 hf7 hK]

theorem case_R_TYPE_SR (K : Opcodes) (cpu : CPU) (inst : Nat) (h0 : funct3 inst ≠ 0)
    (h1 : funct3 inst ≠ K.SLL) (h2 : funct3 inst ≠ K.SLT) (h3 : funct3 inst ≠ K.SLTU)
    (h4 : funct3 inst ≠ K.XOR) (h5 : funct3 inst = K.SR) :
    case_R_TYPE K cpu inst
      = cont ((if funct7 inst = K.SRL then exec_SRL cpu inst
               else if funct7 inst = K.SRA then exec_SRA cpu inst
               else pure cpu) >>= fun c => exec_OR c inst) := by
  unfold case_R_TYPE
  simp only [ADDSUB, if_neg h0, if_neg h1, if_neg h2, if_neg h3, if_neg h4, if_pos h5]

/-- After the arm `case SR:` of the R-type `switch`, `rd` holds `regs[rs1] | regs[rs2]` whenever
`rd` differs from `rs1` and `rs2`: control runs from the shift into `case OR:`. -/
theorem case_R_TYPE_SR_result (K : Opcodes) (cpu c : CPU) (inst r : Nat)
    (h0 : funct3 inst ≠ 0) (h1 : funct3 inst ≠ K.SLL) (h2 : funct3 inst ≠ K.SLT)
    (h3 : funct3 inst ≠ K.SLTU) (h4 : funct3 inst ≠ K.XOR) (h5 : funct3 inst = K.SR)
    (hr1 : rs1 inst ≠ rd inst) (hr2 : rs2 inst ≠ rd inst)
    (h : case_R_TYPE K cpu inst = .ok (r, c)) :
    c.regs (rd inst) = cpu.regs (rs1 inst) ||| cpu.regs (rs2 inst) := by
  rw [case_R_TYPE_SR K cpu inst h0 h1 h2 h3 h4 h5] at h
  replace h := (cont_eq_ok h).2
  simp only [bind_eq_ok] at h
  obtain ⟨a, ha, hor⟩ := h
  have hfr : ∀ j, j ≠ rd inst → a.regs j = cpu.regs j := by
    intro j hj
    by_cases c1 : funct7 inst = K.SRL
    · rw [if_pos c1] at ha
      exact exec_SRL_regs ha j hj
    rw [if_neg c1] at ha
    by_cases c2 : funct7 inst = K.SRA
    · rw [if_pos c2] at ha
      exact exec_SRA_regs ha j hj
    rw [if_neg c2] at ha
    simp only [pure_ok, Except.ok.injEq] at ha
    subst ha
    rfl
  unfold exec_OR at hor
  simp only [pure_ok, Except.ok.injEq] at hor
  subst hor
  rw [setReg_regs_self, hfr _ hr1, hfr _ hr2]

/-- C19, the code at the failing inputs: with x1 = 5 and x2 = 3, `srl x3, x1, x2` (0x0020D1B3)
and `sra x3, x1, x2` (0x4020D1B3) leave x3 = 7 = 5 | 3, not 5 >> 3 = 0; with x1 = 2^63 and
x2 = 1, `sra x3, x1, x2` leaves x3 = 2^63 | 1, not 0xC000000000000000.  The inner `switch` of
`case SR:` is not followed by `break`, so `exec_OR` overwrites the result of the shift: for
every table in which `SR` is the label 5 and is distinct from the labels before it, `rd` ends
as `regs[rs1] | regs[rs2]` whenever it differs from `rs1` and `rs2`. -/
theorem sr_arm_runs_into_OR :
    observeExec rv64 aluState 0x0020D1B3 3 = some (1, 7, 0x80000004)
      ∧ observeExec rv64 aluState 0x4020D1B3 3 = some (1, 7, 0x80000004)
      ∧ observeExec rv64 signState 0x4020D1B3 3 = some (1, 2 ^ 63 + 1, 0x80000004)
      ∧ ofInt (sar (sextSpec 64 (2 ^ 63)) 1) = 0xC000000000000000
      ∧ (∀ (K : Opcodes) (cpu c : CPU) (inst r : Nat), opcode inst = 0x33 → funct3 inst = 5 →
          K.SR = 5 → K.SLL ≠ 5 → K.SLT ≠ 5 → K.SLTU ≠ 5 → K.XOR ≠ 5 →
          rs1 inst ≠ rd inst → rs2 inst ≠ rd inst →
          cpu_execute K cpu inst = .ok (r, c) →
          c.regs (rd inst)
            = (cpu.setReg 0 0).regs (rs1 inst) ||| (cpu.setReg 0 0).regs (rs2 inst)) := by
  refine ⟨by decide, by decide, by decide, by decide, ?_⟩
  intro K cpu c inst r hop hf3 kSR kSLL kSLT kSLTU kXOR hr1 hr2 h
  rw [cpu_execute_R_TYPE K cpu inst hop] at h
  exact case_R_TYPE_SR_result K _ c inst r (by omega) (by omega) (by omega) (by omega)
    (by omega) (by omega) hr1 hr2 h

/-! ## SRAI -/

theorem cont_error (e : Fault) : cont (.error e) = .error e := rfl

theorem cpu_execute_SRAI (K : Opcodes) (cpu : CPU) (inst : Nat) (hop : opcode inst = 0x13)
    (hf3 : funct3 inst = 5) (hf7 : funct7 inst = 0x20) :
    cpu_execute K cpu inst = cont (exec_SRAI (cpu.setReg 0 0) inst) := by
  rw [cpu_execute_I_TYPE K cpu inst hop]
  unfold case_I_TYPE
  simp [hf3, hf7, ADDI, SLLI, SLTI, SLTIU, XORI, SRI, SRLI, SRAI]

theorem imm_I_SRAI (inst : Nat) (h : inst < 2 ^ 32) (hf7 : funct7 inst = 0x20) :
    imm_I inst = 1024 + inst / 2 ^ 20 % 32 := by
  unfold funct7 at hf7
  rw [m_7f, Nat.shiftRight_eq_div_pow] at hf7
  rw [imm_I_eq inst h]
  have d : inst / 2 ^ 25 = inst / 2 ^ 20 / 2 ^ 5 := by
    rw [Nat.div_div_eq_div_mul]; norm_num
  rw [d] at hf7
  split_ifs <;> omega

theorem exec_SRAI_faults (cpu : CPU) (inst : Nat) (h : 32 ≤ imm_I inst) :
    exec_SRAI cpu inst = .error .shiftCount := by
  unfold exec_SRAI sar32
  simp only []
  rw [if_neg (by omega)]
  rfl

/-- C20, the code at the failing input: `srai x3, x1, 1` (0x4010D193) with x1 = 2^63, for which
the claim gives 0xC000000000000000.  `exec_SRAI` shifts `(int32_t) regs[rs1]`, which is 0 here
whatever the count, and the count is the whole I-immediate: it contains the funct7 bit 0x400,
so for every SRAI instruction it is 1024 + shamt, not below the width of the operand, and
`cpu_execute` has no defined result. -/
theorem srai_shifts_int32_by_whole_immediate :
    signState.regs (rs1 0x4010D193) = 2 ^ 63 ∧ imm_I 0x4010D193 = 0x401
      ∧ ofInt (sar (sextSpec 64 (2 ^ 63)) 1) = 0xC000000000000000
      ∧ i32 (signState.regs (rs1 0x4010D193)) = 0
      ∧ (∀ k : Nat, ofInt (sar (i32 (signState.regs (rs1 0x4010D193))) k) = 0)
      ∧ faultExec rv64 signState 0x4010D193 = some .shiftCount
      ∧ (∀ (K : Opcodes) (cpu : CPU) (inst : Nat), inst < 2 ^ 32 → opcode inst = 0x13 →
          funct3 inst = 5 → funct7 inst = 0x20 →
          imm_I inst = 1024 + inst / 2 ^ 20 % 32
            ∧ cpu_execute K cpu inst = .error .shiftCount) := by
  refine ⟨by decide, by decide, by decide, by decide, ?_, by decide, ?_⟩
  · intro k
    have e : i32 (signState.regs (rs1 0x4010D193)) = 0 := by decide
    rw [e]
    unfold ofInt sar
    simp
  · intro K cpu inst hlt hop hf3 hf7
    have hi := imm_I_SRAI inst hlt hf7
    refine ⟨hi, ?_⟩
    rw [cpu_execute_SRAI K cpu inst hop hf3 hf7, exec_SRAI_faults _ inst (by omega), cont_error]

/-! ## Shift amount of the immediate shifts -/

theorem shamt_eq (inst : Nat) (h : inst < 2 ^ 32) : shamt inst = inst / 2 ^ 20 % 2 ^ 5 := by
  unfold shamt u32
  rw [m_1f, imm_I_eq inst h]
  split_ifs <;> omega

/-- C21, the code at the failing input: `slli x3, x1, 32` (0x02009193, inst[25:20] = 32) with
x1 = 5, for which the claim gives 5 * 2^32.  `shamt` masks the I-immediate with 0x1f, so it is
inst[24:20], five bits wide, and 0 here: the instruction leaves x3 = 5. -/
theorem shamt_is_five_bits_wide :
    0x02009193 / 2 ^ 20 % 2 ^ 6 = 32 ∧ shamt 0x02009193 = 0
      ∧ u64 (aluState.regs (rs1 0x02009193) <<< 32) = 0x500000000
      ∧ observeExec rv64 aluState 0x02009193 3 = some (1, 5, 0x80000004)
      ∧ (∀ inst : Nat, inst < 2 ^ 32 → shamt inst = inst / 2 ^ 20 % 2 ^ 5) := by
  refine ⟨by decide, by decide, by decide, by decide, ?_⟩
  intro inst h
  exact shamt_eq inst h

/-! ## ADDIW -/

/-- C22, the code at the failing input: `addiw x3, x1, 1` (0x0010819B) with x1 = 0x7FFFFFFF,
for which the claim gives 0xFFFFFFFF80000000.  `exec_ADDIW` has the body of `exec_ADDI`: it
adds in 64 bits without the conversion `(int64_t)(int32_t)` of `exec_ADDW`, and x3 ends as
0x80000000. -/
theorem addiw_adds_in_64_bits :
    ofInt (i32 (addiwState.regs (rs1 0x0010819B) + imm_I 0x0010819B)) = 0xFFFFFFFF80000000
      ∧ observeExec rv64 addiwState 0x0010819B 3 = some (1, 0x80000000, 0x80000004)
      ∧ (∀ (cpu : CPU) (inst : Nat), exec_ADDIW cpu inst = exec_ADDI cpu inst) := by
  refine ⟨by decide, by decide, ?_⟩
  intro cpu inst
  rfl

/-! ## Division and remainder by zero -/

theorem cpu_execute_R_TYPE_64 (K : Opcodes) (cpu : CPU) (inst : Nat) (hF : K.FENCE ≠ 0x3b)
    (hop : opcode inst = 0x3b) :
    cpu_execute K cpu inst = case_R_TYPE_64 (cpu.setReg 0 0) inst := by
  unfold cpu_execute
  simp [hop, hF.symm, LUI, AUIPC, JAL, JALR, B_TYPE, LOAD, S_TYPE, I_TYPE, R_TYPE, I_TYPE_64,
    R_TYPE_64]

theorem case_R_TYPE_64_div (cpu : CPU) (inst : Nat) :
    (funct3 inst = 4 → case_R_TYPE_64 cpu inst = cont (exec_DIVW cpu inst))
      ∧ (funct3 inst = 5 → funct7 inst = 1 → case_R_TYPE_64 cpu inst = cont (exec_DIVUW cpu inst))
      ∧ (funct3 inst = 6 → case_R_TYPE_64 cpu inst = cont (exec_REMW cpu inst))
      ∧ (funct3 inst = 7 → case_R_TYPE_64 cpu inst = cont (exec_REMUW cpu inst)) := by
  refine ⟨?_, ?_, ?_, ?_⟩
  · intro h
    unfold case_R_TYPE_64
    simp [h, ADDSUB, DIVW]
  · intro h h7
    unfold case_R_TYPE_64
    simp [h, h7, ADDSUB, DIVW, SLLW, SRW, SRLW, SRAW, DIVUW]
  · intro h
    unfold case_R_TYPE_64
    simp [h, ADDSUB, DIVW, SLLW, SRW, REMW]
  · intro h
    unfold case_R_TYPE_64
    simp [h, ADDSUB, DIVW, SLLW, SRW, REMW, REMUW]

theorem udiv_zero (a b : Nat) (h : b = 0) : udiv a (ofInt (i64 b)) = .error .divByZero := by
  subst h
  rfl

theorem urem_zero (a b : Nat) (h : b = 0) : urem a (ofInt (i64 b)) = .error .divByZero := by
  subst h
  rfl

theorem exec_div_zero (cpu : CPU) (inst : Nat) (h : cpu.regs (rs2 inst) = 0) :
    exec_DIVW cpu inst = .error .divByZero ∧ exec_DIVUW cpu inst = .error .divByZero
      ∧ exec_REMW cpu inst = .error .divByZero ∧ exec_REMUW cpu inst = .error .divByZero := by
  refine ⟨?_, ?_, ?_, ?_⟩
  · unfold exec_DIVW
    rw [udiv_zero _ _ h]
    rfl
  · unfold exec_DIVUW
    rw [udiv_zero _ _ h]
    rfl
  · unfold exec_REMW
    rw [urem_zero _ _ h]
    rfl
  · unfold exec_REMUW
    rw [urem_zero _ _ h]
    rfl

theorem setReg_zero_regs_eq_zero (cpu : CPU) (i : Nat) (h : cpu.regs i = 0) :
    (cpu.setReg 0 0).regs i = 0 := by
  unfold CPU.setReg
  simp only []
  split_ifs
  · rfl
  · exact h

/-- C23, the claim at two divisors whose low 32 bits are zero.  With x1 = 7 and x2 = 0,
`divw x3, x1, x2` (0x0220C1BB) does not complete: `exec_DIVW` divides by `regs[rs2]` with the
host's `/`, and the divisor is zero.  With x1 = 2^33 and x2 = 2^32 it completes with x3 = 2,
the quotient of the 64-bit values, not with 2^64 - 1. -/
theorem divw_by_zero_does_not_complete :
    divZeroState.regs (rs2 0x0220C1BB) % 2 ^ 32 = 0
      ∧ observeExec rv64 divZeroState 0x0220C1BB 3 = none
      ∧ faultExec rv64 divZeroState 0x0220C1BB = some .divByZero
      ∧ divHighState.regs (rs2 0x0220C1BB) % 2 ^ 32 = 0
      ∧ observeExec rv64 divHighState 0x0220C1BB 3 = some (1, 2, 0x80000004) := by
  refine ⟨by decide, by decide, by decide, by decide, by decide⟩

/-- C23 as amended: for every DIVW, DIVUW, REMW or REMUW instruction whose divisor `regs[rs2]`
is zero, execution does not complete and writes no register: the function divides by
`regs[rs2]` with the host's `/` or `%`, which has no result for a zero divisor.  This holds of
the four functions and of `cpu_execute` on opcode 0x3b with funct3 4 (DIVW), funct3 5 and
funct7 1 (DIVUW), funct3 6 (REMW) and funct3 7 (REMUW), for every table of case labels in
which `FENCE` is not 0x3b. -/
theorem div_rem_by_zero_has_no_result (K : Opcodes) (cpu : CPU) (inst : Nat)
    (h : cpu.regs (rs2 inst) = 0) :
    exec_DIVW cpu inst = .error .divByZero ∧ exec_DIVUW cpu inst = .error .divByZero
      ∧ exec_REMW cpu inst = .error .divByZero ∧ exec_REMUW cpu inst = .error .divByZero
      ∧ (K.FENCE ≠ 0x3b → opcode inst = 0x3b →
          funct3 inst = 4 ∨ (funct3 inst = 5 ∧ funct7 inst = 1) ∨ funct3 inst = 6
            ∨ funct3 inst = 7 →
          cpu_execute K cpu inst = .error .divByZero) := by
  obtain ⟨a, b, c, d⟩ := exec_div_zero cpu inst h
  refine ⟨a, b, c, d, ?_⟩
  intro hF hop hf
  have h0 := setReg_zero_regs_eq_zero cpu _ h
  obtain ⟨a0, b0, c0, d0⟩ := exec_div_zero (cpu.setReg 0 0) inst h0
  obtain ⟨e4, e5, e6, e7⟩ := case_R_TYPE_64_div (cpu.setReg 0 0) inst
  rw [cpu_execute_R_TYPE_64 K cpu inst hF hop]
  rcases hf with hf | ⟨hf, hf7⟩ | hf | hf
  · rw [e4 hf, a0, cont_error]
  · rw [e5 hf hf7, b0, cont_error]
  · rw [e6 hf, c0, cont_error]
  · rw [e7 hf, d0, cont_error]

theorem div_rem_by_zero_has_no_result_witness :
    divZeroState.regs (rs2 0x0220C1BB) = 0
      ∧ cpu_execute rv64 divZeroState 0x0220C1BB = .error .divByZero :=
  ⟨by decide,
    (div_rem_by_zero_has_no_result rv64 divZeroState 0x0220C1BB (by decide)).2.2.2.2
      (by decide) (by decide) (Or.inl (by decide))⟩

/-! ## The CSR file and the CSR instructions -/

theorem csr_read_write (cpu : CPU) (i v : Nat) : csr_read (csr_write cpu i v) i = v % 2 ^ 32 := by
  unfold csr_read csr_write u64 u32
  simp only [if_pos]
  omega

/-- C24, the code at the failing input: `csr_write(cpu, 0x300, 0x100000005)` followed by
`csr_read(cpu, 0x300)` returns 5, not 0x100000005.  `csr_write` stores the 64-bit value as it
is, and the stored entry is 0x100000005, but `csr_read` returns
`(uint64_t)(uint32_t) cpu->csr[csr]`: for every index and value the read after the write
gives the value modulo 2^32. -/
theorem csr_read_drops_high_word :
    (csr_write zeroCPU 0x300 0x100000005).csr 0x300 = 0x100000005
      ∧ csr_read (csr_write zeroCPU 0x300 0x100000005) 0x300 = 5
      ∧ (∀ (cpu : CPU) (i v : Nat), csr_read (csr_write cpu i v) i = v % 2 ^ 32) := by
  refine ⟨by decide, by decide, ?_⟩
  intro cpu i v
  exact csr_read_write cpu i v

theorem exec_CSR_set_clear_regs (cpu c : CPU) (inst : Nat)
    (h : exec_CSRRS cpu inst = .ok c ∨ exec_CSRRC cpu inst = .ok c
      ∨ exec_CSRRSI cpu inst = .ok c ∨ exec_CSRRCI cpu inst = .ok c) :
    c.regs = cpu.regs := by
  rcases h with h | h | h | h
  · unfold exec_CSRRS at h
    simp only [pure_ok, Except.ok.injEq] at h
    subst h
    rfl
  · unfold exec_CSRRC at h
    simp only [pure_ok, Except.ok.injEq] at h
    subst h
    rfl
  · unfold exec_CSRRSI at h
    simp only [pure_ok, Except.ok.injEq] at h
    subst h
    rfl
  · unfold exec_CSRRCI at h
    simp only [pure_ok, Except.ok.injEq] at h
    subst h
    rfl

theorem exec_CSR_clear_zero (cpu : CPU) (inst : Nat) :
    (cpu.regs (rs1 inst) = 0 →
        ∃ c, exec_CSRRC cpu inst = .ok c ∧ c.csr (csr inst) = cpu.csr (csr inst) % 2)
      ∧ (rs1 inst = 0 →
        ∃ c, exec_CSRRCI cpu inst = .ok c ∧ c.csr (csr inst) = cpu.csr (csr inst) % 2) := by
  constructor
  · intro h
    refine ⟨_, rfl, ?_⟩
    unfold csr_write
    simp only [if_pos, h]
    exact Nat.and_one_is_mod _
  · intro h
    refine ⟨_, rfl, ?_⟩
    unfold csr_write
    simp only [if_pos, h]
    exact Nat.and_one_is_mod _

/-- C25, the code at the failing inputs: in a state with x0 = 0, x3 = 9 and the CSR 0x300
holding 6, the claim gives x3 = 6 and the CSR still 6 after each of `csrrs x3, 0x300, x0`
(0x300021F3), `csrrc x3, 0x300, x0` (0x300031F3), `csrrsi x3, 0x300, 0` (0x300061F3) and
`csrrci x3, 0x300, 0` (0x300071F3).  The four functions never assign `regs[rd]`, so x3 stays
9; `exec_CSRRC` and `exec_CSRRCI` store `csr & !source`, where `!source` is 1 for a zero
source, so the CSR is left holding its own lowest bit, 0 here. -/
theorem csr_set_clear_never_write_rd :
    observeCsr rv64 csrState 0x300021F3 3 0x300 = some (9, 6)
      ∧ observeCsr rv64 csrState 0x300031F3 3 0x300 = some (9, 0)
      ∧ observeCsr rv64 csrState 0x300061F3 3 0x300 = some (9, 6)
      ∧ observeCsr rv64 csrState 0x300071F3 3 0x300 = some (9, 0)
      ∧ (∀ (cpu c : CPU) (inst : Nat),
          exec_CSRRS cpu inst = .ok c ∨ exec_CSRRC cpu inst = .ok c
            ∨ exec_CSRRSI cpu inst = .ok c ∨ exec_CSRRCI cpu inst = .ok c →
          c.regs = cpu.regs)
      ∧ (∀ (cpu : CPU) (inst : Nat), cpu.regs (rs1 inst) = 0 →
          ∃ c, exec_CSRRC cpu inst = .ok c ∧ c.csr (csr inst) = cpu.csr (csr inst) % 2)
      ∧ (∀ (cpu : CPU) (inst : Nat), rs1 inst = 0 →
          ∃ c, exec_CSRRCI cpu inst = .ok c ∧ c.csr (csr inst) = cpu.csr (csr inst) % 2) := by
  refine ⟨by decide, by decide, by decide, by decide, ?_, ?_, ?_⟩
  · intro cpu c inst h
    exact exec_CSR_set_clear_regs cpu c inst h
  · intro cpu inst h
    exact (exec_CSR_clear_zero cpu inst).1 h
  · intro cpu inst h
    exact (exec_CSR_clear_zero cpu inst).2 h

/-! ## AMOADD.W -/

theorem exec_AMOADD_W_rd_eq_rs1 (cpu : CPU) (inst t : Nat) (hrd : rd inst = rs1 inst)
    (ht : cpu_load cpu (cpu.regs (rs1 inst)) 32 = .ok t) :
    exec_AMOADD_W cpu inst
      = cpu_store (cpu.setReg (rd inst) (u32 t)) (u32 t) 32
          (u32 (u32 t + u32 (cpu.regs (rs2 inst)))) := by
  unfold exec_AMOADD_W
  rw [ht, bind_ok]
  simp only []
  rw [← hrd, setReg_regs_self]

/-- C26, the code at the failing input: `amoadd.w x1, x2, (x1)` (0x0020A0AF, rd = rs1 = x1)
with x1 = 0x80000010, x2 = 1 and the word t = 0x80000020 at address 0x80000010.  The claim
gives the word t + 1 at 0x80000010 and no change elsewhere.  `exec_AMOADD_W` assigns
`regs[rd] = tmp` and then reads `regs[rs1]` again for the address of the store, so with
rd = rs1 it stores at address t: the word at 0x80000010 is still t and the word at 0x80000020
has changed from 0 to t + 1. -/
theorem amoadd_rd_rs1_stores_at_loaded_value :
    rd 0x0020A0AF = 1 ∧ rs1 0x0020A0AF = 1 ∧ rs2 0x0020A0AF = 2
      ∧ loadWord amoState 0x80000010 = some 0x80000020
      ∧ loadWord amoState 0x80000020 = some 0
      ∧ observeExec rv64 amoState 0x0020A0AF 1 = some (1, 0x80000020, 0x80000004)
      ∧ observeWord rv64 amoState 0x0020A0AF 0x80000010 = some 0x80000020
      ∧ observeWord rv64 amoState 0x0020A0AF 0x80000020 = some 0x80000021
      ∧ (∀ (cpu : CPU) (inst t : Nat), rd inst = rs1 inst →
          cpu_load cpu (cpu.regs (rs1 inst)) 32 = .ok t →
          exec_AMOADD_W cpu inst
            = cpu_store (cpu.setReg (rd inst) (u32 t)) (u32 t) 32
                (u32 (u32 t + u32 (cpu.regs (rs2 inst))))) := by
  refine ⟨by decide, by decide, by decide, by decide, by decide, by decide, by decide,
    by decide, ?_⟩
  intro cpu inst t hrd ht
  exact exec_AMOADD_W_rd_eq_rs1 cpu inst t hrd ht

/-! ## I-type shifts with another funct7 -/

/-- C27, the claim at `0x2000D193` (opcode 0x13, funct3 5, funct7 0x10): `cpu_execute` returns
the continue result 1, not the halt result 0. -/
theorem sri_other_funct7_returns_one :
    opcode 0x2000D193 = 0x13 ∧ funct3 0x2000D193 = 5 ∧ funct7 0x2000D193 = 0x10
      ∧ observeExec rv64 aluState 0x2000D193 3 = some (1, 0, 0x80000004) := by
  refine ⟨by decide, by decide, by decide, by decide⟩

/-- C27 as amended: for every instruction word with opcode 0x13, funct3 0b101 and funct7
different from both 0x00 and 0x20, `cpu_execute` runs no instruction function and returns the
continue result 1, so the driver loop goes on: the inner `switch (funct7)` has the arm
`default: ;`, and the state is the one on entry with `regs[0]` set to 0. -/
theorem sri_other_funct7_is_skipped (K : Opcodes) (cpu : CPU) (inst : Nat)
    (hop : opcode inst = 0x13) (hf3 : funct3 inst = 5) (h0 : funct7 inst ≠ 0x00)
    (h20 : funct7 inst ≠ 0x20) :
    cpu_execute K cpu inst = .ok (1, cpu.setReg 0 0) := by
  rw [cpu_execute_I_TYPE K cpu inst hop]
  unfold case_I_TYPE
  simp [hf3, h0, h20, ADDI, SLLI, SLTI, SLTIU, XORI, SRI, SRLI, SRAI]
  rfl

theorem sri_other_funct7_is_skipped_witness :
    cpu_execute rv64 aluState 0x2000D193 = .ok (1, aluState.setReg 0 0) :=
  sri_other_funct7_is_skipped rv64 aluState 0x2000D193 (by decide) (by decide) (by decide)
    (by decide)

/-! ## Register 0 on entry to `cpu_execute` -/

theorem setReg_zero_idem (cpu : CPU) (v : Nat) : (cpu.setReg 0 v).setReg 0 0 = cpu.setReg 0 0 := by
  unfold CPU.setReg
  simp only [CPU.mk.injEq, and_true, true_and]
  funext j
  split_ifs <;> rfl

theorem cpu_execute_setReg_zero (K : Opcodes) (cpu : CPU) (inst v : Nat) :
    cpu_execute K (cpu.setReg 0 v) inst = cpu_execute K (cpu.setReg 0 0) inst := by
  unfold cpu_execute
  simp only [setReg_zero_idem]

/-- C28: the value in register 0 on entry does not influence `cpu_execute`.  For every table of
case labels, state and instruction word, `cpu_execute` gives the same result (fault or
returned value together with registers, pc, memory and CSRs) on the state and on the state
with `regs[0]` replaced by 0, and so the same result whatever value `regs[0]` holds; the state
the instruction functions read has `regs[0] = 0`.  For instance `addi x1, x0, 5` (0x00500093)
run with 7 in register 0 leaves x1 = 5. -/
theorem cpu_execute_ignores_x0 (K : Opcodes) (cpu : CPU) (inst : Nat) :
    cpu_execute K cpu inst = cpu_execute K (cpu.setReg 0 0) inst
      ∧ (∀ v w : Nat, cpu_execute K (cpu.setReg 0 v) inst = cpu_execute K (cpu.setReg 0 w) inst)
      ∧ (cpu.setReg 0 0).regs 0 = 0
      ∧ observeExec rv64 (aluState.setReg 0 7) 0x00500093 1 = some (1, 5, 0x80000004) := by
  refine ⟨?_, ?_, ?_, by decide⟩
  · unfold cpu_execute
    simp only [setReg_zero_idem]
  · intro v w
    rw [cpu_execute_setReg_zero K cpu inst v, cpu_execute_setReg_zero K cpu inst w]
  · exact setReg_regs_self _ _ _

end RiscvEmu
